import Mathlib

/-!
Tetris multiplayer server: a shallow embedding of `src/server/index.js`.

The game logic (collision test, lock, line clear, rotation, hard drop), the room
and player objects, the socket event handlers and the single-player score
endpoints of the server are embedded as Lean functions, and so is the
`rotateMatrix` of the client components `TetrisGame` and `SinglePlayerGame`.
JavaScript objects that are shared by reference (the `Player` objects held both by
the global `players` map and by each room's `players` map) live in an explicit
object store; `Math.random` is an explicit sequence of
draws; a thrown `TypeError` and a loop that does not stop are explicit faults.
-/

namespace Tetris

/-! ## Values, boards and pieces -/

/-- JavaScript values held in board and shape cells: a number, a string (a colour
tag such as 'gray') or `undefined`.  An array hole reads as `undefined`, passes the
test `cell !== 0` and is falsy, exactly like `undefined`, so both are `undef`. -/
inductive Val where
  | num (n : Int)
  | str (s : String)
  | undef
deriving DecidableEq, Repr

/-- Truthiness of a cell, as in `if (shape[py][px])`. -/
def Val.truthy : Val → Bool
  | .num n => n != 0
  | .str s => s != ""
  | .undef => false

/-- The test `cell !== 0`. -/
def Val.nonZero (v : Val) : Bool := v != Val.num 0

/-- A JavaScript number used as a score: a natural number or `NaN`. -/
inductive Num where
  | val (n : Nat)
  | nan
deriving DecidableEq, Repr

/-- Addition of scores; `NaN` is absorbing. -/
def Num.add : Num → Num → Num
  | .val a, .val b => .val (a + b)
  | _, _ => .nan

/-- Ways in which a JavaScript call does not return normally. -/
inductive Fault where
  | typeError
  | outOfFuel
deriving DecidableEq, Repr

abbrev Board := List (List Val)

abbrev Shape := List (List Val)

structure Piece where
  type : String
  shape : Shape
  color : String
  x : Int
  y : Int
deriving DecidableEq, Repr

/-- The per-player game state object.  `isAlive` and `slowed` are absent
(`undefined`, which is falsy) until the server sets them; they are modelled as
`false` in that case. -/
structure GameState where
  board : Board
  currentPiece : Piece
  nextPiece : Piece
  score : Num
  lines : Nat
  level : Nat
  gameOver : Bool
  powerUps : List String
  shields : Nat
  isAlive : Bool
  slowed : Bool
deriving DecidableEq, Repr

/-- The successive values of `Math.random`, read in order: the k-th call of
`Math.floor(Math.random() * n)` returns `draws k % n`. -/
structure Rng where
  draws : Nat → Nat
  pos : Nat

/-- One call of `Math.floor(Math.random() * n)`. -/
def Rng.next (g : Rng) (n : Nat) : Nat × Rng :=
  (g.draws g.pos % n, { g with pos := g.pos + 1 })

structure Tetromino where
  name : String
  shape : Shape
  color : String
deriving DecidableEq, Repr

/-- The table `TETROMINOS`, in key order (the order of `Object.keys`). -/
def TETROMINOS : List Tetromino :=
  [ ⟨"I", [[.num 1, .num 1, .num 1, .num 1]], "#00f0f0"⟩,
    ⟨"O", [[.num 1, .num 1], [.num 1, .num 1]], "#f0f000"⟩,
    ⟨"T", [[.num 0, .num 1, .num 0], [.num 1, .num 1, .num 1]], "#a000f0"⟩,
    ⟨"S", [[.num 0, .num 1, .num 1], [.num 1, .num 1, .num 0]], "#00f000"⟩,
    ⟨"Z", [[.num 1, .num 1, .num 0], [.num 0, .num 1, .num 1]], "#f00000"⟩,
    ⟨"J", [[.num 1, .num 0, .num 0], [.num 1, .num 1, .num 1]], "#0000f0"⟩,
    ⟨"L", [[.num 0, .num 0, .num 1], [.num 1, .num 1, .num 1]], "#f0a000"⟩ ]

/-- The piece object `getRandomPiece` builds for a tetromino. -/
def pieceOf (t : Tetromino) : Piece :=
  { type := t.name
    shape := t.shape
    color := t.color
    x := (10 - ((t.shape.headD []).length : Int)) / 2
    y := 0 }

/-- The function `getRandomPiece`: one draw among the 7 keys. -/
def getRandomPiece (g : Rng) : Piece × Rng :=
  let r := g.next 7
  (pieceOf (TETROMINOS.getD r.1 ⟨"I", [[.num 1, .num 1, .num 1, .num 1]], "#00f0f0"⟩), r.2)

/-- The row `Array(10).fill(0)`. -/
def emptyRow : List Val := List.replicate 10 (Val.num 0)

/-- The board `Array(20).fill().map(() => Array(10).fill(0))`. -/
def emptyBoard : Board := List.replicate 20 emptyRow

/-- The method `GameRoom.createInitialGameState`: the current piece is drawn before the next
piece. -/
def createInitialGameState (g : Rng) : GameState × Rng :=
  let c := getRandomPiece g
  let n := getRandomPiece c.2
  ({ board := emptyBoard
     currentPiece := c.1
     nextPiece := n.1
     score := .val 0
     lines := 0
     level := 1
     gameOver := false
     powerUps := []
     shields := 0
     isAlive := false
     slowed := false }, n.2)

/-! ## Board engine -/

/-- The cells of a shape in the order in which the nested loops
`for py ... for px ...` visit them, as triples `(py, px, shape[py][px])`. -/
def shapeCells (shape : Shape) : List (Nat × Nat × Val) :=
  shape.enum.flatMap (fun r => r.2.enum.map (fun c => (r.1, c.1, c.2)))

/-- The loops of `isValidMove` over the remaining cells.  The first component
lists the board positions `(row, column)` that were read, in order; the second is
the returned value, or the `TypeError` raised when `board[newY]` is `undefined`. -/
def isValidMoveScan (board : Board) (x y : Int) :
    List (Nat × Nat × Val) → List (Int × Int) × Except Fault Bool
  | [] => ([], .ok true)
  | (py, px, v) :: rest =>
    if v.truthy then
      let newX := x + (px : Int)
      let newY := y + (py : Int)
      if newX < 0 ∨ newX ≥ 10 ∨ newY ≥ 20 then ([], .ok false)
      else if newY ≥ 0 then
        match board[newY.toNat]? with
        | none => ([(newY, newX)], .error .typeError)
        | some row =>
          if ((row[newX.toNat]?).getD Val.undef).nonZero then ([(newY, newX)], .ok false)
          else
            let r := isValidMoveScan board x y rest
            ((newY, newX) :: r.1, r.2)
      else isValidMoveScan board x y rest
    else isValidMoveScan board x y rest

/-- The function `isValidMove(gameState, shape, x, y)`. -/
def isValidMove (gameState : GameState) (shape : Shape) (x y : Int) : Except Fault Bool :=
  (isValidMoveScan gameState.board x y (shapeCells shape)).2

/-- The board positions `isValidMove` reads, in order. -/
def isValidMoveReads (gameState : GameState) (shape : Shape) (x y : Int) : List (Int × Int) :=
  (isValidMoveScan gameState.board x y (shapeCells shape)).1

/-- The function `isValidPosition(gameState)`. -/
def isValidPosition (gameState : GameState) : Except Fault Bool :=
  isValidMove gameState gameState.currentPiece.shape gameState.currentPiece.x
    gameState.currentPiece.y

/-- The function `isGameOver(gameState)`. -/
def isGameOver (gameState : GameState) : Except Fault Bool :=
  (isValidMove gameState gameState.currentPiece.shape gameState.currentPiece.x
    gameState.currentPiece.y).map (fun b => !b)

/-- The function `movePiece(gameState, direction)`. -/
def movePiece (gameState : GameState) (direction : String) : Except Fault (GameState × Bool) :=
  let piece := gameState.currentPiece
  let newX := if direction = "left" then piece.x - 1 else piece.x + 1
  match isValidMove gameState piece.shape newX piece.y with
  | .error e => .error e
  | .ok true => .ok ({ gameState with currentPiece := { piece with x := newX } }, true)
  | .ok false => .ok (gameState, false)

/-- The function `rotateMatrix(matrix)` of the server: with `N = matrix.length`, an N-by-N array
whose cell `(i, j)` is `matrix[N - 1 - j][i]`.  Every cell of the result is
assigned exactly once by the two loops; a read past the end of a row gives
`undefined`. -/
def rotateMatrix (matrix : Shape) : Shape :=
  let N := matrix.length
  (List.range N).map (fun i =>
    (List.range N).map (fun j => ((matrix.getD (N - 1 - j) [])[i]?).getD Val.undef))

/-- The function `rotatePiece(gameState)`. -/
def rotatePiece (gameState : GameState) : Except Fault (GameState × Bool) :=
  let piece := gameState.currentPiece
  let rotated := rotateMatrix piece.shape
  match isValidMove gameState rotated piece.x piece.y with
  | .error e => .error e
  | .ok true => .ok ({ gameState with currentPiece := { piece with shape := rotated } }, true)
  | .ok false => .ok (gameState, false)

/-- The function `dropPiece(gameState)`. -/
def dropPiece (gameState : GameState) : Except Fault (GameState × Bool) :=
  let piece := gameState.currentPiece
  let newY := piece.y + 1
  match isValidMove gameState piece.shape piece.x newY with
  | .error e => .error e
  | .ok true =>
    .ok ({ gameState with
            currentPiece := { piece with y := newY }
            score := gameState.score.add (.val 1) }, true)
  | .ok false => .ok (gameState, false)

/-- The assignment `row[c] = v` on an array: an index inside the row replaces the
cell, an index past the end extends the row (the skipped cells are holes), and a
negative index sets a named property and leaves the cells as they are. -/
def rowSet (row : List Val) (c : Int) (v : Val) : List Val :=
  if c < 0 then row
  else if c.toNat < row.length then row.set c.toNat v
  else row ++ List.replicate (c.toNat - row.length) Val.undef ++ [v]

/-- The assignment `board[r][c] = v`; a `TypeError` when `board[r]` is `undefined`. -/
def boardWrite (board : Board) (r c : Int) (v : Val) : Except Fault Board :=
  if r < 0 then .error .typeError
  else
    match board[r.toNat]? with
    | none => .error .typeError
    | some row => .ok (board.set r.toNat (rowSet row c v))

/-- The loops of `lockPiece` over the remaining shape cells. -/
def lockCells (piece : Piece) : List (Nat × Nat × Val) → Board → Except Fault Board
  | [], board => .ok board
  | (y, x, v) :: rest, board =>
    if v.truthy then
      let boardY := piece.y + (y : Int)
      let boardX := piece.x + (x : Int)
      if boardY ≥ 0 then
        match boardWrite board boardY boardX (Val.str piece.color) with
        | .error e => .error e
        | .ok board1 => lockCells piece rest board1
      else lockCells piece rest board
    else lockCells piece rest board

/-- The function `lockPiece(gameState)`. -/
def lockPiece (gameState : GameState) : Except Fault GameState :=
  match lockCells gameState.currentPiece (shapeCells gameState.currentPiece.shape)
      gameState.board with
  | .error e => .error e
  | .ok board => .ok { gameState with board := board }

/-- The `while` loop of `hardDrop`, started with `dropDistance = d`; `fuel` bounds
the number of iterations, and running out of it is the fault `outOfFuel`. -/
def hardDropLoop (gameState : GameState) : Nat → Nat → Except Fault Nat
  | 0, _ => .error .outOfFuel
  | fuel + 1, d =>
    match isValidMove gameState gameState.currentPiece.shape gameState.currentPiece.x
        (gameState.currentPiece.y + (d : Int) + 1) with
    | .error e => .error e
    | .ok true => hardDropLoop gameState fuel (d + 1)
    | .ok false => .ok d

/-- The function `hardDrop(gameState)`; returns the new state and `dropDistance`. -/
def hardDrop (fuel : Nat) (gameState : GameState) : Except Fault (GameState × Nat) :=
  match hardDropLoop gameState fuel 0 with
  | .error e => .error e
  | .ok d =>
    let piece := gameState.currentPiece
    match lockPiece { gameState with
                      currentPiece := { piece with y := piece.y + (d : Int) }
                      score := gameState.score.add (.val (d * 2)) } with
    | .error e => .error e
    | .ok gs => .ok (gs, d)

/-- The array `linesToClear` of `checkLineClears`: the indices y, from
`board.length - 1` down to 0, of the rows in which every cell passes `cell !== 0`. -/
def linesToClear (board : Board) : List Nat :=
  (board.enum.reverse.filter (fun r => r.2.all Val.nonZero)).map (fun r => r.1)

/-- One step of the `forEach` of `checkLineClears`: `board.splice(line, 1)` followed
by `board.unshift(Array(10).fill(0))`. -/
def clearLine (board : Board) (line : Nat) : Board :=
  emptyRow :: board.eraseIdx line

/-- The function `checkLineClears(board)`: the board after the call and the returned count. -/
def checkLineClears (board : Board) : Board × Nat :=
  ((linesToClear board).foldl clearLine board, (linesToClear board).length)

/-- The function `calculateScore(lines, level)`: `scoreMap[lines] * level`, which is `NaN` when
`lines` is not a key of the table. -/
def calculateScore (lines level : Nat) : Num :=
  match lines with
  | 1 => .val (100 * level)
  | 2 => .val (300 * level)
  | 3 => .val (500 * level)
  | 4 => .val (800 * level)
  | _ => .nan

/-- The garbage row: `Array(10).fill('gray')` with `garbageLine[holeIndex] = 0`. -/
def garbageLine (holeIndex : Nat) : List Val :=
  (List.replicate 10 (Val.str "gray")).set holeIndex (Val.num 0)

/-- The garbage loop, run `n` times: `board.shift()`, one draw for the hole, then
`board.push(garbageLine)`. -/
def addGarbage : Nat → Board → Rng → Board × Rng
  | 0, board, g => (board, g)
  | n + 1, board, g =>
    let r := g.next 10
    addGarbage n (board.tail ++ [garbageLine r.1]) r.2

/-- The list `availablePowerUps` of `awardPowerUp`. -/
def availablePowerUps : List String :=
  ["clear_lines", "slow_opponent", "add_garbage", "shield"]

/-- The function `awardPowerUp(player)`, on the player's game state. -/
def awardPowerUp (gameState : GameState) (g : Rng) : GameState × Rng :=
  let r := g.next 4
  let randomPowerUp := availablePowerUps.getD r.1 ""
  if gameState.powerUps.contains randomPowerUp then (gameState, r.2)
  else ({ gameState with powerUps := gameState.powerUps ++ [randomPowerUp] }, r.2)

/-- The function `spawnNewPiece(gameState)`. -/
def spawnNewPiece (gameState : GameState) (g : Rng) : GameState × Rng :=
  let r := getRandomPiece g
  ({ gameState with currentPiece := gameState.nextPiece, nextPiece := r.1 }, r.2)

deriving instance DecidableEq for Except

/-! ## Players, rooms and the registries -/

abbrev SocketId := String

abbrev RoomId := String

/-- A reference to a `Player` object. -/
abbrev Ref := Nat

/-- The `Player` object. -/
structure Player where
  id : SocketId
  username : String
  socketId : SocketId
  roomId : Option RoomId
  gameState : Option GameState
  isReady : Bool
  score : Nat
  wins : Nat
  losses : Nat
deriving DecidableEq, Repr

/-- The values of `GameRoom.gameState`. -/
inductive RoomStatus where
  | waiting
  | playing
  | finished
deriving DecidableEq, Repr

/-- The `GameRoom` object.  `players` is the room's `Map` from player id to
`Player` object, in insertion order.  The constant fields `powerUps` and
`tournamentMode`, which no code reads, are left out. -/
structure GameRoom where
  id : RoomId
  name : String
  maxPlayers : Nat
  isPrivate : Bool
  players : List (SocketId × Ref)
  gameState : RoomStatus
  gameMode : String
deriving DecidableEq, Repr

/-- The object store: the `Player` object behind each reference. -/
abbrev Heap := Ref → Player

/-- Replace the object behind reference `r`. -/
def setObj (heap : Heap) (r : Ref) (p : Player) : Heap :=
  fun r1 => if r1 = r then p else heap r1

/-- The method `Map.prototype.set`: the value of an existing key is replaced where it
stands, a new key is added at the end. -/
def mapSet {α : Type} (m : List (String × α)) (k : String) (v : α) : List (String × α) :=
  if (m.lookup k).isSome then m.map (fun e => if e.1 = k then (k, v) else e)
  else m ++ [(k, v)]

/-- The method `Map.prototype.delete`. -/
def mapDelete {α : Type} (m : List (String × α)) (k : String) : List (String × α) :=
  m.filter (fun e => decide (e.1 ≠ k))

/-- The effect, on a `Map`, of mutating in place the object stored under `k`. -/
def mapReplace {α : Type} (m : List (String × α)) (k : String) (v : α) : List (String × α) :=
  m.map (fun e => if e.1 = k then (e.1, v) else e)

/-- Truthiness of a string. -/
def strTruthy (s : String) : Bool := s != ""

/-- The constructor call `new Player(id, username, socketId)`. -/
def Player.new (id : SocketId) (username : String) (socketId : SocketId) : Player :=
  { id := id, username := username, socketId := socketId, roomId := none, gameState := none
    isReady := false, score := 0, wins := 0, losses := 0 }

/-- The constructor call `new GameRoom(id, name, maxPlayers, isPrivate)`. -/
def GameRoom.new (id : RoomId) (name : String) (maxPlayers : Nat) (isPrivate : Bool) : GameRoom :=
  { id := id, name := name, maxPlayers := maxPlayers, isPrivate := isPrivate, players := []
    gameState := .waiting, gameMode := "battle" }

/-- The method `GameRoom.addPlayer(player)`: the room and the store after the call, and the
returned boolean. -/
def GameRoom.addPlayer (room : GameRoom) (heap : Heap) (player : Ref) : GameRoom × Heap × Bool :=
  if room.players.length < room.maxPlayers then
    ({ room with players := mapSet room.players (heap player).id player },
     setObj heap player { heap player with roomId := some room.id }, true)
  else (room, heap, false)

/-- The method `GameRoom.removePlayer(playerId)`: the room after the call and the global
`gameRooms` map, from which the room is deleted when it has become empty. -/
def GameRoom.removePlayer (room : GameRoom) (gameRooms : List (RoomId × GameRoom))
    (playerId : SocketId) : GameRoom × List (RoomId × GameRoom) :=
  let room1 := { room with players := mapDelete room.players playerId }
  if room1.players.length = 0 then (room1, mapDelete gameRooms room1.id)
  else (room1, gameRooms)

/-- The method `GameRoom.startGame()`: every member, in insertion order, receives a new game
state with `isAlive` set. -/
def GameRoom.startGame (room : GameRoom) (heap : Heap) (g : Rng) : GameRoom × Heap × Rng :=
  let r := room.players.foldl (fun (acc : Heap × Rng) m =>
    let s := createInitialGameState acc.2
    (setObj acc.1 m.2 { acc.1 m.2 with gameState := some { s.1 with isAlive := true } }, s.2))
    (heap, g)
  ({ room with gameState := .playing }, r.1, r.2)

/-- The messages the server emits; the snapshots they carry are not recorded. -/
inductive Emit where
  | playerJoined (playerId : SocketId) (username : String)
  | roomCreated (roomId : RoomId)
  | roomJoined (roomId : RoomId)
  | playerJoinedRoom (roomId : RoomId) (playerId : SocketId)
  | gameStart (roomId : RoomId)
  | roomFull (roomId : RoomId)
  | roomNotFound (roomId : RoomId)
  | playerLeft (roomId : RoomId) (playerId : SocketId)
  | gameUpdate (roomId : RoomId) (playerId : SocketId)
  | gameOver (roomId : RoomId) (winner : Option SocketId)
  | powerupUsed (roomId : RoomId) (playerId : SocketId) (powerUp : String)
      (targetPlayerId : Option SocketId)
deriving DecidableEq, Repr

/-- The `move` payload of a `game:move` message. -/
structure Move where
  type : String
  direction : String
deriving DecidableEq, Repr

/-- The function `sendGarbageLines(room, sender, lines)`.  The opponents are the members whose
id differs from the sender's, so the sender's own object is never written. -/
def sendGarbageLines (heap : Heap) (g : Rng) (room : GameRoom) (sender : Ref) (lines : Nat) :
    Heap × Rng :=
  let opponents := room.players.filter (fun m => decide ((heap m.2).id ≠ (heap sender).id))
  opponents.foldl (fun (acc : Heap × Rng) m =>
    match (acc.1 m.2).gameState with
    | none => acc
    | some gs =>
      if gs.isAlive then
        let r := addGarbage lines gs.board acc.2
        (setObj acc.1 m.2 { acc.1 m.2 with gameState := some { gs with board := r.1 } }, r.2)
      else acc) (heap, g)

/-- The test `p.gameState.isAlive` on a player that has a game state. -/
def Player.alive (p : Player) : Bool :=
  match p.gameState with
  | some s => s.isAlive
  | none => false

/-- The callback of the `forEach` of `handleGameOver` that updates the statistics:
`if (p.id === winner?.id) p.wins++ else p.losses++` (`winnerId` is `none` when
`winner?.id` is `undefined`, which equals no id). -/
def updateStat (winnerId : Option SocketId) (heap : Heap) (m : SocketId × Ref) : Heap :=
  if some (heap m.2).id = winnerId then
    setObj heap m.2 { heap m.2 with wins := (heap m.2).wins + 1 }
  else setObj heap m.2 { heap m.2 with losses := (heap m.2).losses + 1 }

/-- The `forEach` of `handleGameOver` over the members, in insertion order. -/
def updateStats (winnerId : Option SocketId) (members : List (SocketId × Ref)) (heap : Heap) :
    Heap :=
  members.foldl (updateStat winnerId) heap

/-- The function `handleGameOver(room, player)`.  Reading `p.gameState.isAlive` on a member
without game state raises a `TypeError`; the filter visits every member, so this
happens exactly when some member has none. -/
def handleGameOver (heap : Heap) (room : GameRoom) (player : Ref) :
    Except Fault (Heap × GameRoom × List Emit) :=
  match (heap player).gameState with
  | none => .error .typeError
  | some gs =>
    let heap1 := setObj heap player
      { heap player with gameState := some { gs with isAlive := false, gameOver := true } }
    if room.players.any (fun m => ((heap1 m.2).gameState).isNone) then .error .typeError
    else
      let alivePlayers := room.players.filter (fun m => (heap1 m.2).alive)
      if alivePlayers.length ≤ 1 then
        let winner : Option Ref := if alivePlayers.length = 1 then alivePlayers.head?.map Prod.snd
          else none
        let winnerId : Option SocketId := winner.map (fun w => (heap1 w).id)
        .ok (updateStats winnerId room.players heap1, { room with gameState := .finished },
          [Emit.gameOver room.id winnerId])
      else .ok (heap1, room, [])

/-- The function `handleGameMove(room, player, move)`.  `gameState` is the player's own game
state object; it is written back to the store before `handleGameOver` reads the
members' states. -/
def handleGameMove (fuel : Nat) (heap : Heap) (g : Rng) (room : GameRoom) (player : Ref)
    (move : Move) : Except Fault (Heap × Rng × GameRoom × List Emit) :=
  match (heap player).gameState with
  | none => .error .typeError
  | some gs0 =>
    let acted : Except Fault GameState :=
      if move.type = "move" then (movePiece gs0 move.direction).map Prod.fst
      else if move.type = "rotate" then (rotatePiece gs0).map Prod.fst
      else if move.type = "drop" then (dropPiece gs0).map Prod.fst
      else if move.type = "hard_drop" then (hardDrop fuel gs0).map Prod.fst
      else .ok gs0
    match acted with
    | .error e => .error e
    | .ok gs1 =>
      let cl := checkLineClears gs1.board
      let clearedLines := cl.2
      let gs2 : GameState := { gs1 with board := cl.1 }
      let gs3 : GameState :=
        if clearedLines > 0 then
          { gs2 with
            lines := gs2.lines + clearedLines
            score := gs2.score.add (calculateScore clearedLines gs2.level) }
        else gs2
      let hg : Heap × Rng :=
        if clearedLines > 0 ∧ room.gameMode = "battle" ∧ clearedLines > 1 then
          sendGarbageLines heap g room player (clearedLines - 1)
        else (heap, g)
      let ag : GameState × Rng :=
        if clearedLines > 0 ∧ clearedLines ≥ 2 then awardPowerUp gs3 hg.2 else (gs3, hg.2)
      let spawnNeeded : Except Fault Bool :=
        if ag.1.currentPiece.y ≥ 20 then .ok true
        else (isValidPosition ag.1).map (fun b => !b)
      match spawnNeeded with
      | .error e => .error e
      | .ok needed =>
        let sp : GameState × Rng := if needed then spawnNewPiece ag.1 ag.2 else ag
        match isGameOver sp.1 with
        | .error e => .error e
        | .ok false =>
          .ok (setObj hg.1 player { hg.1 player with gameState := some sp.1 }, sp.2, room,
            [Emit.gameUpdate room.id (heap player).id])
        | .ok true =>
          let gs5 : GameState := { sp.1 with gameOver := true, isAlive := false }
          match handleGameOver (setObj hg.1 player { hg.1 player with gameState := some gs5 })
              room player with
          | .error e => .error e
          | .ok r => .ok (r.1, sp.2, r.2.1, r.2.2 ++ [Emit.gameUpdate room.id (heap player).id])

/-- The callback of the `forEach` of `sendGarbageLines`, for one opponent: an
opponent with a game state that is alive receives `lines` garbage rows. -/
def garbageStep (lines : Nat) (acc : Heap × Rng) (m : SocketId × Ref) : Heap × Rng :=
  match (acc.1 m.2).gameState with
  | none => acc
  | some gs =>
    if gs.isAlive then
      let r := addGarbage lines gs.board acc.2
      (setObj acc.1 m.2 { acc.1 m.2 with gameState := some { gs with board := r.1 } }, r.2)
    else acc

/-- The `switch (move.type)` of `handleGameMove`: the acting player's game state
after the action; an unknown type does nothing. -/
def applyAction (fuel : Nat) (gameState : GameState) (move : Move) : Except Fault GameState :=
  if move.type = "move" then (movePiece gameState move.direction).map Prod.fst
  else if move.type = "rotate" then (rotatePiece gameState).map Prod.fst
  else if move.type = "drop" then (dropPiece gameState).map Prod.fst
  else if move.type = "hard_drop" then (hardDrop fuel gameState).map Prod.fst
  else .ok gameState

/-- The part of `handleGameMove` that follows the `switch`, for the acting player's
game state `gs1` after the action: line clears with lines and score, garbage and
power-up, spawn test, game-over test and the `game:update` broadcast. -/
def afterAction (heap : Heap) (g : Rng) (room : GameRoom) (player : Ref) (gs1 : GameState) :
    Except Fault (Heap × Rng × GameRoom × List Emit) :=
  let cl := checkLineClears gs1.board
  let clearedLines := cl.2
  let gs2 : GameState := { gs1 with board := cl.1 }
  let gs3 : GameState :=
    if clearedLines > 0 then
      { gs2 with
        lines := gs2.lines + clearedLines
        score := gs2.score.add (calculateScore clearedLines gs2.level) }
    else gs2
  let hg : Heap × Rng :=
    if clearedLines > 0 ∧ room.gameMode = "battle" ∧ clearedLines > 1 then
      sendGarbageLines heap g room player (clearedLines - 1)
    else (heap, g)
  let ag : GameState × Rng :=
    if clearedLines > 0 ∧ clearedLines ≥ 2 then awardPowerUp gs3 hg.2 else (gs3, hg.2)
  let spawnNeeded : Except Fault Bool :=
    if ag.1.currentPiece.y ≥ 20 then .ok true
    else (isValidPosition ag.1).map (fun b => !b)
  match spawnNeeded with
  | .error e => .error e
  | .ok needed =>
    let sp : GameState × Rng := if needed then spawnNewPiece ag.1 ag.2 else ag
    match isGameOver sp.1 with
    | .error e => .error e
    | .ok false =>
      .ok (setObj hg.1 player { hg.1 player with gameState := some sp.1 }, sp.2, room,
        [Emit.gameUpdate room.id (heap player).id])
    | .ok true =>
      let gs5 : GameState := { sp.1 with gameOver := true, isAlive := false }
      match handleGameOver (setObj hg.1 player { hg.1 player with gameState := some gs5 })
          room player with
      | .error e => .error e
      | .ok r => .ok (r.1, sp.2, r.2.1, r.2.2 ++ [Emit.gameUpdate room.id (heap player).id])

/-- Apply `f` to the game state of the object behind `r`; a `TypeError` when that
object has no game state. -/
def modifyGameState (heap : Heap) (r : Ref) (f : GameState → GameState) : Except Fault Heap :=
  match (heap r).gameState with
  | none => .error .typeError
  | some gs => .ok (setObj heap r { heap r with gameState := some (f gs) })

/-- The function `handlePowerUp(room, player, powerUp, targetPlayerId)`.  The timer that resets
`slowed` after five seconds is not part of the model. -/
def handlePowerUp (heap : Heap) (g : Rng) (room : GameRoom) (player : Ref) (powerUp : String)
    (targetPlayerId : Option SocketId) : Except Fault (Heap × Rng × List Emit) :=
  match (heap player).gameState with
  | none => .error .typeError
  | some gs =>
    if !gs.powerUps.contains powerUp then .ok (heap, g, [])
    else
      let target : Option Ref :=
        match targetPlayerId with
        | some t => if strTruthy t then room.players.lookup t else none
        | none => none
      let effect : Except Fault (Heap × Rng) :=
        if powerUp = "clear_lines" then
          (modifyGameState heap player (fun s =>
            { s with board := emptyRow :: emptyRow :: s.board.take (s.board.length - 2) })).map
            (fun h => (h, g))
        else if powerUp = "slow_opponent" then
          match target with
          | some t => (modifyGameState heap t (fun s => { s with slowed := true })).map
              (fun h => (h, g))
          | none => .ok (heap, g)
        else if powerUp = "add_garbage" then
          match target with
          | some t =>
            match (heap t).gameState with
            | none => .error .typeError
            | some s =>
              let r := addGarbage 3 s.board g
              .ok (setObj heap t { heap t with gameState := some { s with board := r.1 } }, r.2)
          | none => .ok (heap, g)
        else if powerUp = "shield" then
          (modifyGameState heap player (fun s => { s with shields := s.shields + 1 })).map
            (fun h => (h, g))
        else .ok (heap, g)
      match effect with
      | .error e => .error e
      | .ok hr =>
        match modifyGameState hr.1 player (fun s =>
            { s with powerUps := s.powerUps.filter (fun p => decide (p ≠ powerUp)) }) with
        | .error e => .error e
        | .ok h =>
          .ok (h, hr.2, [Emit.powerupUsed room.id (heap player).id powerUp targetPlayerId])

/-- The lookup `targetPlayerId ? room.players.get(targetPlayerId) : null` of
`handlePowerUp`. -/
def powerUpTarget (room : GameRoom) (targetPlayerId : Option SocketId) : Option Ref :=
  match targetPlayerId with
  | some t => if strTruthy t then room.players.lookup t else none
  | none => none

/-- The `switch (powerUp)` of `handlePowerUp`, for the looked-up target: the store
and the random source after the effect. -/
def powerUpEffect (heap : Heap) (g : Rng) (player : Ref) (powerUp : String)
    (target : Option Ref) : Except Fault (Heap × Rng) :=
  if powerUp = "clear_lines" then
    (modifyGameState heap player (fun s =>
      { s with board := emptyRow :: emptyRow :: s.board.take (s.board.length - 2) })).map
      (fun h => (h, g))
  else if powerUp = "slow_opponent" then
    match target with
    | some t => (modifyGameState heap t (fun s => { s with slowed := true })).map
        (fun h => (h, g))
    | none => .ok (heap, g)
  else if powerUp = "add_garbage" then
    match target with
    | some t =>
      match (heap t).gameState with
      | none => .error .typeError
      | some s =>
        let r := addGarbage 3 s.board g
        .ok (setObj heap t { heap t with gameState := some { s with board := r.1 } }, r.2)
    | none => .ok (heap, g)
  else if powerUp = "shield" then
    (modifyGameState heap player (fun s => { s with shields := s.shields + 1 })).map
      (fun h => (h, g))
  else .ok (heap, g)

/-! ## The socket event handlers -/

/-- The server state: the object store with its next free reference, the global
maps `players` and `gameRooms`, and the state of `Math.random`. -/
structure Server where
  heap : Heap
  next : Ref
  players : List (SocketId × Ref)
  gameRooms : List (RoomId × GameRoom)
  rng : Rng

/-- The messages a socket delivers.  `roomCreate` carries the id that
`generateRoomId` returned for it. -/
inductive Event where
  | playerJoin (socket : SocketId) (username : String)
  | roomCreate (socket : SocketId) (roomId : RoomId) (name : String) (maxPlayers : Nat)
      (isPrivate : Bool) (gameMode : String)
  | roomJoin (socket : SocketId) (roomId : RoomId)
  | gameMove (socket : SocketId) (roomId : RoomId) (move : Move)
  | powerupUse (socket : SocketId) (roomId : RoomId) (powerUp : String)
      (targetPlayerId : Option SocketId)
  | disconnect (socket : SocketId)
deriving DecidableEq, Repr

/-- The handler of `player:join`. -/
def onPlayerJoin (srv : Server) (socket : SocketId) (username : String) :
    Server × List Emit :=
  ({ srv with
      heap := setObj srv.heap srv.next (Player.new socket username socket)
      next := srv.next + 1
      players := mapSet srv.players socket srv.next },
   [Emit.playerJoined socket username])

/-- The handler of `room:create`. -/
def onRoomCreate (srv : Server) (roomId : RoomId) (name : String) (maxPlayers : Nat)
    (isPrivate : Bool) (gameMode : String) : Server × List Emit :=
  ({ srv with
      gameRooms := mapSet srv.gameRooms roomId
        { GameRoom.new roomId name maxPlayers isPrivate with gameMode := gameMode } },
   [Emit.roomCreated roomId])

/-- The handler of `room:join`. -/
def onRoomJoin (srv : Server) (socket : SocketId) (roomId : RoomId) : Server × List Emit :=
  match srv.gameRooms.lookup roomId, srv.players.lookup socket with
  | some room, some player =>
    let a := room.addPlayer srv.heap player
    if a.2.2 then
      let joined := [Emit.roomJoined roomId, Emit.playerJoinedRoom roomId (srv.heap player).id]
      if a.1.players.length = a.1.maxPlayers then
        let s := a.1.startGame a.2.1 srv.rng
        ({ srv with heap := s.2.1, rng := s.2.2, gameRooms := mapReplace srv.gameRooms roomId s.1 },
         joined ++ [Emit.gameStart roomId])
      else
        ({ srv with heap := a.2.1, gameRooms := mapReplace srv.gameRooms roomId a.1 }, joined)
    else (srv, [Emit.roomFull roomId])
  | _, _ => (srv, [Emit.roomNotFound roomId])

/-- The handler of `game:move`. -/
def onGameMove (fuel : Nat) (srv : Server) (socket : SocketId) (roomId : RoomId) (move : Move) :
    Except Fault (Server × List Emit) :=
  match srv.gameRooms.lookup roomId, srv.players.lookup socket with
  | some room, some player =>
    if room.gameState = .playing then
      match handleGameMove fuel srv.heap srv.rng room player move with
      | .error e => .error e
      | .ok r =>
        .ok ({ srv with
                heap := r.1, rng := r.2.1
                gameRooms := mapReplace srv.gameRooms roomId r.2.2.1 }, r.2.2.2)
    else .ok (srv, [])
  | _, _ => .ok (srv, [])

/-- The handler of `powerup:use`. -/
def onPowerupUse (srv : Server) (socket : SocketId) (roomId : RoomId) (powerUp : String)
    (targetPlayerId : Option SocketId) : Except Fault (Server × List Emit) :=
  match srv.gameRooms.lookup roomId, srv.players.lookup socket with
  | some room, some player =>
    if room.gameState = .playing then
      match handlePowerUp srv.heap srv.rng room player powerUp targetPlayerId with
      | .error e => .error e
      | .ok r => .ok ({ srv with heap := r.1, rng := r.2.1 }, r.2.2)
    else .ok (srv, [])
  | _, _ => .ok (srv, [])

/-- The handler of `disconnect`.  `player.roomId` is tested for truthiness, so an
empty room id counts as no room. -/
def onDisconnect (srv : Server) (socket : SocketId) : Server × List Emit :=
  match srv.players.lookup socket with
  | none => (srv, [])
  | some player =>
    let left : List (RoomId × GameRoom) × List Emit :=
      match (srv.heap player).roomId with
      | none => (srv.gameRooms, [])
      | some rid =>
        if strTruthy rid then
          match srv.gameRooms.lookup rid with
          | none => (srv.gameRooms, [])
          | some room =>
            let r := room.removePlayer srv.gameRooms socket
            (mapReplace r.2 rid r.1, [Emit.playerLeft rid socket])
        else (srv.gameRooms, [])
    ({ srv with gameRooms := left.1, players := mapDelete srv.players socket }, left.2)

/-- One message handled by the server. -/
def handleEvent (fuel : Nat) (srv : Server) : Event → Except Fault (Server × List Emit)
  | .playerJoin socket username => .ok (onPlayerJoin srv socket username)
  | .roomCreate _ roomId name maxPlayers isPrivate gameMode =>
    .ok (onRoomCreate srv roomId name maxPlayers isPrivate gameMode)
  | .roomJoin socket roomId => .ok (onRoomJoin srv socket roomId)
  | .gameMove socket roomId move => onGameMove fuel srv socket roomId move
  | .powerupUse socket roomId powerUp targetPlayerId =>
    onPowerupUse srv socket roomId powerUp targetPlayerId
  | .disconnect socket => .ok (onDisconnect srv socket)

/-- A sequence of messages handled in order; the emitted messages are collected. -/
def handleEvents (fuel : Nat) : Server → List Event → Except Fault (Server × List Emit)
  | srv, [] => .ok (srv, [])
  | srv, ev :: rest =>
    match handleEvent fuel srv ev with
    | .error e => .error e
    | .ok r =>
      match handleEvents fuel r.1 rest with
      | .error e => .error e
      | .ok r1 => .ok (r1.1, r.2 ++ r1.2)

/-- The server right after start-up: no player, no room. -/
def Server.init (draws : Nat → Nat) : Server :=
  { heap := fun _ => Player.new "" "" "", next := 0, players := [], gameRooms := []
    rng := { draws := draws, pos := 0 } }

/-! ## Reachable states and what the server maintains -/

/-- The shapes of the 7 tetrominoes. -/
def tetrominoShapes : List Shape := TETROMINOS.map (fun t => t.shape)

/-- The tetromino shapes together with the 2-by-2 and 1-by-1 matrices that the
server's `rotateMatrix` makes of them. -/
def rotationShapes : List Shape :=
  tetrominoShapes ++
  [ [[.num 1]],
    [[.num 1, .num 0], [.num 1, .num 1]],
    [[.num 0, .num 1], [.num 1, .num 1]],
    [[.num 1, .num 1], [.num 1, .num 0]],
    [[.num 1, .num 0], [.num 1, .num 0]],
    [[.num 1, .num 1], [.num 0, .num 1]],
    [[.num 1, .num 1], [.num 0, .num 0]],
    [[.num 0, .num 1], [.num 0, .num 1]],
    [[.num 0, .num 0], [.num 1, .num 1]] ]

/-- The shapes reachable from the 7 tetrominoes by the server's `rotateMatrix`. -/
inductive ShapeReachable : Shape → Prop where
  | tetromino (t : Tetromino) : t ∈ TETROMINOS → ShapeReachable t.shape
  | rotate (s : Shape) : ShapeReachable s → ShapeReachable (rotateMatrix s)

/-- The index of the lowest row of a shape that has an occupied cell: the last
index among the rows with a truthy cell (`none` when no cell is occupied). -/
def lowestOccupiedRow (shape : Shape) : Option Nat :=
  ((shape.enum.filter (fun r => r.2.any Val.truthy)).map (fun r => r.1)).getLast?

/-- What the server maintains of a game state: a board of 20 rows, held power-ups
that are kinds of `availablePowerUps` without repeats, a current shape that is one
of `rotationShapes` and a next shape that is a tetromino's. -/
def GameState.wellFormed (gs : GameState) : Prop :=
  gs.board.length = 20 ∧ gs.powerUps.Nodup ∧ (∀ p ∈ gs.powerUps, p ∈ availablePowerUps) ∧
  gs.currentPiece.shape ∈ rotationShapes ∧ gs.nextPiece.shape ∈ tetrominoShapes

/-- Every game state held in the object store is well formed. -/
def heapWellFormed (heap : Heap) : Prop :=
  ∀ (r : Ref) (gs : GameState), (heap r).gameState = some gs → gs.wellFormed

/-- The server states reachable from start-up by handling messages; a message
whose handler faults leads nowhere. -/
inductive Reachable : Server → Prop where
  | init (draws : Nat → Nat) : Reachable (Server.init draws)
  | step (fuel : Nat) (srv srv1 : Server) (ev : Event) (emits : List Emit) :
      Reachable srv → handleEvent fuel srv ev = .ok (srv1, emits) → Reachable srv1

/-! ## The client's rotation -/

/-- The value `matrix[i][j]` reads (`undefined` outside the matrix). -/
def cellAt (matrix : Shape) (i j : Nat) : Val :=
  ((matrix.getD i [])[j]?).getD Val.undef

/-- The array that the client's `rotateMatrix` builds for `rows` and `cols`: a
cols-by-rows array, first filled with 0, in which the two loops set
`rotated[j][rows - 1 - i] = matrix[i][j]` for `i < rows` and `j < cols`.  Every cell
`(j, k)` is set exactly once, from `matrix[rows - 1 - k][j]`. -/
def rotatedCells (rows cols : Nat) (matrix : Shape) : Shape :=
  (List.range cols).map (fun j =>
    (List.range rows).map (fun k => cellAt matrix (rows - 1 - k) j))

/-- The function `rotateMatrix(matrix)` of the client component `TetrisGame`, with
`rows = matrix.length` and `cols = matrix[0].length`; on an empty matrix reading
`matrix[0].length` raises a `TypeError`. -/
def TetrisGame.rotateMatrix (matrix : Shape) : Except Fault Shape :=
  match matrix with
  | [] => .error .typeError
  | row0 :: _ => .ok (rotatedCells matrix.length row0.length matrix)

/-- The function `rotateMatrix(matrix)` of the client component `SinglePlayerGame`:
the same statements as in `TetrisGame`. -/
def SinglePlayerGame.rotateMatrix (matrix : Shape) : Except Fault Shape :=
  match matrix with
  | [] => .error .typeError
  | row0 :: _ => .ok (rotatedCells matrix.length row0.length matrix)

/-! ## The single-player score endpoints -/

/-- An entry of the array `singlePlayerScores`.  `date` is the time, in milliseconds,
that the stored date string denotes; `rank` is absent until the `forEach` that
follows the sort has set it. -/
structure ScoreEntry where
  id : Nat
  playerName : String
  score : Int
  lines : Int
  level : Int
  date : Int
  rank : Option Nat
deriving DecidableEq, Repr

/-- The body of a score submission as the client sends it: a name, integer numbers
and a date, each of which may be missing (`undefined`, or the empty string for the
date). -/
structure ScoreBody where
  playerName : Option String
  score : Option Int
  lines : Option Int
  level : Option Int
  date : Option Int
deriving DecidableEq, Repr

/-- The test `!playerName || !score || score < 0` of the submission handler:
a missing or empty name is falsy, a missing score and the score 0 are falsy. -/
def invalidScoreData (body : ScoreBody) : Bool :=
  (match body.playerName with
    | none => true
    | some n => n == "") ||
  (match body.score with
    | none => true
    | some s => s == 0) ||
  (match body.score with
    | none => false
    | some s => decide (s < 0))

/-- Insertion of an entry into a list sorted by descending score: before the first
entry whose score is not higher. -/
def insertByScore (a : ScoreEntry) : List ScoreEntry → List ScoreEntry
  | [] => [a]
  | b :: l => if b.score ≤ a.score then a :: b :: l else b :: insertByScore a l

/-- The call `singlePlayerScores.sort((a, b) => b.score - a.score)`: a stable sort by
descending score. -/
def sortByScore : List ScoreEntry → List ScoreEntry
  | [] => []
  | a :: l => insertByScore a (sortByScore l)

/-- The handler of `POST /api/single-player/score`, for the store `singlePlayerScores`
and the current time `now`: the response status and the store afterwards. -/
def postSinglePlayerScore (singlePlayerScores : List ScoreEntry) (now : Int)
    (body : ScoreBody) : Nat × List ScoreEntry :=
  if invalidScoreData body then (400, singlePlayerScores)
  else
    let newScore : ScoreEntry :=
      { id := singlePlayerScores.length + 1
        playerName := (body.playerName.getD "").trim
        score := body.score.getD 0
        lines := match body.lines with
          | some l => l
          | none => 0
        level := match body.level with
          | some l => if l = 0 then 1 else l
          | none => 1
        date := body.date.getD now
        rank := none }
    let sorted : List ScoreEntry := sortByScore (singlePlayerScores ++ [newScore])
    (201, sorted.enum.map (fun e => { e.2 with rank := some (e.1 + 1) }))

/-- The cutoff date of a period, in milliseconds; `none` for `all` and for an
unknown period, which are not filtered. -/
def cutoffDate (now : Int) (period : String) : Option Int :=
  if period = "all" then none
  else if period = "daily" then some (now - 24 * 60 * 60 * 1000)
  else if period = "weekly" then some (now - 7 * 24 * 60 * 60 * 1000)
  else if period = "monthly" then some (now - 30 * 24 * 60 * 60 * 1000)
  else none

/-- The handler of `GET /api/single-player/leaderboard` for a natural number `limit`:
the rows `{ rank: index + 1, ...score }`, in which the stored `rank` of the entry,
when it has one, replaces `index + 1`, and the field `totalScores`. -/
def getSinglePlayerLeaderboard (singlePlayerScores : List ScoreEntry) (now : Int)
    (limit : Nat) (period : String) : List ScoreEntry × Nat :=
  let filteredScores : List ScoreEntry :=
    match cutoffDate now period with
    | some cutoff => singlePlayerScores.filter (fun score => decide (score.date ≥ cutoff))
    | none => singlePlayerScores
  ((filteredScores.take limit).enum.map (fun e =>
      { e.2 with rank := match e.2.rank with
          | some r => some r
          | none => some (e.1 + 1) }),
    filteredScores.length)

/-- The store after a sequence of submissions, all at time `now`. -/
def submitAll (now : Int) : List ScoreEntry → List ScoreBody → List ScoreEntry
  | store, [] => store
  | store, body :: rest => submitAll now (postSinglePlayerScore store now body).2 rest

/-! ## Observations and concrete scenarios -/

/-- The status of a room after a sequence of messages (`none` when a handler
faulted or the room is not registered). -/
def statusAfter (fuel : Nat) (srv : Server) (events : List Event) (roomId : RoomId) :
    Option RoomStatus :=
  match handleEvents fuel srv events with
  | .error _ => none
  | .ok r => (r.1.gameRooms.lookup roomId).map (fun room => room.gameState)

/-- The messages emitted during a sequence of messages. -/
def emitsAfter (fuel : Nat) (srv : Server) (events : List Event) : List Emit :=
  match handleEvents fuel srv events with
  | .error _ => []
  | .ok r => r.2

/-- The game state of the registered player of a socket after a sequence of
messages. -/
def gameStateAfter (fuel : Nat) (srv : Server) (events : List Event) (socket : SocketId) :
    Option GameState :=
  match handleEvents fuel srv events with
  | .error _ => none
  | .ok r =>
    match r.1.players.lookup socket with
    | none => none
    | some ref => (r.1.heap ref).gameState

/-- The number of truthy cells of a shape. -/
def occupiedCount (shape : Shape) : Nat :=
  (shapeCells shape).countP (fun c => c.2.2.truthy)

/-- The value `board[r][c]` reads (`undefined` outside the board). -/
def boardAt (board : Board) (r c : Int) : Val :=
  if r < 0 ∨ c < 0 then Val.undef
  else ((board.getD r.toNat [])[c.toNat]?).getD Val.undef

/-- Whether an occupied shape cell, placed at offset `(x, y)`, leaves the grid
sideways or at the bottom, or lies on a non-empty board cell at a row `≥ 0`. -/
def cellBlocked (board : Board) (x y : Int) (c : Nat × Nat × Val) : Bool :=
  c.2.2.truthy &&
    (decide (x + (c.2.1 : Int) < 0) || decide (x + (c.2.1 : Int) ≥ 10) ||
      decide (y + (c.1 : Int) ≥ 20) ||
      (decide (0 ≤ y + (c.1 : Int)) &&
        (boardAt board (y + (c.1 : Int)) (x + (c.2.1 : Int))).nonZero))

/-- A row in which every cell holds the colour `c`. -/
def filledRow (c : String) : List Val := List.replicate 10 (Val.str c)

/-- A board whose rows 18 and 19 are full and whose row 17 holds one block. -/
def twoFullRows : Board :=
  List.replicate 17 emptyRow ++
    [Val.str "#a000f0" :: List.replicate 9 (Val.num 0), filledRow "#f00000", filledRow "#0000f0"]

/-- Three players register, a battle room of capacity 2 is created, and the first
two players join it. -/
def twoPlayerSetup : List Event :=
  [ .playerJoin "a" "Ann", .playerJoin "b" "Bob", .playerJoin "c" "Cy",
    .roomCreate "a" "r" "room" 2 false "battle", .roomJoin "a" "r", .roomJoin "b" "r" ]

/-- Player a hard-drops `n` times. -/
def hardDrops (n : Nat) : List Event :=
  List.replicate n (.gameMove "a" "r" ⟨"hard_drop", ""⟩)

/-- Player a places an I piece on columns 4 to 7 and an O piece on columns 8 and 9,
then moves the next I piece to column 0. -/
def fillBottomRow : List Event :=
  [ .gameMove "a" "r" ⟨"move", "right"⟩, .gameMove "a" "r" ⟨"hard_drop", ""⟩ ] ++
  List.replicate 4 (.gameMove "a" "r" ⟨"move", "right"⟩) ++
  [ .gameMove "a" "r" ⟨"hard_drop", ""⟩ ] ++
  List.replicate 3 (.gameMove "a" "r" ⟨"move", "left"⟩)

/-- The draws that give player a the pieces I, O, I and then T. -/
def drawsIOIT (k : Nat) : Nat := [0, 1, 0, 0, 0, 2].getD k 0

/-- A game state with 9 cleared lines at level 1 whose bottom row lacks only the
four cells under the current I piece. -/
def nineLinesState : GameState :=
  { board := List.replicate 19 emptyRow ++
      [[.str "#0000f0", .str "#0000f0", .str "#0000f0", .num 0, .num 0, .num 0, .num 0,
        .str "#f0a000", .str "#f0a000", .str "#f0a000"]]
    currentPiece := pieceOf ⟨"I", [[.num 1, .num 1, .num 1, .num 1]], "#00f0f0"⟩
    nextPiece := pieceOf ⟨"O", [[.num 1, .num 1], [.num 1, .num 1]], "#f0f000"⟩
    score := .val 900
    lines := 9
    level := 1
    gameOver := false
    powerUps := []
    shields := 0
    isAlive := true
    slowed := false }

/-- A classic room with the single member a. -/
def soloRoom : GameRoom :=
  { GameRoom.new "r" "room" 2 false with
    players := [("a", 0)], gameState := .playing, gameMode := "classic" }

/-- A store whose every reference holds player a with the given game state. -/
def soloHeap (gs : GameState) : Heap :=
  fun _ => { Player.new "a" "Ann" "a" with roomId := some "r", gameState := some gs }

/-- The lines and level of a player's game state after `handleGameMove`. -/
def linesAndLevelAfter (fuel : Nat) (heap : Heap) (g : Rng) (room : GameRoom) (player : Ref)
    (move : Move) : Option (Nat × Nat) :=
  match handleGameMove fuel heap g room player move with
  | .error _ => none
  | .ok r => ((r.1 player).gameState).map (fun gs => (gs.lines, gs.level))

/-- A finished two-player room: a has lost, b has won. -/
def finishedRoom : GameRoom :=
  { GameRoom.new "r" "room" 2 false with players := [("a", 0), ("b", 1)], gameState := .finished }

/-- The store of the finished room: a (reference 0) is not alive and has one loss,
b (every other reference) is alive and has one win. -/
def finishedHeap : Heap := fun r =>
  if r = 0 then
    { Player.new "a" "Ann" "a" with
      roomId := some "r", losses := 1
      gameState := some { (createInitialGameState ⟨fun _ => 0, 0⟩).1 with gameOver := true } }
  else
    { Player.new "b" "Bob" "b" with
      roomId := some "r", wins := 1
      gameState := some { (createInitialGameState ⟨fun _ => 0, 0⟩).1 with isAlive := true } }

/-- The server after player a has registered and the battle room r of capacity 2
has been created: the room is waiting and has no member. -/
def lobbyServer : Server :=
  (onRoomCreate (onPlayerJoin (Server.init (fun _ => 0)) "a" "Ann").1 "r" "room" 2 false
    "battle").1

/-- The two-player room of `finishedRoom` while it is still playing. -/
def duelRoom : GameRoom :=
  { finishedRoom with gameState := .playing }

/-- A server that holds the finished room and its two players. -/
def finishedServer : Server :=
  { heap := finishedHeap, next := 2, players := [("a", 0), ("b", 1)]
    gameRooms := [("r", finishedRoom)], rng := { draws := fun _ => 0, pos := 0 } }

/-- The status of a room after each message of a sequence (`none` while the room
does not exist; the trace stops at a fault). -/
def statusTrace (fuel : Nat) : Server → List Event → RoomId → List (Option RoomStatus)
  | _, [], _ => []
  | srv, ev :: rest, roomId =>
    match handleEvent fuel srv ev with
    | .error _ => [none]
    | .ok r =>
      (r.1.gameRooms.lookup roomId).map (fun room => room.gameState) ::
        statusTrace fuel r.1 rest roomId

/-- What a game state shows of its pieces and progress: the type, column and row of
the current piece, the type of the next piece, and the lines. -/
def pieceSummary (gs : GameState) : String × Int × Int × String × Nat :=
  (gs.currentPiece.type, gs.currentPiece.x, gs.currentPiece.y, gs.nextPiece.type, gs.lines)

/-- A game state whose O piece stands at row 19 of the empty board, so that its
lower row lies below the board. -/
def belowBoardState : GameState :=
  { nineLinesState with
    board := emptyBoard
    currentPiece :=
      { pieceOf ⟨"O", [[.num 1, .num 1], [.num 1, .num 1]], "#f0f000"⟩ with y := 19 } }

/-- The game state after the `switch` of `handleGameMove` (the state itself when
the action faults). -/
def actionResult (fuel : Nat) (gameState : GameState) (move : Move) : GameState :=
  match applyAction fuel gameState move with
  | .ok gs => gs
  | .error _ => gameState

/-- A game state at level 1 with no line and no point yet, whose two bottom rows
lack only columns 4 and 5, under an O piece at its spawn position. -/
def twoRowGapState : GameState :=
  { nineLinesState with
    board := List.replicate 18 emptyRow ++
      List.replicate 2
        [.str "#00f0f0", .str "#00f0f0", .str "#00f0f0", .str "#00f0f0", .num 0, .num 0,
          .str "#00f0f0", .str "#00f0f0", .str "#00f0f0", .str "#00f0f0"]
    currentPiece := pieceOf ⟨"O", [[.num 1, .num 1], [.num 1, .num 1]], "#f0f000"⟩
    nextPiece := pieceOf ⟨"T", [[.num 0, .num 1, .num 0], [.num 1, .num 1, .num 1]], "#a000f0"⟩
    score := .val 0
    lines := 0 }

/-- The store of a two-player game: a (reference 0) plays `twoRowGapState`, b
(every other reference) is alive on an empty board. -/
def duelHeap : Heap := fun r =>
  if r = 0 then
    { Player.new "a" "Ann" "a" with roomId := some "r", gameState := some twoRowGapState }
  else
    { Player.new "b" "Bob" "b" with
      roomId := some "r"
      gameState := some { (createInitialGameState ⟨fun _ => 0, 0⟩).1 with isAlive := true } }

/-- The score of a player's game state after `handleGameMove`. -/
def scoreAfter (fuel : Nat) (heap : Heap) (g : Rng) (room : GameRoom) (player : Ref)
    (move : Move) : Option Num :=
  match handleGameMove fuel heap g room player move with
  | .error _ => none
  | .ok r => ((r.1 player).gameState).map (fun gs => gs.score)

/-- The board of the player behind a reference after `handleGameMove` by `player`. -/
def boardAfter (fuel : Nat) (heap : Heap) (g : Rng) (room : GameRoom) (player : Ref)
    (move : Move) (observed : Ref) : Option Board :=
  match handleGameMove fuel heap g room player move with
  | .error _ => none
  | .ok r => ((r.1 observed).gameState).map (fun gs => gs.board)

/-- A game state whose board has been pushed up by garbage rows (holes in column 0)
until they reach row 1, under the T piece that stands at its spawn position and now
overlaps row 1; the next piece is an I. -/
def pushedUpState : GameState :=
  { nineLinesState with
    board := emptyRow :: List.replicate 19 (garbageLine 0)
    currentPiece := pieceOf ⟨"T", [[.num 0, .num 1, .num 0], [.num 1, .num 1, .num 1]], "#a000f0"⟩
    nextPiece := pieceOf ⟨"I", [[.num 1, .num 1, .num 1, .num 1]], "#00f0f0"⟩
    score := .val 0
    lines := 0 }

/-- The game state `nineLinesState` with its I piece moved to the left wall. -/
def wallState : GameState :=
  { nineLinesState with currentPiece := { nineLinesState.currentPiece with x := 0 } }

/-- The piece summary of a player's game state after `handleGameMove`. -/
def summaryAfter (fuel : Nat) (heap : Heap) (g : Rng) (room : GameRoom) (player : Ref)
    (move : Move) : Option (String × Int × Int × String × Nat) :=
  match handleGameMove fuel heap g room player move with
  | .error _ => none
  | .ok r => ((r.1 player).gameState).map pieceSummary

/-- The game state `twoRowGapState` of a player who holds a shield and an add_garbage
power-up. -/
def holderState : GameState :=
  { twoRowGapState with powerUps := ["shield", "add_garbage"] }

/-- The store of `duelHeap` in which a plays `holderState`. -/
def holderHeap : Heap := fun r =>
  if r = 0 then { duelHeap 0 with gameState := some holderState } else duelHeap r

/-- Player a places five O pieces side by side on the two bottom rows: columns 0-1,
2-3, 4-5, 6-7 and 8-9. -/
def fiveSquares : List Event :=
  List.replicate 4 (.gameMove "a" "r" ⟨"move", "left"⟩) ++ [.gameMove "a" "r" ⟨"hard_drop", ""⟩] ++
  List.replicate 2 (.gameMove "a" "r" ⟨"move", "left"⟩) ++ [.gameMove "a" "r" ⟨"hard_drop", ""⟩] ++
  [.gameMove "a" "r" ⟨"hard_drop", ""⟩] ++
  List.replicate 2 (.gameMove "a" "r" ⟨"move", "right"⟩) ++ [.gameMove "a" "r" ⟨"hard_drop", ""⟩] ++
  List.replicate 4 (.gameMove "a" "r" ⟨"move", "right"⟩) ++ [.gameMove "a" "r" ⟨"hard_drop", ""⟩]

/-- The held power-ups and the lines of the registered player of a socket after a
sequence of messages. -/
def holdingsAfter (fuel : Nat) (srv : Server) (events : List Event) (socket : SocketId) :
    Option (List String × Nat) :=
  (gameStateAfter fuel srv events socket).map (fun s => (s.powerUps, s.lines))

/-- Two players register, a classic room of capacity 2 is created, and both join
it. -/
def classicSetup : List Event :=
  [ .playerJoin "a" "Ann", .playerJoin "b" "Bob",
    .roomCreate "a" "r" "room" 2 false "classic", .roomJoin "a" "r", .roomJoin "b" "r" ]

/-- What a room shows after a sequence of messages: its status and, for each
member, the id, the alive flag, the wins and the losses. -/
def outcomeAfter (fuel : Nat) (srv : Server) (events : List Event) (roomId : RoomId) :
    Option (RoomStatus × List (SocketId × Bool × Nat × Nat)) :=
  match handleEvents fuel srv events with
  | .error _ => none
  | .ok r =>
    (r.1.gameRooms.lookup roomId).map (fun room =>
      (room.gameState,
        room.players.map (fun m =>
          (m.1, (r.1.heap m.2).alive, (r.1.heap m.2).wins, (r.1.heap m.2).losses))))

/-- The mode of a room after a sequence of messages. -/
def modeAfter (fuel : Nat) (srv : Server) (events : List Event) (roomId : RoomId) :
    Option String :=
  match handleEvents fuel srv events with
  | .error _ => none
  | .ok r => (r.1.gameRooms.lookup roomId).map (fun room => room.gameMode)

/-- The two-player room of `duelRoom` in classic mode. -/
def classicRoom : GameRoom :=
  { duelRoom with gameMode := "classic" }

/-- A server that holds the playing two-player room `duelRoom` and its two players
with the store `duelHeap`. -/
def duelServer : Server :=
  { heap := duelHeap, next := 2, players := [("a", 0), ("b", 1)]
    gameRooms := [("r", duelRoom)], rng := { draws := fun _ => 0, pos := 0 } }

/-- Three players register, a battle room of capacity 3 is created, and all three
join it. -/
def threePlayerSetup : List Event :=
  [ .playerJoin "a" "Ann", .playerJoin "b" "Bob", .playerJoin "c" "Cy",
    .roomCreate "a" "r" "room" 3 false "battle",
    .roomJoin "a" "r", .roomJoin "b" "r", .roomJoin "c" "r" ]

/-- The draws that give every player O pieces, except that the eleventh piece of
player a (drawn at index 14) is a T. -/
def drawsSquaresThenT (k : Nat) : Nat := if k = 14 then 2 else 1

/-- What the game state of the registered player of a socket shows after a
sequence of messages: the alive flag, the score, the lines and row 1 of the
board. -/
def rowOneAfter (fuel : Nat) (srv : Server) (events : List Event) (socket : SocketId) :
    Option (Bool × Num × Nat × List Val) :=
  (gameStateAfter fuel srv events socket).map
    (fun s => (s.isAlive, s.score, s.lines, s.board.getD 1 []))
/-! ## Line clearing -/

/-- C1: on the board whose rows 18 and 19 are full and whose row 17 holds one
block, `checkLineClears` returns 2 but removes row 19 and the non-full row 17: the
full row 18 is still on the board afterwards and the block of row 17 is lost, so
the result is not two empty rows followed by the non-full input rows. -/
theorem checkLineClears_two_full_rows :
    checkLineClears twoFullRows = (List.replicate 19 emptyRow ++ [filledRow "#f00000"], 2) ∧
    (Val.str "#a000f0" :: List.replicate 9 (Val.num 0)) ∈
      twoFullRows.filter (fun row => !row.all Val.nonZero) ∧
    (Val.str "#a000f0" :: List.replicate 9 (Val.num 0)) ∉ (checkLineClears twoFullRows).1 ∧
    (filledRow "#f00000").all Val.nonZero = true ∧
    filledRow "#f00000" ∈ (checkLineClears twoFullRows).1 ∧
    (checkLineClears twoFullRows).1 ≠
      List.replicate 2 emptyRow ++ twoFullRows.filter (fun row => !row.all Val.nonZero) := by
  decide

/-! ## Rotation -/

/-- C2: the server's `rotateMatrix` turns the 2-by-3 T shape into a 2-by-2 matrix
with 3 occupied cells (and the 1-by-4 I shape into a single cell), not into the
3-by-2 quarter turn with 4 occupied cells. -/
theorem rotateMatrix_T_loses_a_cell :
    rotateMatrix [[.num 0, .num 1, .num 0], [.num 1, .num 1, .num 1]] =
      [[.num 1, .num 0], [.num 1, .num 1]] ∧
    occupiedCount [[.num 0, .num 1, .num 0], [.num 1, .num 1, .num 1]] = 4 ∧
    occupiedCount (rotateMatrix [[.num 0, .num 1, .num 0], [.num 1, .num 1, .num 1]]) = 3 ∧
    rotateMatrix [[.num 1, .num 1, .num 1, .num 1]] = [[.num 1]] := by
  decide

/-! ## Maps and room membership -/

theorem mapSet_length_le {α : Type} (m : List (String × α)) (k : String) (v : α) :
    (mapSet m k v).length ≤ m.length + 1 := by
  unfold mapSet
  split <;> simp

theorem mapDelete_length_le {α : Type} (m : List (String × α)) (k : String) :
    (mapDelete m k).length ≤ m.length := by
  unfold mapDelete
  exact List.length_filter_le _ _

theorem lookup_cons_self {α : Type} (k : String) (v : α) (es : List (String × α)) :
    ((k, v) :: es).lookup k = some v := by
  simp [List.lookup_cons]

theorem lookup_cons_other {α : Type} (k k2 : String) (v : α) (es : List (String × α))
    (hne : k2 ≠ k) : ((k, v) :: es).lookup k2 = es.lookup k2 := by
  have hk1 : (k2 == k) = false := by simpa using hne
  simp [List.lookup_cons, hk1]

theorem lookup_map_replace_self {α : Type} (f : String → α) (k : String) :
    ∀ (m : List (String × α)), (m.lookup k).isSome = true →
      (m.map (fun e => if e.1 = k then (e.1, f e.1) else e)).lookup k = some (f k)
  | [], h => by simp at h
  | (k1, v1) :: rest, h => by
    rw [List.map_cons]
    by_cases hk : k1 = k
    · subst hk
      rw [if_pos rfl]
      exact lookup_cons_self _ _ _
    · rw [if_neg hk, lookup_cons_other _ _ _ _ (Ne.symm hk)]
      rw [lookup_cons_other _ _ _ _ (Ne.symm hk)] at h
      exact lookup_map_replace_self f k rest h

theorem lookup_map_replace_other {α : Type} (f : String → α) (k k2 : String) (hne : k2 ≠ k) :
    ∀ (m : List (String × α)),
      (m.map (fun e => if e.1 = k then (e.1, f e.1) else e)).lookup k2 = m.lookup k2
  | [] => by simp
  | (k1, v1) :: rest => by
    rw [List.map_cons]
    by_cases hk : k1 = k
    · subst hk
      rw [if_pos rfl, lookup_cons_other _ _ _ _ hne, lookup_cons_other _ _ _ _ hne]
      exact lookup_map_replace_other f k1 k2 hne rest
    · rw [if_neg hk]
      by_cases hk2 : k2 = k1
      · subst hk2
        rw [lookup_cons_self, lookup_cons_self]
      · rw [lookup_cons_other _ _ _ _ hk2, lookup_cons_other _ _ _ _ hk2]
        exact lookup_map_replace_other f k k2 hne rest

theorem lookup_append_new {α : Type} (k : String) (v : α) :
    ∀ (m : List (String × α)), m.lookup k = none → (m ++ [(k, v)]).lookup k = some v
  | [], _ => lookup_cons_self _ _ _
  | (k1, v1) :: rest, h => by
    rw [List.cons_append]
    by_cases hk : k = k1
    · subst hk
      rw [lookup_cons_self] at h
      cases h
    · rw [lookup_cons_other _ _ _ _ hk] at h
      rw [lookup_cons_other _ _ _ _ hk]
      exact lookup_append_new k v rest h

theorem lookup_append_other {α : Type} (k k2 : String) (v : α) (hne : k2 ≠ k) :
    ∀ (m : List (String × α)), (m ++ [(k, v)]).lookup k2 = m.lookup k2
  | [] => by
    rw [List.nil_append, lookup_cons_other _ _ _ _ hne]
  | (k1, v1) :: rest => by
    rw [List.cons_append]
    by_cases hk : k2 = k1
    · subst hk
      rw [lookup_cons_self, lookup_cons_self]
    · rw [lookup_cons_other _ _ _ _ hk, lookup_cons_other _ _ _ _ hk]
      exact lookup_append_other k k2 v hne rest

theorem lookup_mapSet_self {α : Type} (m : List (String × α)) (k : String) (v : α) :
    (mapSet m k v).lookup k = some v := by
  unfold mapSet
  split
  · next h =>
    have := lookup_map_replace_self (fun _ => v) k m h
    have he : (fun e : String × α => if e.1 = k then (k, v) else e) =
        (fun e => if e.1 = k then (e.1, v) else e) := by
      funext e
      by_cases h1 : e.1 = k <;> simp [h1]
    rw [he]
    exact this
  · next h =>
    have hn : m.lookup k = none := by
      cases hl : m.lookup k with
      | none => rfl
      | some a => simp [hl] at h
    exact lookup_append_new k v m hn

theorem lookup_mapSet_other {α : Type} (m : List (String × α)) (k k2 : String) (v : α)
    (hne : k2 ≠ k) : (mapSet m k v).lookup k2 = m.lookup k2 := by
  unfold mapSet
  split
  · have he : (fun e : String × α => if e.1 = k then (k, v) else e) =
        (fun e => if e.1 = k then (e.1, v) else e) := by
      funext e
      by_cases h1 : e.1 = k <;> simp [h1]
    rw [he]
    exact lookup_map_replace_other (fun _ => v) k k2 hne m
  · exact lookup_append_other k k2 v hne m

theorem lookup_mapReplace_self {α : Type} (m : List (String × α)) (k : String) (v : α)
    (h : (m.lookup k).isSome = true) : (mapReplace m k v).lookup k = some v :=
  lookup_map_replace_self (fun _ => v) k m h

/-- C8: for every room with `members.size <= maxPlayers`, `addPlayer` and
`removePlayer` keep `members.size <= maxPlayers`; `addPlayer` returns true exactly
when `members.size < maxPlayers`, and then the player is stored under its id (the
other keys keep their values) and `player.roomId` is the room id; on a full room it
returns false and leaves the room and the store as they were. -/
theorem addPlayer_removePlayer_size (room : GameRoom) (heap : Heap) (player : Ref)
    (gameRooms : List (RoomId × GameRoom)) (playerId : SocketId)
    (hsize : room.players.length ≤ room.maxPlayers) :
    (room.addPlayer heap player).1.players.length ≤ (room.addPlayer heap player).1.maxPlayers ∧
    (room.removePlayer gameRooms playerId).1.players.length ≤
      (room.removePlayer gameRooms playerId).1.maxPlayers ∧
    ((room.addPlayer heap player).2.2 = true ↔ room.players.length < room.maxPlayers) ∧
    (room.players.length < room.maxPlayers →
      (room.addPlayer heap player).1.players.lookup (heap player).id = some player ∧
      (∀ k, k ≠ (heap player).id →
        (room.addPlayer heap player).1.players.lookup k = room.players.lookup k) ∧
      ((room.addPlayer heap player).2.1 player).roomId = some room.id) ∧
    (room.players.length = room.maxPlayers →
      (room.addPlayer heap player).2.2 = false ∧
      (room.addPlayer heap player).1 = room ∧
      (room.addPlayer heap player).2.1 = heap ∧
      (heap player).roomId = ((room.addPlayer heap player).2.1 player).roomId) := by
  refine ⟨?_, ?_, ?_, ?_, ?_⟩
  · unfold GameRoom.addPlayer
    split
    · next h =>
      have := mapSet_length_le room.players (heap player).id player
      simp only
      omega
    · exact hsize
  · unfold GameRoom.removePlayer
    have := mapDelete_length_le room.players playerId
    simp only
    split <;> simp only <;> omega
  · unfold GameRoom.addPlayer
    split
    · next h => simp [h]
    · next h => simp [h]
  · intro h
    unfold GameRoom.addPlayer
    simp only [h, if_true]
    exact ⟨lookup_mapSet_self _ _ _, fun k hk => lookup_mapSet_other _ _ _ _ hk,
      by simp [setObj]⟩
  · intro h
    unfold GameRoom.addPlayer
    have hn : ¬ room.players.length < room.maxPlayers := by omega
    simp [hn]

/-- Witness for C8: the player b joins the two-seat room that holds a. -/
theorem addPlayer_removePlayer_size_witness :
    soloRoom.players.length ≤ soloRoom.maxPlayers ∧
    ((soloRoom.addPlayer finishedHeap 1).1.players.length ≤
        (soloRoom.addPlayer finishedHeap 1).1.maxPlayers ∧
    (soloRoom.removePlayer [("r", soloRoom)] "a").1.players.length ≤
      (soloRoom.removePlayer [("r", soloRoom)] "a").1.maxPlayers ∧
    ((soloRoom.addPlayer finishedHeap 1).2.2 = true ↔
      soloRoom.players.length < soloRoom.maxPlayers) ∧
    (soloRoom.players.length < soloRoom.maxPlayers →
      (soloRoom.addPlayer finishedHeap 1).1.players.lookup (finishedHeap 1).id = some 1 ∧
      (∀ k, k ≠ (finishedHeap 1).id →
        (soloRoom.addPlayer finishedHeap 1).1.players.lookup k = soloRoom.players.lookup k) ∧
      ((soloRoom.addPlayer finishedHeap 1).2.1 1).roomId = some soloRoom.id) ∧
    (soloRoom.players.length = soloRoom.maxPlayers →
      (soloRoom.addPlayer finishedHeap 1).2.2 = false ∧
      (soloRoom.addPlayer finishedHeap 1).1 = soloRoom ∧
      (soloRoom.addPlayer finishedHeap 1).2.1 = finishedHeap ∧
      (finishedHeap 1).roomId = ((soloRoom.addPlayer finishedHeap 1).2.1 1).roomId)) :=
  ⟨by decide, addPlayer_removePlayer_size soloRoom finishedHeap 1 [("r", soloRoom)] "a"
    (by decide)⟩

/-! ## Collision test -/

theorem cellBlocked_iff (board : Board) (x y : Int) (py px : Nat) (v : Val) :
    cellBlocked board x y (py, px, v) = true ↔
      v.truthy = true ∧ (x + (px : Int) < 0 ∨ x + (px : Int) ≥ 10 ∨ y + (py : Int) ≥ 20 ∨
        (0 ≤ y + (py : Int) ∧ (boardAt board (y + (py : Int)) (x + (px : Int))).nonZero = true)) := by
  simp [cellBlocked, or_assoc]

theorem mem_shapeCells (shape : Shape) (py px : Nat) (v : Val) :
    (py, px, v) ∈ shapeCells shape ↔ ∃ row, shape[py]? = some row ∧ row[px]? = some v := by
  simp only [shapeCells, List.mem_flatMap, List.mem_map, Prod.exists, Prod.mk.injEq,
    List.mk_mem_enum_iff_getElem?]
  constructor
  · rintro ⟨i, row, hrow, j, w, hw, rfl, rfl, rfl⟩
    exact ⟨row, hrow, hw⟩
  · rintro ⟨row, hrow, hw⟩
    exact ⟨py, row, hrow, px, v, hw, rfl, rfl, rfl⟩

theorem boardAt_of_getElem? (board : Board) (r c : Int) (row : List Val) (hr : 0 ≤ r)
    (hc : 0 ≤ c) (hrow : board[r.toNat]? = some row) :
    boardAt board r c = (row[c.toNat]?).getD Val.undef := by
  have h1 : ¬ (r < 0 ∨ c < 0) := by omega
  simp [boardAt, h1, hrow]

theorem isValidMoveScan_spec (board : Board) (hrows : board.length = 20) (x y : Int) :
    ∀ cells : List (Nat × Nat × Val),
      (isValidMoveScan board x y cells).2 = .ok (!cells.any (cellBlocked board x y)) ∧
      ∀ rc ∈ (isValidMoveScan board x y cells).1,
        (0 ≤ rc.1 ∧ rc.1 < 20 ∧ 0 ≤ rc.2 ∧ rc.2 < 10) ∧
        ∃ c ∈ cells, c.2.2.truthy = true ∧ rc = (y + (c.1 : Int), x + (c.2.1 : Int)) := by
  intro cells
  induction cells with
  | nil => simp [isValidMoveScan]
  | cons c rest ih =>
    obtain ⟨py, px, v⟩ := c
    obtain ⟨ih1, ih2⟩ := ih
    by_cases hv : v.truthy = true
    · by_cases hout : x + (px : Int) < 0 ∨ x + (px : Int) ≥ 10 ∨ y + (py : Int) ≥ 20
      · have hb : cellBlocked board x y (py, px, v) = true := by
          rw [cellBlocked_iff]
          rcases hout with h | h | h
          · exact ⟨hv, Or.inl h⟩
          · exact ⟨hv, Or.inr (Or.inl h)⟩
          · exact ⟨hv, Or.inr (Or.inr (Or.inl h))⟩
        simp [isValidMoveScan, hv, hout, hb]
      · by_cases hy : y + (py : Int) ≥ 0
        · have hlt : (y + (py : Int)).toNat < board.length := by omega
          have hrow : board[(y + (py : Int)).toNat]? = some (board[(y + (py : Int)).toNat]) :=
            List.getElem?_eq_getElem hlt
          have hat := boardAt_of_getElem? board (y + (py : Int)) (x + (px : Int)) _ hy
            (by omega) hrow
          by_cases hnz : (boardAt board (y + (py : Int)) (x + (px : Int))).nonZero = true
          · have hb : cellBlocked board x y (py, px, v) = true := by
              rw [cellBlocked_iff]
              exact ⟨hv, Or.inr (Or.inr (Or.inr ⟨hy, hnz⟩))⟩
            rw [hat] at hnz
            simp only [isValidMoveScan, hv, hout, hy, hrow, hnz, if_true, if_false, Bool.false_eq_true,
              ↓reduceIte]
            refine ⟨by simp [hb], ?_⟩
            intro rc hrc
            simp only [List.mem_singleton] at hrc
            subst hrc
            exact ⟨⟨by simpa using hy, by simp; omega, by simp; omega, by simp; omega⟩,
              (py, px, v), by simp, hv, rfl⟩
          · have hb : cellBlocked board x y (py, px, v) = false := by
              rw [Bool.eq_false_iff]
              intro h
              rw [cellBlocked_iff] at h
              rcases h with ⟨_, h | h | h | ⟨_, h⟩⟩
              · exact hout (Or.inl h)
              · exact hout (Or.inr (Or.inl h))
              · exact hout (Or.inr (Or.inr h))
              · exact hnz h
            rw [hat] at hnz
            simp only [isValidMoveScan, hv, hout, hy, hrow, hnz, if_true, if_false, Bool.false_eq_true,
              ↓reduceIte]
            refine ⟨by simp [hb, ih1], ?_⟩
            intro rc hrc
            simp only [List.mem_cons] at hrc
            rcases hrc with hrc | hrc
            · subst hrc
              exact ⟨⟨by simpa using hy, by simp; omega, by simp; omega, by simp; omega⟩,
                (py, px, v), by simp, hv, rfl⟩
            · obtain ⟨hb1, c, hc, hc1, hc2⟩ := ih2 rc hrc
              exact ⟨hb1, c, List.mem_cons_of_mem _ hc, hc1, hc2⟩
        · have hb : cellBlocked board x y (py, px, v) = false := by
            rw [Bool.eq_false_iff]
            intro h
            rw [cellBlocked_iff] at h
            rcases h with ⟨_, h | h | h | ⟨h, _⟩⟩
            · exact hout (Or.inl h)
            · exact hout (Or.inr (Or.inl h))
            · exact hout (Or.inr (Or.inr h))
            · exact hy h
          simp only [isValidMoveScan, hv, hout, hy, if_true, if_false]
          refine ⟨by simp [hb, ih1], ?_⟩
          intro rc hrc
          obtain ⟨hb1, c, hc, hc1, hc2⟩ := ih2 rc hrc
          exact ⟨hb1, c, List.mem_cons_of_mem _ hc, hc1, hc2⟩
    · have hb : cellBlocked board x y (py, px, v) = false := by
        rw [Bool.eq_false_iff]
        intro h
        rw [cellBlocked_iff] at h
        exact hv h.1
      simp only [isValidMoveScan, hv, if_false]
      refine ⟨by simp [hb, ih1], ?_⟩
      intro rc hrc
      obtain ⟨hb1, c, hc, hc1, hc2⟩ := ih2 rc hrc
      exact ⟨hb1, c, List.mem_cons_of_mem _ hc, hc1, hc2⟩

/-- C3: on a board of 20 rows (in particular on every 20x10 board), for every shape
and every integer offset `(x, y)`, `isValidMove` returns, and it returns false
exactly when some occupied shape cell `(px, py)` has `x+px < 0`, or `x+px >= 10`, or
`y+py >= 20`, or `0 <= y+py` with a non-empty board cell at row `y+py`, column
`x+px`.  Every board position it reads lies in the 20x10 grid and is the position
`(y+py, x+px)` of an occupied shape cell, so a cell with `y+py < 0` is never compared
with the board. -/
theorem isValidMove_false_iff (gameState : GameState) (shape : Shape) (x y : Int)
    (hrows : gameState.board.length = 20) :
    (∃ b, isValidMove gameState shape x y = .ok b ∧
      (b = false ↔
        ∃ (py px : Nat) (row : List Val) (v : Val), shape[py]? = some row ∧ row[px]? = some v ∧ v.truthy = true ∧
          (x + (px : Int) < 0 ∨ x + (px : Int) ≥ 10 ∨ y + (py : Int) ≥ 20 ∨
            (0 ≤ y + (py : Int) ∧
              boardAt gameState.board (y + (py : Int)) (x + (px : Int)) ≠ Val.num 0)))) ∧
    (∀ rc ∈ isValidMoveReads gameState shape x y,
      (0 ≤ rc.1 ∧ rc.1 < 20 ∧ 0 ≤ rc.2 ∧ rc.2 < 10) ∧
      ∃ (py px : Nat) (row : List Val) (v : Val), shape[py]? = some row ∧ row[px]? = some v ∧ v.truthy = true ∧
        rc = (y + (py : Int), x + (px : Int))) := by
  obtain ⟨h1, h2⟩ := isValidMoveScan_spec gameState.board hrows x y (shapeCells shape)
  refine ⟨⟨_, h1, ?_⟩, ?_⟩
  · rw [Bool.not_eq_false', List.any_eq_true]
    constructor
    · rintro ⟨⟨py, px, v⟩, hmem, hb⟩
      rw [mem_shapeCells] at hmem
      obtain ⟨row, hrow, hv⟩ := hmem
      rw [cellBlocked_iff] at hb
      refine ⟨py, px, row, v, hrow, hv, hb.1, ?_⟩
      rcases hb.2 with h | h | h | ⟨h, hnz⟩
      · exact Or.inl h
      · exact Or.inr (Or.inl h)
      · exact Or.inr (Or.inr (Or.inl h))
      · exact Or.inr (Or.inr (Or.inr ⟨h, by simpa [Val.nonZero] using hnz⟩))
    · rintro ⟨py, px, row, v, hrow, hv, ht, hcase⟩
      refine ⟨(py, px, v), (mem_shapeCells shape py px v).2 ⟨row, hrow, hv⟩, ?_⟩
      rw [cellBlocked_iff]
      refine ⟨ht, ?_⟩
      rcases hcase with h | h | h | ⟨h, hnz⟩
      · exact Or.inl h
      · exact Or.inr (Or.inl h)
      · exact Or.inr (Or.inr (Or.inl h))
      · exact Or.inr (Or.inr (Or.inr ⟨h, by simpa [Val.nonZero] using hnz⟩))
  · intro rc hrc
    obtain ⟨hb, ⟨py, px, v⟩, hmem, ht, hrc1⟩ := h2 rc hrc
    rw [mem_shapeCells] at hmem
    obtain ⟨row, hrow, hv⟩ := hmem
    exact ⟨hb, py, px, row, v, hrow, hv, ht, hrc1⟩

/-- Witness for C3: the T shape at offset (3, 18) on the board whose bottom row has
a gap in columns 3 to 6. -/
theorem isValidMove_false_iff_witness :
    nineLinesState.board.length = 20 ∧
    ((∃ b, isValidMove nineLinesState [[.num 0, .num 1, .num 0], [.num 1, .num 1, .num 1]] 3 18
          = .ok b ∧
      (b = false ↔
        ∃ (py px : Nat) (row : List Val) (v : Val), ([[.num 0, .num 1, .num 0], [.num 1, .num 1, .num 1]] : Shape)[py]?
            = some row ∧ row[px]? = some v ∧ v.truthy = true ∧
          ((3 : Int) + (px : Int) < 0 ∨ (3 : Int) + (px : Int) ≥ 10 ∨
            (18 : Int) + (py : Int) ≥ 20 ∨
            (0 ≤ (18 : Int) + (py : Int) ∧
              boardAt nineLinesState.board (18 + (py : Int)) (3 + (px : Int)) ≠ Val.num 0)))) ∧
    (∀ rc ∈ isValidMoveReads nineLinesState
        [[.num 0, .num 1, .num 0], [.num 1, .num 1, .num 1]] 3 18,
      (0 ≤ rc.1 ∧ rc.1 < 20 ∧ 0 ≤ rc.2 ∧ rc.2 < 10) ∧
      ∃ (py px : Nat) (row : List Val) (v : Val), ([[.num 0, .num 1, .num 0], [.num 1, .num 1, .num 1]] : Shape)[py]?
          = some row ∧ row[px]? = some v ∧ v.truthy = true ∧
        rc = ((18 : Int) + (py : Int), (3 : Int) + (px : Int)))) :=
  ⟨by decide, isValidMove_false_iff nineLinesState _ 3 18 (by decide)⟩

/-! ## End of game -/

theorem updateStat_spec (winnerId : Option SocketId) (heap : Heap) (m : SocketId × Ref)
    (r : Ref) :
    (updateStat winnerId heap m r).id = (heap r).id ∧
    (updateStat winnerId heap m r).gameState = (heap r).gameState ∧
    (r ≠ m.2 → updateStat winnerId heap m r = heap r) ∧
    (r = m.2 → some (heap r).id = winnerId →
      (updateStat winnerId heap m r).wins = (heap r).wins + 1 ∧
      (updateStat winnerId heap m r).losses = (heap r).losses) ∧
    (r = m.2 → some (heap r).id ≠ winnerId →
      (updateStat winnerId heap m r).losses = (heap r).losses + 1 ∧
      (updateStat winnerId heap m r).wins = (heap r).wins) := by
  unfold updateStat
  by_cases hw : some (heap m.2).id = winnerId
  · rw [if_pos hw]
    by_cases hr : r = m.2
    · subst hr
      simp [setObj, hw]
    · simp [setObj, hr]
  · rw [if_neg hw]
    by_cases hr : r = m.2
    · subst hr
      simp [setObj, hw]
    · simp [setObj, hr]

theorem updateStats_spec (winnerId : Option SocketId) (members : List (SocketId × Ref)) :
    ∀ (heap : Heap), (members.map Prod.snd).Nodup → ∀ r : Ref,
      (updateStats winnerId members heap r).id = (heap r).id ∧
      (updateStats winnerId members heap r).gameState = (heap r).gameState ∧
      (r ∈ members.map Prod.snd →
        (some (heap r).id = winnerId →
          (updateStats winnerId members heap r).wins = (heap r).wins + 1 ∧
          (updateStats winnerId members heap r).losses = (heap r).losses) ∧
        (some (heap r).id ≠ winnerId →
          (updateStats winnerId members heap r).losses = (heap r).losses + 1 ∧
          (updateStats winnerId members heap r).wins = (heap r).wins)) ∧
      (r ∉ members.map Prod.snd → updateStats winnerId members heap r = heap r) := by
  induction members with
  | nil =>
    intro heap _ r
    simp [updateStats]
  | cons m rest ih =>
    intro heap hnd r
    rw [List.map_cons, List.nodup_cons] at hnd
    obtain ⟨hm, hrest⟩ := hnd
    have hstep : updateStats winnerId (m :: rest) heap =
        updateStats winnerId rest (updateStat winnerId heap m) := by
      simp [updateStats, List.foldl_cons]
    rw [hstep]
    obtain ⟨i1, i2, i3, i4⟩ := ih (updateStat winnerId heap m) hrest r
    obtain ⟨s1, s2, s3, s4, s5⟩ := updateStat_spec winnerId heap m r
    by_cases hr : r = m.2
    · have hnot : r ∉ rest.map Prod.snd := by
        rw [hr]
        exact hm
      rw [i4 hnot]
      refine ⟨s1, s2, fun _ => ⟨s4 hr, s5 hr⟩, ?_⟩
      intro hmem
      simp only [List.map_cons, List.mem_cons, not_or] at hmem
      exact absurd hr hmem.1
    · rw [s3 hr] at i1 i2 i3 i4
      refine ⟨i1, i2, ?_, ?_⟩
      · intro hmem
        simp only [List.map_cons, List.mem_cons] at hmem
        rcases hmem with h | h
        · exact absurd h hr
        · exact i3 h
      · intro hmem
        simp only [List.map_cons, List.mem_cons, not_or] at hmem
        exact i4 hmem.2

/-- C4: let `handleGameOver` run for a player with a game state, in a room whose
members all have a game state (as in every started room) and are stored under
their own ids.  The player is first marked not alive; `alive` is the list of members
that are alive after that.  The call returns.  If `alive` has at most one element,
the room becomes finished, `game:over` names the sole alive member (or nobody) as
the winner, that member gains exactly one win and no loss, and every other member
gains exactly one loss and no win.  If two or more members are alive, the room and
every win and loss counter are unchanged and nothing is emitted. -/
theorem handleGameOver_spec (heap : Heap) (room : GameRoom) (player : Ref) (gs : GameState)
    (hgs : (heap player).gameState = some gs)
    (hstates : ∀ m ∈ room.players, ((heap m.2).gameState).isSome = true)
    (hids : ∀ m ∈ room.players, (heap m.2).id = m.1)
    (hkeys : (room.players.map Prod.fst).Nodup) :
    ∃ heap1 heap2 room2 emits,
      heap1 = setObj heap player
        { heap player with gameState := some { gs with isAlive := false, gameOver := true } } ∧
      handleGameOver heap room player = .ok (heap2, room2, emits) ∧
      (heap2 player).alive = false ∧
      ((room.players.filter (fun m => (heap1 m.2).alive)).length ≤ 1 →
        room2.gameState = RoomStatus.finished ∧
        emits = [Emit.gameOver room.id
          ((room.players.filter (fun m => (heap1 m.2).alive)).head?.map Prod.fst)] ∧
        ∀ m ∈ room.players,
          ((heap1 m.2).alive = true →
            (heap2 m.2).wins = (heap m.2).wins + 1 ∧ (heap2 m.2).losses = (heap m.2).losses) ∧
          ((heap1 m.2).alive = false →
            (heap2 m.2).losses = (heap m.2).losses + 1 ∧ (heap2 m.2).wins = (heap m.2).wins)) ∧
      (2 ≤ (room.players.filter (fun m => (heap1 m.2).alive)).length →
        room2 = room ∧ emits = [] ∧
        ∀ r, (heap2 r).wins = (heap r).wins ∧ (heap2 r).losses = (heap r).losses) := by
  have hrefs : (room.players.map Prod.snd).Nodup := by
    refine List.Nodup.map_on ?_ (List.Nodup.of_map _ hkeys)
    intro a ha b hb hab
    have h1 : a.1 = b.1 := by rw [← hids a ha, ← hids b hb, hab]
    exact Prod.ext h1 hab
  have hinj : ∀ a ∈ room.players, ∀ b ∈ room.players, a.1 = b.1 → a = b :=
    List.inj_on_of_nodup_map hkeys
  obtain ⟨heap1, hheap1⟩ : ∃ heap1 : Heap, heap1 = setObj heap player
      { heap player with gameState := some { gs with isAlive := false, gameOver := true } } :=
    ⟨_, rfl⟩
  have hid1 : ∀ r, (heap1 r).id = (heap r).id := by
    intro r
    rw [hheap1]
    by_cases hr : r = player <;> simp [setObj, hr]
  have hwl1 : ∀ r, (heap1 r).wins = (heap r).wins ∧ (heap1 r).losses = (heap r).losses := by
    intro r
    rw [hheap1]
    by_cases hr : r = player <;> simp [setObj, hr]
  have hdead : (heap1 player).alive = false := by
    rw [hheap1]
    simp [setObj, Player.alive]
  have hsome1 : ∀ m ∈ room.players, ((heap1 m.2).gameState).isNone = false := by
    intro m hm
    rw [hheap1]
    by_cases hr : m.2 = player
    · simp [setObj, hr]
    · have := hstates m hm
      simp only [setObj, hr, if_false]
      cases hg : (heap m.2).gameState with
      | none => simp [hg] at this
      | some s => rfl
  have hany : room.players.any (fun m => ((heap1 m.2).gameState).isNone) = false := by
    rw [List.any_eq_false]
    intro m hm
    simp [hsome1 m hm]
  have hrun : handleGameOver heap room player =
      if (room.players.filter (fun m => (heap1 m.2).alive)).length ≤ 1 then
        .ok (updateStats
            ((if (room.players.filter (fun m => (heap1 m.2).alive)).length = 1 then
                (room.players.filter (fun m => (heap1 m.2).alive)).head?.map Prod.snd
              else none).map (fun w => (heap1 w).id))
            room.players heap1,
          { room with gameState := RoomStatus.finished },
          [Emit.gameOver room.id
            ((if (room.players.filter (fun m => (heap1 m.2).alive)).length = 1 then
                (room.players.filter (fun m => (heap1 m.2).alive)).head?.map Prod.snd
              else none).map (fun w => (heap1 w).id))])
      else .ok (heap1, room, []) := by
    simp only [handleGameOver, hgs]
    rw [← hheap1, hany]
    simp
  obtain ⟨alive, halive⟩ : ∃ alive, alive = room.players.filter (fun m => (heap1 m.2).alive) :=
    ⟨_, rfl⟩
  rw [← halive] at hrun
  have hmemAlive : ∀ m, m ∈ alive ↔ m ∈ room.players ∧ (heap1 m.2).alive = true := by
    intro m
    rw [halive, List.mem_filter]
  by_cases hle : alive.length ≤ 1
  · rw [if_pos hle] at hrun
    have hcases : alive = [] ∨ ∃ w, alive = [w] := by
      match alive, hle with
      | [], _ => exact Or.inl rfl
      | [w], _ => exact Or.inr ⟨w, rfl⟩
      | _ :: _ :: _, h => simp at h
    have hwinner : (if alive.length = 1 then alive.head?.map Prod.snd else none).map
        (fun w => (heap1 w).id) = alive.head?.map Prod.fst := by
      rcases hcases with h0 | ⟨w, hw1⟩
      · rw [h0]
        simp
      · have hw : w ∈ room.players := ((hmemAlive w).1 (by rw [hw1]; simp)).1
        rw [hw1]
        simp [hid1, hids w hw]
    rw [hwinner] at hrun
    refine ⟨heap1, _, _, _, hheap1, hrun, ?_, ?_, ?_⟩
    · have := (updateStats_spec (alive.head?.map Prod.fst) room.players heap1 hrefs player).2.1
      simp only [Player.alive] at hdead ⊢
      rw [this]
      exact hdead
    · rw [← halive]
      intro _
      refine ⟨rfl, rfl, ?_⟩
      intro m hm
      obtain ⟨_, _, u3, _⟩ :=
        updateStats_spec (alive.head?.map Prod.fst) room.players heap1 hrefs m.2
      obtain ⟨uw, ul⟩ := u3 (List.mem_map_of_mem _ hm)
      rw [hid1, hids m hm] at uw ul
      rw [(hwl1 m.2).1, (hwl1 m.2).2] at uw ul
      constructor
      · intro hal
        have hin : m ∈ alive := (hmemAlive m).2 ⟨hm, hal⟩
        apply uw
        rcases hcases with h0 | ⟨w, hw1⟩
        · rw [h0] at hin
          simp at hin
        · rw [hw1] at hin ⊢
          simp only [List.mem_singleton] at hin
          simp [hin]
      · intro hal
        apply ul
        intro heq
        rcases hcases with h0 | ⟨w, hw1⟩
        · rw [h0] at heq
          simp at heq
        · have hw := (hmemAlive w).1 (by rw [hw1]; simp)
          rw [hw1] at heq
          simp only [List.head?_cons, Option.map_some', Option.some.injEq] at heq
          have : m = w := hinj m hm w hw.1 heq
          rw [this, hw.2] at hal
          cases hal
    · rw [← halive]
      intro h2
      omega
  · rw [if_neg hle] at hrun
    refine ⟨heap1, _, _, _, hheap1, hrun, hdead, ?_, ?_⟩
    · rw [← halive]
      intro h
      exact absurd h hle
    · intro _
      exact ⟨rfl, rfl, hwl1⟩

/-- Witness for C4: in the two-player room, a (reference 0) tops out while b is
alive. -/
theorem handleGameOver_spec_witness :
    ((finishedHeap 0).gameState =
        some { (createInitialGameState ⟨fun _ => 0, 0⟩).1 with gameOver := true } ∧
      (∀ m ∈ duelRoom.players, ((finishedHeap m.2).gameState).isSome = true) ∧
      (∀ m ∈ duelRoom.players, (finishedHeap m.2).id = m.1) ∧
      (duelRoom.players.map Prod.fst).Nodup) ∧
    ∃ heap1 heap2 room2 emits,
      heap1 = setObj finishedHeap 0
        { finishedHeap 0 with
          gameState := some
            { ({ (createInitialGameState ⟨fun _ => 0, 0⟩).1 with gameOver := true } : GameState)
              with isAlive := false, gameOver := true } } ∧
      handleGameOver finishedHeap duelRoom 0 = .ok (heap2, room2, emits) ∧
      (heap2 0).alive = false ∧
      ((duelRoom.players.filter (fun m => (heap1 m.2).alive)).length ≤ 1 →
        room2.gameState = RoomStatus.finished ∧
        emits = [Emit.gameOver duelRoom.id
          ((duelRoom.players.filter (fun m => (heap1 m.2).alive)).head?.map Prod.fst)] ∧
        ∀ m ∈ duelRoom.players,
          ((heap1 m.2).alive = true →
            (heap2 m.2).wins = (finishedHeap m.2).wins + 1 ∧
            (heap2 m.2).losses = (finishedHeap m.2).losses) ∧
          ((heap1 m.2).alive = false →
            (heap2 m.2).losses = (finishedHeap m.2).losses + 1 ∧
            (heap2 m.2).wins = (finishedHeap m.2).wins)) ∧
      (2 ≤ (duelRoom.players.filter (fun m => (heap1 m.2).alive)).length →
        room2 = duelRoom ∧ emits = [] ∧
        ∀ r, (heap2 r).wins = (finishedHeap r).wins ∧
          (heap2 r).losses = (finishedHeap r).losses) :=
  ⟨⟨by decide, by decide, by decide, by decide⟩,
    handleGameOver_spec finishedHeap duelRoom 0 _ (by decide) (by decide) (by decide)
      (by decide)⟩

/-- C5 (as stated): on the finished room in which a has lost and b has won, running
`handleGameOver` once more for a returns normally, gives b a second win and a a
second loss, and emits `game:over` again. -/
theorem handleGameOver_on_finished_room_counts_again :
    finishedRoom.gameState = RoomStatus.finished ∧
    (finishedHeap 0).losses = 1 ∧ (finishedHeap 1).wins = 1 ∧
    (handleGameOver finishedHeap finishedRoom 0).map
        (fun r => ((r.1 0).losses, (r.1 1).wins, r.2.2)) =
      .ok (2, 2, [Emit.gameOver "r" (some "b")]) := by
  decide

theorem startGame_fold_stats (members : List (SocketId × Ref)) :
    ∀ (acc : Heap × Rng) (r : Ref),
      ((members.foldl (fun (acc : Heap × Rng) m =>
          (setObj acc.1 m.2 { acc.1 m.2 with
            gameState := some { (createInitialGameState acc.2).1 with isAlive := true } },
           (createInitialGameState acc.2).2)) acc).1 r).wins = (acc.1 r).wins ∧
      ((members.foldl (fun (acc : Heap × Rng) m =>
          (setObj acc.1 m.2 { acc.1 m.2 with
            gameState := some { (createInitialGameState acc.2).1 with isAlive := true } },
           (createInitialGameState acc.2).2)) acc).1 r).losses = (acc.1 r).losses := by
  induction members with
  | nil =>
    intro acc r
    exact ⟨rfl, rfl⟩
  | cons m rest ih =>
    intro acc r
    rw [List.foldl_cons]
    obtain ⟨h1, h2⟩ := ih
      (setObj acc.1 m.2 { acc.1 m.2 with
        gameState := some { (createInitialGameState acc.2).1 with isAlive := true } },
       (createInitialGameState acc.2).2) r
    rw [h1, h2]
    by_cases hr : r = m.2 <;> simp [setObj, hr]

theorem onRoomJoin_stats (srv : Server) (socket : SocketId) (roomId : RoomId) :
    (∀ r, ((onRoomJoin srv socket roomId).1.heap r).wins = (srv.heap r).wins ∧
      ((onRoomJoin srv socket roomId).1.heap r).losses = (srv.heap r).losses) ∧
    ∀ rid w, Emit.gameOver rid w ∉ (onRoomJoin srv socket roomId).2 := by
  unfold onRoomJoin
  cases hroom : srv.gameRooms.lookup roomId with
  | none => simp
  | some room =>
    cases hplayer : srv.players.lookup socket with
    | none => simp
    | some player =>
      simp only
      by_cases hseat : room.players.length < room.maxPlayers
      · by_cases hfull :
            (mapSet room.players (srv.heap player).id player).length = room.maxPlayers
        · simp only [GameRoom.addPlayer, hseat, if_true, hfull, GameRoom.startGame]
          constructor
          · intro r
            obtain ⟨h1, h2⟩ := startGame_fold_stats
              (mapSet room.players (srv.heap player).id player)
              (setObj srv.heap player { srv.heap player with roomId := some room.id },
                srv.rng) r
            rw [h1, h2]
            by_cases hr : r = player <;> simp [setObj, hr]
          · simp
        · simp only [GameRoom.addPlayer, hseat, if_true, hfull, if_false]
          constructor
          · intro r
            by_cases hr : r = player <;> simp [setObj, hr]
          · simp
      · simp [GameRoom.addPlayer, hseat]

theorem onDisconnect_stats (srv : Server) (socket : SocketId) :
    (onDisconnect srv socket).1.heap = srv.heap ∧
    ∀ rid w, Emit.gameOver rid w ∉ (onDisconnect srv socket).2 := by
  unfold onDisconnect
  cases srv.players.lookup socket with
  | none => simp
  | some player =>
    simp only
    cases (srv.heap player).roomId with
    | none => simp
    | some rid1 =>
      simp only
      by_cases ht : strTruthy rid1 = true
      · simp only [ht, if_true]
        cases srv.gameRooms.lookup rid1 <;> simp
      · simp [ht]

/-- C5 (amended): a `game:move` or `powerup:use` message addressed to a room that is
finished is ignored: the server state, and with it every win and loss counter, is
unchanged and nothing, in particular no `game:over`, is emitted.  The handler of
`game:move` is the only caller of `handleGameMove`, which is the only caller of
`handleGameOver`, so the win condition is not evaluated again while the room is
finished.  A `room:join` or a `disconnect` changes no win or loss counter and emits
no `game:over` either. -/
theorem finished_room_ignores_moves (fuel : Nat) (srv : Server) (socket : SocketId)
    (roomId : RoomId) (room : GameRoom) (move : Move) (powerUp : String)
    (targetPlayerId : Option SocketId)
    (hroom : srv.gameRooms.lookup roomId = some room)
    (hfinished : room.gameState = RoomStatus.finished) :
    handleEvent fuel srv (.gameMove socket roomId move) = .ok (srv, []) ∧
    handleEvent fuel srv (.powerupUse socket roomId powerUp targetPlayerId) = .ok (srv, []) ∧
    (∃ srv1 emits, handleEvent fuel srv (.roomJoin socket roomId) = .ok (srv1, emits) ∧
      (∀ r, (srv1.heap r).wins = (srv.heap r).wins ∧ (srv1.heap r).losses = (srv.heap r).losses) ∧
      ∀ rid w, Emit.gameOver rid w ∉ emits) ∧
    (∃ srv1 emits, handleEvent fuel srv (.disconnect socket) = .ok (srv1, emits) ∧
      srv1.heap = srv.heap ∧ ∀ rid w, Emit.gameOver rid w ∉ emits) := by
  refine ⟨?_, ?_, ?_, ?_⟩
  · simp only [handleEvent, onGameMove, hroom]
    cases srv.players.lookup socket <;> simp [hfinished]
  · simp only [handleEvent, onPowerupUse, hroom]
    cases srv.players.lookup socket <;> simp [hfinished]
  · exact ⟨_, _, rfl, (onRoomJoin_stats srv socket roomId).1,
      (onRoomJoin_stats srv socket roomId).2⟩
  · exact ⟨_, _, rfl, (onDisconnect_stats srv socket).1, (onDisconnect_stats srv socket).2⟩

/-- Witness for C5 (amended): a hard drop, a power-up, a join and a disconnect sent
to the finished room of the two-player scenario. -/
theorem finished_room_ignores_moves_witness :
    (finishedServer.gameRooms.lookup "r" = some finishedRoom ∧
      finishedRoom.gameState = RoomStatus.finished) ∧
    (handleEvent 30 finishedServer (.gameMove "a" "r" ⟨"hard_drop", ""⟩) =
        .ok (finishedServer, []) ∧
      handleEvent 30 finishedServer (.powerupUse "a" "r" "shield" none) =
        .ok (finishedServer, []) ∧
      (∃ srv1 emits, handleEvent 30 finishedServer (.roomJoin "a" "r") = .ok (srv1, emits) ∧
        (∀ r, (srv1.heap r).wins = (finishedServer.heap r).wins ∧
          (srv1.heap r).losses = (finishedServer.heap r).losses) ∧
        ∀ rid w, Emit.gameOver rid w ∉ emits) ∧
      (∃ srv1 emits, handleEvent 30 finishedServer (.disconnect "a") = .ok (srv1, emits) ∧
        srv1.heap = finishedServer.heap ∧ ∀ rid w, Emit.gameOver rid w ∉ emits)) :=
  ⟨⟨by decide, by decide⟩,
    finished_room_ignores_moves 30 finishedServer "a" "r" finishedRoom ⟨"hard_drop", ""⟩
      "shield" none (by decide) (by decide)⟩

/-! ## Room life cycle -/

/-- C6: from the empty server, players a and b fill the room r of capacity 2 (the
room turns playing), a tops out after ten hard drops (the room turns finished), b
disconnects and c joins: the room is playing again.  The third component counts
the `game:start` messages of that run: 2.  The last component is the same count when
b leaves and c joins while the first game is still being played. -/
theorem room_restarts_on_join :
    statusTrace 30 (Server.init (fun _ => 1))
        (twoPlayerSetup ++ hardDrops 10 ++ [.disconnect "b", .roomJoin "c" "r"]) "r" =
      [none, none, none, some .waiting, some .waiting, some .playing,
        some .playing, some .playing, some .playing, some .playing, some .playing,
        some .playing, some .playing, some .playing, some .playing, some .finished,
        some .finished, some .playing] ∧
    (emitsAfter 30 (Server.init (fun _ => 1))
        (twoPlayerSetup ++ hardDrops 10 ++ [.disconnect "b", .roomJoin "c" "r"])).count
      (Emit.gameStart "r") = 2 ∧
    (emitsAfter 30 (Server.init (fun _ => 1))
        (twoPlayerSetup ++ [.disconnect "b", .roomJoin "c" "r"])).count
      (Emit.gameStart "r") = 2 := by
  decide

/-! ## Level and spawn after a lock -/

theorem createInitialGameState_level (g : Rng) :
    (createInitialGameState g).1.level = (createInitialGameState g).1.lines / 10 + 1 := by
  simp [createInitialGameState]

/-- C9: the game state with 9 lines at level 1 satisfies `level = floor(lines / 10) + 1`;
the hard drop that completes its bottom row leaves 10 lines and level 1, which is
not `floor(10 / 10) + 1 = 2`. -/
theorem level_not_updated_at_ten_lines :
    nineLinesState.level = nineLinesState.lines / 10 + 1 ∧
    linesAndLevelAfter 30 (soloHeap nineLinesState) ⟨fun _ => 0, 0⟩ soloRoom 0
        ⟨"hard_drop", ""⟩ = some (10, 1) ∧
    (1 : Nat) ≠ 10 / 10 + 1 := by
  decide

/-- C10: from the empty server, player a places an I piece and an O piece and moves
the following I piece to column 0, where it is legal; the next piece is then a T.
The hard drop locks the I piece into the bottom row, which is cleared (lines 0 to
1); afterwards the current piece is still that I piece, at row 19, and the T is
still the next piece. -/
theorem no_spawn_after_clearing_lock :
    (gameStateAfter 30 (Server.init drawsIOIT) (twoPlayerSetup ++ fillBottomRow) "a").map
        pieceSummary = some ("I", 0, 0, "T", 0) ∧
    (gameStateAfter 30 (Server.init drawsIOIT) (twoPlayerSetup ++ fillBottomRow) "a").map
        isValidPosition = some (.ok true) ∧
    (gameStateAfter 30 (Server.init drawsIOIT)
        (twoPlayerSetup ++ fillBottomRow ++ hardDrops 1) "a").map pieceSummary =
      some ("I", 0, 19, "T", 1) := by
  decide

/-! ## Joining a room and starting the game -/

theorem startGame_fold_fresh (members : List (SocketId × Ref)) :
    ∀ (acc : Heap × Rng) (r : Ref),
      ((∃ g, (acc.1 r).gameState =
          some { (createInitialGameState g).1 with isAlive := true }) ∨
        r ∈ members.map Prod.snd) →
      ∃ g, ((members.foldl (fun (acc : Heap × Rng) m =>
          (setObj acc.1 m.2 { acc.1 m.2 with
            gameState := some { (createInitialGameState acc.2).1 with isAlive := true } },
           (createInitialGameState acc.2).2)) acc).1 r).gameState =
        some { (createInitialGameState g).1 with isAlive := true } := by
  induction members with
  | nil =>
    intro acc r h
    rcases h with h | h
    · exact h
    · simp at h
  | cons m rest ih =>
    intro acc r h
    rw [List.foldl_cons]
    apply ih
    by_cases hr : r = m.2
    · left
      exact ⟨acc.2, by simp [setObj, hr]⟩
    · rcases h with ⟨g, hg⟩ | h
      · left
        exact ⟨g, by simpa [setObj, hr] using hg⟩
      · right
        simp only [List.map_cons, List.mem_cons] at h
        rcases h with h | h
        · exact absurd h hr
        · exact h

/-- C7: when a registered player joins a waiting room that still has a free seat,
the join succeeds and the player is a member afterwards.  If the member count after
the join equals `maxPlayers`, the room becomes playing, `game:start` is emitted and
every member holds a new game state (empty 20x10 board, score 0, lines 0, level 1,
no power-ups, 0 shields, alive, not over); if the count is below `maxPlayers`, the
room stays waiting, nothing is started and no game state changes.  The count never
exceeds `maxPlayers`, so exactly one of the two cases applies. -/
theorem roomJoin_starts_exactly_when_full (srv : Server) (socket : SocketId) (roomId : RoomId)
    (room : GameRoom) (player : Ref)
    (hroom : srv.gameRooms.lookup roomId = some room)
    (hwaiting : room.gameState = RoomStatus.waiting)
    (hplayer : srv.players.lookup socket = some player)
    (hseat : room.players.length < room.maxPlayers) :
    ∃ room1, (onRoomJoin srv socket roomId).1.gameRooms.lookup roomId = some room1 ∧
      room1.maxPlayers = room.maxPlayers ∧
      room1.players.lookup (srv.heap player).id = some player ∧
      Emit.roomJoined roomId ∈ (onRoomJoin srv socket roomId).2 ∧
      room1.players.length ≤ room.maxPlayers ∧
      (room1.players.length = room.maxPlayers →
        room1.gameState = RoomStatus.playing ∧
        Emit.gameStart roomId ∈ (onRoomJoin srv socket roomId).2 ∧
        ∀ m ∈ room1.players, ∃ gs,
          ((onRoomJoin srv socket roomId).1.heap m.2).gameState = some gs ∧
          gs.board = emptyBoard ∧ gs.score = Num.val 0 ∧ gs.lines = 0 ∧ gs.level = 1 ∧
          gs.powerUps = [] ∧ gs.shields = 0 ∧ gs.isAlive = true ∧ gs.gameOver = false) ∧
      (room1.players.length < room.maxPlayers →
        room1.gameState = RoomStatus.waiting ∧
        Emit.gameStart roomId ∉ (onRoomJoin srv socket roomId).2 ∧
        ∀ r, ((onRoomJoin srv socket roomId).1.heap r).gameState = (srv.heap r).gameState) := by
  have hsome : (srv.gameRooms.lookup roomId).isSome = true := by simp [hroom]
  have hlen := mapSet_length_le room.players (srv.heap player).id player
  have hlook := lookup_mapSet_self room.players (srv.heap player).id player
  by_cases hfull : (mapSet room.players (srv.heap player).id player).length = room.maxPlayers
  · refine ⟨{ room with
        players := mapSet room.players (srv.heap player).id player
        gameState := RoomStatus.playing }, ?_, rfl, hlook, ?_, ?_, ?_, ?_⟩
    · simp only [onRoomJoin, hroom, hplayer, GameRoom.addPlayer, hseat, if_true, hfull,
        GameRoom.startGame]
      exact lookup_mapReplace_self _ _ _ hsome
    · simp [onRoomJoin, hroom, hplayer, GameRoom.addPlayer, hseat, hfull]
    · simp only
      omega
    · intro _
      refine ⟨rfl, ?_, ?_⟩
      · simp [onRoomJoin, hroom, hplayer, GameRoom.addPlayer, hseat, hfull]
      · intro m hm
        simp only [onRoomJoin, hroom, hplayer, GameRoom.addPlayer, hseat, if_true, hfull,
          GameRoom.startGame]
        obtain ⟨g, hg⟩ := startGame_fold_fresh
          (mapSet room.players (srv.heap player).id player)
          (setObj srv.heap player { srv.heap player with roomId := some room.id }, srv.rng) m.2
          (Or.inr (List.mem_map_of_mem _ hm))
        exact ⟨_, hg, rfl, rfl, rfl, rfl, rfl, rfl, rfl, rfl⟩
    · intro h
      simp only at h
      omega
  · refine ⟨{ room with players := mapSet room.players (srv.heap player).id player },
      ?_, rfl, hlook, ?_, ?_, ?_, ?_⟩
    · simp only [onRoomJoin, hroom, hplayer, GameRoom.addPlayer, hseat, if_true, hfull,
        if_false]
      exact lookup_mapReplace_self _ _ _ hsome
    · simp [onRoomJoin, hroom, hplayer, GameRoom.addPlayer, hseat, hfull]
    · simp only
      omega
    · intro h
      exact absurd h hfull
    · intro _
      refine ⟨hwaiting, ?_, ?_⟩
      · simp [onRoomJoin, hroom, hplayer, GameRoom.addPlayer, hseat, hfull]
      · intro r
        simp only [onRoomJoin, hroom, hplayer, GameRoom.addPlayer, hseat, if_true, hfull,
          if_false, setObj]
        by_cases hr : r = player
        · simp [hr]
        · simp [hr]

/-- Witness for C7: player a joins the empty waiting room of capacity 2, which
stays waiting with one member. -/
theorem roomJoin_starts_exactly_when_full_witness :
    (lobbyServer.gameRooms.lookup "r" = some (GameRoom.new "r" "room" 2 false) ∧
      (GameRoom.new "r" "room" 2 false).gameState = RoomStatus.waiting ∧
      lobbyServer.players.lookup "a" = some 0 ∧
      (GameRoom.new "r" "room" 2 false).players.length <
        (GameRoom.new "r" "room" 2 false).maxPlayers) ∧
    ∃ room1, (onRoomJoin lobbyServer "a" "r").1.gameRooms.lookup "r" = some room1 ∧
      room1.maxPlayers = (GameRoom.new "r" "room" 2 false).maxPlayers ∧
      room1.players.lookup (lobbyServer.heap 0).id = some 0 ∧
      Emit.roomJoined "r" ∈ (onRoomJoin lobbyServer "a" "r").2 ∧
      room1.players.length ≤ (GameRoom.new "r" "room" 2 false).maxPlayers ∧
      (room1.players.length = (GameRoom.new "r" "room" 2 false).maxPlayers →
        room1.gameState = RoomStatus.playing ∧
        Emit.gameStart "r" ∈ (onRoomJoin lobbyServer "a" "r").2 ∧
        ∀ m ∈ room1.players, ∃ gs,
          ((onRoomJoin lobbyServer "a" "r").1.heap m.2).gameState = some gs ∧
          gs.board = emptyBoard ∧ gs.score = Num.val 0 ∧ gs.lines = 0 ∧ gs.level = 1 ∧
          gs.powerUps = [] ∧ gs.shields = 0 ∧ gs.isAlive = true ∧ gs.gameOver = false) ∧
      (room1.players.length < (GameRoom.new "r" "room" 2 false).maxPlayers →
        room1.gameState = RoomStatus.waiting ∧
        Emit.gameStart "r" ∉ (onRoomJoin lobbyServer "a" "r").2 ∧
        ∀ r, ((onRoomJoin lobbyServer "a" "r").1.heap r).gameState =
          (lobbyServer.heap r).gameState) :=
  ⟨⟨by decide, by decide, by decide, by decide⟩,
    roomJoin_starts_exactly_when_full lobbyServer "a" "r" (GameRoom.new "r" "room" 2 false) 0
      (by decide) (by decide) (by decide) (by decide)⟩

/-! ## Row count of line clearing -/

theorem linesToClear_lt (board : Board) : ∀ line ∈ linesToClear board, line < board.length := by
  intro line hline
  simp only [linesToClear, List.mem_map, List.mem_filter, List.mem_reverse] at hline
  obtain ⟨r, ⟨hr, _⟩, rfl⟩ := hline
  exact List.fst_lt_of_mem_enum hr

theorem linesToClear_length (board : Board) :
    (linesToClear board).length = board.countP (fun row => row.all Val.nonZero) := by
  have h : board.countP (fun row => row.all Val.nonZero) =
      (board.enum.map Prod.snd).countP (fun row => row.all Val.nonZero) := by
    rw [List.enum_map_snd]
  rw [h, List.countP_map]
  simp only [linesToClear, List.length_map]
  rw [← List.countP_eq_length_filter, List.countP_reverse]
  rfl

theorem clearLine_length (board : Board) (line : Nat) (h : line < board.length) :
    (clearLine board line).length = board.length := by
  simp only [clearLine, List.length_cons, List.length_eraseIdx, h, if_true]
  omega

theorem foldl_clearLine_length (lines : List Nat) :
    ∀ board : Board, (∀ line ∈ lines, line < board.length) →
      (lines.foldl clearLine board).length = board.length := by
  induction lines with
  | nil =>
    intro board _
    rfl
  | cons l rest ih =>
    intro board h
    have hl : l < board.length := h l (List.mem_cons_self _ _)
    have hlen := clearLine_length board l hl
    rw [List.foldl_cons, ih (clearLine board l), hlen]
    intro line hline
    rw [hlen]
    exact h line (List.mem_cons_of_mem _ hline)

theorem checkLineClears_length (board : Board) :
    (checkLineClears board).1.length = board.length :=
  foldl_clearLine_length (linesToClear board) board (linesToClear_lt board)

/-- C20: for every board, `checkLineClears` leaves the number of rows unchanged.
Every index it splices is a row of the board at that moment, so each step of its
loop removes exactly one row and inserts exactly one row of ten empty cells at the
top; the number of steps is the returned value, and that value is the number of
rows that were full on entry. -/
theorem checkLineClears_row_count (board : Board) :
    (checkLineClears board).1.length = board.length ∧
    (checkLineClears board).1 = (linesToClear board).foldl clearLine board ∧
    (∀ (b : Board) (line : Nat), line < b.length →
      clearLine b line = emptyRow :: b.eraseIdx line ∧
      (b.eraseIdx line).length + 1 = b.length ∧
      emptyRow.length = 10 ∧ (∀ cell ∈ emptyRow, cell = Val.num 0)) ∧
    (∀ (k : Nat), k ≤ (linesToClear board).length →
      ∀ line ∈ (linesToClear board).drop k,
        line < (((linesToClear board).take k).foldl clearLine board).length) ∧
    (checkLineClears board).2 = (linesToClear board).length ∧
    (checkLineClears board).2 = board.countP (fun row => row.all Val.nonZero) := by
  refine ⟨checkLineClears_length board, rfl, ?_, ?_, rfl, linesToClear_length board⟩
  · intro b line hline
    refine ⟨rfl, ?_, by decide, ?_⟩
    · rw [List.length_eraseIdx, if_pos hline]
      omega
    · intro cell hcell
      exact List.eq_of_mem_replicate hcell
  · intro k _ line hline
    rw [foldl_clearLine_length]
    · exact linesToClear_lt board line (List.mem_of_mem_drop hline)
    · intro l hl
      exact linesToClear_lt board l (List.mem_of_mem_take hl)

/-! ## Spawn position -/

theorem getRandomPiece_mem (g : Rng) : (getRandomPiece g).1 ∈ TETROMINOS.map pieceOf := by
  have hlt : g.draws g.pos % 7 < 7 := Nat.mod_lt _ (by decide)
  simp only [getRandomPiece, Rng.next]
  generalize g.draws g.pos % 7 = i at hlt
  interval_cases i <;> decide

/-- C19: on a game state whose board is the empty 20x10 board, the table lists, for
each of the 7 tetromino kinds in key order, the name, the x and y of the piece
`getRandomPiece` builds for it, the value `floor((10 - shapeWidth) / 2)` and the
result of `isValidMove` for its shape at that position: x is 3 for I, 4 for O and 3
for T, S, Z, J and L, y is 0 and the position is accepted.  Every piece
`getRandomPiece` returns is the piece of one of these kinds. -/
theorem spawn_positions (gameState : GameState) (hboard : gameState.board = emptyBoard) :
    TETROMINOS.map (fun t => (t.name, (pieceOf t).x, (pieceOf t).y,
        (10 - ((t.shape.headD []).length : Int)) / 2,
        isValidMove gameState (pieceOf t).shape (pieceOf t).x (pieceOf t).y)) =
      [("I", 3, 0, 3, .ok true), ("O", 4, 0, 4, .ok true), ("T", 3, 0, 3, .ok true),
       ("S", 3, 0, 3, .ok true), ("Z", 3, 0, 3, .ok true), ("J", 3, 0, 3, .ok true),
       ("L", 3, 0, 3, .ok true)] ∧
    ∀ g : Rng, (getRandomPiece g).1 ∈ TETROMINOS.map pieceOf := by
  refine ⟨?_, getRandomPiece_mem⟩
  simp only [isValidMove, hboard]
  decide

/-- Witness for C19: the game state a player receives at the start of a game. -/
theorem spawn_positions_witness :
    (createInitialGameState ⟨fun _ => 0, 0⟩).1.board = emptyBoard ∧
    (TETROMINOS.map (fun t => (t.name, (pieceOf t).x, (pieceOf t).y,
        (10 - ((t.shape.headD []).length : Int)) / 2,
        isValidMove (createInitialGameState ⟨fun _ => 0, 0⟩).1 (pieceOf t).shape (pieceOf t).x
          (pieceOf t).y)) =
      [("I", 3, 0, 3, .ok true), ("O", 4, 0, 4, .ok true), ("T", 3, 0, 3, .ok true),
       ("S", 3, 0, 3, .ok true), ("Z", 3, 0, 3, .ok true), ("J", 3, 0, 3, .ok true),
       ("L", 3, 0, 3, .ok true)] ∧
    ∀ g : Rng, (getRandomPiece g).1 ∈ TETROMINOS.map pieceOf) :=
  ⟨rfl, spawn_positions (createInitialGameState ⟨fun _ => 0, 0⟩).1 rfl⟩

/-! ## Move, rotate and soft drop -/

theorem isValidMove_ok (gameState : GameState) (shape : Shape) (x y : Int)
    (hrows : gameState.board.length = 20) :
    isValidMove gameState shape x y =
      .ok (!(shapeCells shape).any (cellBlocked gameState.board x y)) :=
  (isValidMoveScan_spec gameState.board hrows x y (shapeCells shape)).1

/-- C17: for every game state, when the collision test rejects the candidate,
`movePiece`, `rotatePiece` and `dropPiece` return false and leave the whole game
state (the piece's x, y and shape, the board, the score) unchanged; when it accepts
the candidate, each returns true and the new game state is the old one with exactly
that candidate committed: the new x for `movePiece`, the rotated shape for
`rotatePiece`, and the new y (with one point added to the score) for `dropPiece`.
On a board of 20 rows the collision test of each candidate returns, so one of the
two cases applies. -/
theorem try_actions_commit_iff_valid (gameState : GameState) (direction : String) :
    ((isValidMove gameState gameState.currentPiece.shape
          (if direction = "left" then gameState.currentPiece.x - 1
            else gameState.currentPiece.x + 1) gameState.currentPiece.y = .ok false →
        movePiece gameState direction = .ok (gameState, false)) ∧
      (isValidMove gameState gameState.currentPiece.shape
          (if direction = "left" then gameState.currentPiece.x - 1
            else gameState.currentPiece.x + 1) gameState.currentPiece.y = .ok true →
        movePiece gameState direction =
          .ok ({ gameState with
                  currentPiece := { gameState.currentPiece with
                    x := if direction = "left" then gameState.currentPiece.x - 1
                      else gameState.currentPiece.x + 1 } }, true))) ∧
    ((isValidMove gameState (rotateMatrix gameState.currentPiece.shape)
          gameState.currentPiece.x gameState.currentPiece.y = .ok false →
        rotatePiece gameState = .ok (gameState, false)) ∧
      (isValidMove gameState (rotateMatrix gameState.currentPiece.shape)
          gameState.currentPiece.x gameState.currentPiece.y = .ok true →
        rotatePiece gameState =
          .ok ({ gameState with
                  currentPiece := { gameState.currentPiece with
                    shape := rotateMatrix gameState.currentPiece.shape } }, true))) ∧
    ((isValidMove gameState gameState.currentPiece.shape gameState.currentPiece.x
          (gameState.currentPiece.y + 1) = .ok false →
        dropPiece gameState = .ok (gameState, false)) ∧
      (isValidMove gameState gameState.currentPiece.shape gameState.currentPiece.x
          (gameState.currentPiece.y + 1) = .ok true →
        dropPiece gameState =
          .ok ({ gameState with
                  currentPiece := { gameState.currentPiece with
                    y := gameState.currentPiece.y + 1 }
                  score := gameState.score.add (.val 1) }, true))) ∧
    (gameState.board.length = 20 →
      (∃ b, isValidMove gameState gameState.currentPiece.shape
          (if direction = "left" then gameState.currentPiece.x - 1
            else gameState.currentPiece.x + 1) gameState.currentPiece.y = .ok b) ∧
      (∃ b, isValidMove gameState (rotateMatrix gameState.currentPiece.shape)
          gameState.currentPiece.x gameState.currentPiece.y = .ok b) ∧
      (∃ b, isValidMove gameState gameState.currentPiece.shape gameState.currentPiece.x
          (gameState.currentPiece.y + 1) = .ok b)) := by
  refine ⟨⟨?_, ?_⟩, ⟨?_, ?_⟩, ⟨?_, ?_⟩, ?_⟩
  · intro h
    simp only [movePiece, h]
  · intro h
    simp only [movePiece, h]
  · intro h
    simp only [rotatePiece, h]
  · intro h
    simp only [rotatePiece, h]
  · intro h
    simp only [dropPiece, h]
  · intro h
    simp only [dropPiece, h]
  · intro hrows
    exact ⟨⟨_, isValidMove_ok gameState _ _ _ hrows⟩, ⟨_, isValidMove_ok gameState _ _ _ hrows⟩,
      ⟨_, isValidMove_ok gameState _ _ _ hrows⟩⟩

/-- Witness for C17: the state whose I piece stands at column 3 of the board with
the gapped bottom row: the move to the left is accepted and committed, and the
rotation is accepted. -/
theorem try_actions_commit_iff_valid_witness :
    (nineLinesState.board.length = 20 ∧
      (movePiece nineLinesState "left").map (fun r => (r.1.currentPiece.x, r.2)) = .ok (2, true) ∧
      (rotatePiece nineLinesState).map (fun r => (r.1.currentPiece.shape, r.2)) =
        .ok ([[.num 1]], true)) ∧
    (((isValidMove nineLinesState nineLinesState.currentPiece.shape
          (if ("left" : String) = "left" then nineLinesState.currentPiece.x - 1
            else nineLinesState.currentPiece.x + 1) nineLinesState.currentPiece.y = .ok false →
        movePiece nineLinesState ("left" : String) = .ok (nineLinesState, false)) ∧
      (isValidMove nineLinesState nineLinesState.currentPiece.shape
          (if ("left" : String) = "left" then nineLinesState.currentPiece.x - 1
            else nineLinesState.currentPiece.x + 1) nineLinesState.currentPiece.y = .ok true →
        movePiece nineLinesState ("left" : String) =
          .ok ({ nineLinesState with
                  currentPiece := { nineLinesState.currentPiece with
                    x := if ("left" : String) = "left" then nineLinesState.currentPiece.x - 1
                      else nineLinesState.currentPiece.x + 1 } }, true))) ∧
    ((isValidMove nineLinesState (rotateMatrix nineLinesState.currentPiece.shape)
          nineLinesState.currentPiece.x nineLinesState.currentPiece.y = .ok false →
        rotatePiece nineLinesState = .ok (nineLinesState, false)) ∧
      (isValidMove nineLinesState (rotateMatrix nineLinesState.currentPiece.shape)
          nineLinesState.currentPiece.x nineLinesState.currentPiece.y = .ok true →
        rotatePiece nineLinesState =
          .ok ({ nineLinesState with
                  currentPiece := { nineLinesState.currentPiece with
                    shape := rotateMatrix nineLinesState.currentPiece.shape } }, true))) ∧
    ((isValidMove nineLinesState nineLinesState.currentPiece.shape nineLinesState.currentPiece.x
          (nineLinesState.currentPiece.y + 1) = .ok false →
        dropPiece nineLinesState = .ok (nineLinesState, false)) ∧
      (isValidMove nineLinesState nineLinesState.currentPiece.shape nineLinesState.currentPiece.x
          (nineLinesState.currentPiece.y + 1) = .ok true →
        dropPiece nineLinesState =
          .ok ({ nineLinesState with
                  currentPiece := { nineLinesState.currentPiece with
                    y := nineLinesState.currentPiece.y + 1 }
                  score := nineLinesState.score.add (.val 1) }, true))) ∧
    (nineLinesState.board.length = 20 →
      (∃ b, isValidMove nineLinesState nineLinesState.currentPiece.shape
          (if ("left" : String) = "left" then nineLinesState.currentPiece.x - 1
            else nineLinesState.currentPiece.x + 1) nineLinesState.currentPiece.y = .ok b) ∧
      (∃ b, isValidMove nineLinesState (rotateMatrix nineLinesState.currentPiece.shape)
          nineLinesState.currentPiece.x nineLinesState.currentPiece.y = .ok b) ∧
      (∃ b, isValidMove nineLinesState nineLinesState.currentPiece.shape nineLinesState.currentPiece.x
          (nineLinesState.currentPiece.y + 1) = .ok b))) :=
  ⟨⟨by decide, by decide, by decide⟩, try_actions_commit_iff_valid nineLinesState "left"⟩

/-- C18: for every game state, when the current piece is legal one row lower
`dropPiece` returns true and the new game state is the old one with the piece's y
increased by 1 and one point added to the score; the board, the piece's x and
shape, the next piece, the lines, the level and every other field are the old
ones, and a numeric score s becomes s + 1.  When the piece is not legal one row
lower, `dropPiece` returns false and the game state, the score included, is
unchanged.  On a board of 20 rows one of the two cases applies. -/
theorem dropPiece_descends_one_row (gameState : GameState) :
    (isValidMove gameState gameState.currentPiece.shape gameState.currentPiece.x
        (gameState.currentPiece.y + 1) = .ok true →
      ∃ gs, dropPiece gameState = .ok (gs, true) ∧
        gs = { gameState with
                currentPiece := { gameState.currentPiece with
                  y := gameState.currentPiece.y + 1 }
                score := gameState.score.add (.val 1) } ∧
        gs.currentPiece.y = gameState.currentPiece.y + 1 ∧
        (∀ s, gameState.score = .val s → gs.score = .val (s + 1)) ∧
        gs.board = gameState.board ∧ gs.currentPiece.x = gameState.currentPiece.x ∧
        gs.currentPiece.shape = gameState.currentPiece.shape ∧
        gs.lines = gameState.lines ∧ gs.level = gameState.level) ∧
    (isValidMove gameState gameState.currentPiece.shape gameState.currentPiece.x
        (gameState.currentPiece.y + 1) = .ok false →
      dropPiece gameState = .ok (gameState, false)) ∧
    (gameState.board.length = 20 →
      isValidMove gameState gameState.currentPiece.shape gameState.currentPiece.x
        (gameState.currentPiece.y + 1) = .ok true ∨
      isValidMove gameState gameState.currentPiece.shape gameState.currentPiece.x
        (gameState.currentPiece.y + 1) = .ok false) := by
  refine ⟨?_, ?_, ?_⟩
  · intro h
    refine ⟨_, ?_, rfl, rfl, ?_, rfl, rfl, rfl, rfl, rfl⟩
    · simp only [dropPiece, h]
    · intro s hs
      simp [hs, Num.add]
  · intro h
    simp only [dropPiece, h]
  · intro hrows
    rw [isValidMove_ok gameState _ _ _ hrows]
    cases (shapeCells gameState.currentPiece.shape).any
      (cellBlocked gameState.board gameState.currentPiece.x (gameState.currentPiece.y + 1)) <;>
      simp

/-- Witness for C18: the I piece at the top of the board with the gapped bottom row
descends one row and the score goes from 900 to 901. -/
theorem dropPiece_descends_one_row_witness :
    (nineLinesState.board.length = 20 ∧
      isValidMove nineLinesState nineLinesState.currentPiece.shape nineLinesState.currentPiece.x
        (nineLinesState.currentPiece.y + 1) = .ok true ∧
      (dropPiece nineLinesState).map (fun r => (r.1.currentPiece.y, r.1.score, r.2)) =
        .ok (1, .val 901, true)) ∧
    ((isValidMove nineLinesState nineLinesState.currentPiece.shape nineLinesState.currentPiece.x
        (nineLinesState.currentPiece.y + 1) = .ok true →
      ∃ gs, dropPiece nineLinesState = .ok (gs, true) ∧
        gs = { nineLinesState with
                currentPiece := { nineLinesState.currentPiece with
                  y := nineLinesState.currentPiece.y + 1 }
                score := nineLinesState.score.add (.val 1) } ∧
        gs.currentPiece.y = nineLinesState.currentPiece.y + 1 ∧
        (∀ s, nineLinesState.score = .val s → gs.score = .val (s + 1)) ∧
        gs.board = nineLinesState.board ∧ gs.currentPiece.x = nineLinesState.currentPiece.x ∧
        gs.currentPiece.shape = nineLinesState.currentPiece.shape ∧
        gs.lines = nineLinesState.lines ∧ gs.level = nineLinesState.level) ∧
    (isValidMove nineLinesState nineLinesState.currentPiece.shape nineLinesState.currentPiece.x
        (nineLinesState.currentPiece.y + 1) = .ok false →
      dropPiece nineLinesState = .ok (nineLinesState, false)) ∧
    (nineLinesState.board.length = 20 →
      isValidMove nineLinesState nineLinesState.currentPiece.shape nineLinesState.currentPiece.x
        (nineLinesState.currentPiece.y + 1) = .ok true ∨
      isValidMove nineLinesState nineLinesState.currentPiece.shape nineLinesState.currentPiece.x
        (nineLinesState.currentPiece.y + 1) = .ok false)) :=
  ⟨⟨by decide, by decide, by decide⟩, dropPiece_descends_one_row nineLinesState⟩

/-! ## Garbage rows -/

theorem garbageLine_shape (h : Nat) (hh : h < 10) :
    (garbageLine h).length = 10 ∧ (garbageLine h).count (Val.num 0) = 1 ∧
    (garbageLine h).count (Val.str "gray") = 9 ∧ (garbageLine h)[h]? = some (Val.num 0) := by
  interval_cases h <;> decide

theorem addGarbage_spec (n : Nat) :
    ∀ (board : Board) (g : Rng), n ≤ board.length →
      ∃ holes : List Nat, holes.length = n ∧ (∀ h ∈ holes, h < 10) ∧
        (addGarbage n board g).1 = board.drop n ++ holes.map garbageLine := by
  induction n with
  | zero =>
    intro board g _
    exact ⟨[], rfl, by simp, by simp [addGarbage]⟩
  | succ n ih =>
    intro board g hn
    obtain ⟨holes, hlen, hlt, hres⟩ :=
      ih (board.tail ++ [garbageLine (g.next 10).1]) (g.next 10).2 (by simp; omega)
    refine ⟨(g.next 10).1 :: holes, by simp [hlen], ?_, ?_⟩
    · intro h hh
      simp only [List.mem_cons] at hh
      rcases hh with hh | hh
      · rw [hh]
        exact Nat.mod_lt _ (by decide)
      · exact hlt h hh
    · have hstep : addGarbage (n + 1) board g =
          addGarbage n (board.tail ++ [garbageLine (g.next 10).1]) (g.next 10).2 := rfl
      rw [hstep, hres, List.drop_append_of_le_length (by simp; omega), ← List.drop_one,
        List.drop_drop]
      simp [Nat.add_comm]

/-! ## The parts of handleGameMove -/

theorem sendGarbageLines_eq (heap : Heap) (g : Rng) (room : GameRoom) (sender : Ref)
    (lines : Nat) :
    sendGarbageLines heap g room sender lines =
      (room.players.filter (fun m => decide ((heap m.2).id ≠ (heap sender).id))).foldl
        (garbageStep lines) (heap, g) := rfl

theorem handleGameMove_eq (fuel : Nat) (heap : Heap) (g : Rng) (room : GameRoom) (player : Ref)
    (move : Move) (gs0 : GameState) (hgs : (heap player).gameState = some gs0) :
    handleGameMove fuel heap g room player move =
      match applyAction fuel gs0 move with
      | .error e => .error e
      | .ok gs1 => afterAction heap g room player gs1 := by
  simp only [handleGameMove, hgs, applyAction, afterAction]

theorem garbageStep_other (lines : Nat) (acc : Heap × Rng) (m : SocketId × Ref) (r : Ref)
    (hr : r ≠ m.2) : (garbageStep lines acc m).1 r = acc.1 r := by
  unfold garbageStep
  cases (acc.1 m.2).gameState with
  | none => rfl
  | some gs =>
    by_cases ha : gs.isAlive = true
    · simp [ha, setObj, hr]
    · simp [ha]

theorem garbageStep_dead (lines : Nat) (acc : Heap × Rng) (m : SocketId × Ref)
    (hdead : (acc.1 m.2).alive = false) : garbageStep lines acc m = acc := by
  unfold garbageStep
  unfold Player.alive at hdead
  cases hgs : (acc.1 m.2).gameState with
  | none => rfl
  | some gs =>
    rw [hgs] at hdead
    simp only at hdead
    simp [hdead]

theorem garbageStep_alive (lines : Nat) (acc : Heap × Rng) (m : SocketId × Ref)
    (gs : GameState) (hgs : (acc.1 m.2).gameState = some gs) (halive : gs.isAlive = true) :
    (garbageStep lines acc m).1 m.2 =
      { acc.1 m.2 with
        gameState := some { gs with board := (addGarbage lines gs.board acc.2).1 } } := by
  unfold garbageStep
  simp [hgs, halive, setObj]

theorem garbageStep_isSome (lines : Nat) (acc : Heap × Rng) (m : SocketId × Ref) (r : Ref) :
    (((garbageStep lines acc m).1 r).gameState).isSome = ((acc.1 r).gameState).isSome := by
  by_cases hr : r = m.2
  · unfold garbageStep
    cases hgs : (acc.1 m.2).gameState with
    | none => rfl
    | some gs =>
      by_cases ha : gs.isAlive = true
      · simp [ha, setObj, hr, hgs]
      · simp [ha]
  · rw [garbageStep_other lines acc m r hr]

theorem garbage_fold_isSome (lines : Nat) (l : List (SocketId × Ref)) :
    ∀ (acc : Heap × Rng) (r : Ref),
      (((l.foldl (garbageStep lines) acc).1 r).gameState).isSome =
        ((acc.1 r).gameState).isSome := by
  induction l with
  | nil =>
    intro acc r
    rfl
  | cons m rest ih =>
    intro acc r
    rw [List.foldl_cons, ih, garbageStep_isSome]

theorem garbage_fold_spec (lines : Nat) (l : List (SocketId × Ref)) :
    ∀ (acc : Heap × Rng), (l.map Prod.snd).Nodup → ∀ r : Ref,
      (r ∉ l.map Prod.snd → (l.foldl (garbageStep lines) acc).1 r = acc.1 r) ∧
      ((acc.1 r).alive = false → (l.foldl (garbageStep lines) acc).1 r = acc.1 r) ∧
      (r ∈ l.map Prod.snd → ∀ gs, (acc.1 r).gameState = some gs → gs.isAlive = true →
        ∃ gr : Rng, (l.foldl (garbageStep lines) acc).1 r =
          { acc.1 r with
            gameState := some { gs with board := (addGarbage lines gs.board gr).1 } }) := by
  induction l with
  | nil =>
    intro acc _ r
    simp
  | cons m rest ih =>
    intro acc hnd r
    rw [List.map_cons, List.nodup_cons] at hnd
    obtain ⟨hm, hrest⟩ := hnd
    obtain ⟨i1, i2, i3⟩ := ih (garbageStep lines acc m) hrest r
    rw [List.foldl_cons]
    by_cases hr : r = m.2
    · have hnot : r ∉ rest.map Prod.snd := by
        rw [hr]
        exact hm
      rw [i1 hnot]
      refine ⟨?_, ?_, ?_⟩
      · intro h
        simp [hr] at h
      · intro hdead
        rw [hr] at hdead
        rw [garbageStep_dead lines acc m hdead]
      · intro _ gs hgs halive
        rw [hr] at hgs
        rw [hr]
        exact ⟨acc.2, garbageStep_alive lines acc m gs hgs halive⟩
    · have hsame := garbageStep_other lines acc m r hr
      rw [hsame] at i1 i2 i3
      refine ⟨?_, i2, ?_⟩
      · intro h
        simp only [List.map_cons, List.mem_cons, not_or] at h
        exact i1 h.2
      · intro h gs hgs halive
        simp only [List.map_cons, List.mem_cons] at h
        rcases h with h | h
        · exact absurd h hr
        · exact i3 h gs hgs halive

theorem member_refs_nodup (heap : Heap) (members : List (SocketId × Ref))
    (hids : ∀ m ∈ members, (heap m.2).id = m.1) (hkeys : (members.map Prod.fst).Nodup) :
    (members.map Prod.snd).Nodup := by
  refine List.Nodup.map_on ?_ (List.Nodup.of_map _ hkeys)
  intro a ha b hb hab
  have h1 : a.1 = b.1 := by rw [← hids a ha, ← hids b hb, hab]
  exact Prod.ext h1 hab

theorem sendGarbageLines_spec (heap : Heap) (g : Rng) (room : GameRoom) (sender : Ref)
    (lines : Nat) (hrefs : (room.players.map Prod.snd).Nodup) (r : Ref) :
    ((sendGarbageLines heap g room sender lines).1 r).gameState.isSome =
      ((heap r).gameState).isSome ∧
    ((heap r).id = (heap sender).id → (sendGarbageLines heap g room sender lines).1 r = heap r) ∧
    (r ∉ room.players.map Prod.snd →
      (sendGarbageLines heap g room sender lines).1 r = heap r) ∧
    ((heap r).alive = false → (sendGarbageLines heap g room sender lines).1 r = heap r) ∧
    (r ∈ room.players.map Prod.snd → (heap r).id ≠ (heap sender).id →
      ∀ gs, (heap r).gameState = some gs → gs.isAlive = true →
        ∃ gr : Rng, (sendGarbageLines heap g room sender lines).1 r =
          { heap r with
            gameState := some { gs with board := (addGarbage lines gs.board gr).1 } }) := by
  rw [sendGarbageLines_eq]
  have hsub : ((room.players.filter
      (fun m => decide ((heap m.2).id ≠ (heap sender).id))).map Prod.snd).Nodup :=
    (List.Nodup.sublist ((List.filter_sublist _).map Prod.snd) hrefs)
  obtain ⟨f1, f2, f3⟩ := garbage_fold_spec lines _ (heap, g) hsub r
  have hmem : r ∈ (room.players.filter
      (fun m => decide ((heap m.2).id ≠ (heap sender).id))).map Prod.snd ↔
      r ∈ room.players.map Prod.snd ∧ (heap r).id ≠ (heap sender).id := by
    simp only [List.mem_map, List.mem_filter, decide_eq_true_eq]
    constructor
    · rintro ⟨m, ⟨hm, hne⟩, rfl⟩
      exact ⟨⟨m, hm, rfl⟩, hne⟩
    · rintro ⟨⟨m, hm, rfl⟩, hne⟩
      exact ⟨m, ⟨hm, hne⟩, rfl⟩
  refine ⟨garbage_fold_isSome lines _ (heap, g) r, ?_, ?_, f2, ?_⟩
  · intro hid
    apply f1
    rw [hmem]
    intro h
    exact h.2 hid
  · intro hnot
    apply f1
    rw [hmem]
    intro h
    exact hnot h.1
  · intro hin hne gs hgs halive
    exact f3 (hmem.2 ⟨hin, hne⟩) gs hgs halive

theorem updateStats_gameState (winnerId : Option SocketId) (members : List (SocketId × Ref)) :
    ∀ (heap : Heap) (r : Ref),
      (updateStats winnerId members heap r).gameState = (heap r).gameState := by
  induction members with
  | nil =>
    intro heap r
    rfl
  | cons m rest ih =>
    intro heap r
    have hstep : updateStats winnerId (m :: rest) heap =
        updateStats winnerId rest (updateStat winnerId heap m) := by
      simp [updateStats, List.foldl_cons]
    rw [hstep, ih, (updateStat_spec winnerId heap m r).2.1]

theorem handleGameOver_states (heap : Heap) (room : GameRoom) (player : Ref) (gs : GameState)
    (hgs : (heap player).gameState = some gs)
    (hstates : ∀ m ∈ room.players, ((heap m.2).gameState).isSome = true) :
    ∃ heap2 room2 emits, handleGameOver heap room player = .ok (heap2, room2, emits) ∧
      ∀ r, (heap2 r).gameState =
        (setObj heap player { heap player with
          gameState := some { gs with isAlive := false, gameOver := true } } r).gameState := by
  obtain ⟨heap1, hheap1⟩ : ∃ heap1 : Heap, heap1 = setObj heap player
      { heap player with gameState := some { gs with isAlive := false, gameOver := true } } :=
    ⟨_, rfl⟩
  have hany : room.players.any (fun m => ((heap1 m.2).gameState).isNone) = false := by
    rw [List.any_eq_false]
    intro m hm
    rw [hheap1]
    by_cases hr : m.2 = player
    · simp [setObj, hr]
    · have := hstates m hm
      simp only [setObj, hr, if_false]
      cases hg : (heap m.2).gameState with
      | none => simp [hg] at this
      | some s => simp
  have hrun : ∃ w, handleGameOver heap room player =
      if (room.players.filter (fun m => (heap1 m.2).alive)).length ≤ 1 then
        .ok (updateStats w room.players heap1, { room with gameState := RoomStatus.finished },
          [Emit.gameOver room.id w])
      else .ok (heap1, room, []) := by
    refine ⟨(if (room.players.filter (fun m => (heap1 m.2).alive)).length = 1 then
        (room.players.filter (fun m => (heap1 m.2).alive)).head?.map Prod.snd
      else none).map (fun w => (heap1 w).id), ?_⟩
    simp only [handleGameOver, hgs]
    rw [← hheap1, hany]
    simp only [Bool.false_eq_true, if_false]
  obtain ⟨w, hrun⟩ := hrun
  rw [← hheap1, hrun]
  split
  · exact ⟨_, _, _, rfl, fun r => updateStats_gameState _ _ _ r⟩
  · exact ⟨_, _, _, rfl, fun r => rfl⟩

theorem awardPowerUp_fields (gs : GameState) (g : Rng) :
    (awardPowerUp gs g).1.board = gs.board ∧ (awardPowerUp gs g).1.lines = gs.lines ∧
    (awardPowerUp gs g).1.score = gs.score ∧ (awardPowerUp gs g).1.level = gs.level ∧
    (awardPowerUp gs g).1.currentPiece = gs.currentPiece ∧
    (awardPowerUp gs g).1.nextPiece = gs.nextPiece := by
  simp only [awardPowerUp]
  split <;> exact ⟨rfl, rfl, rfl, rfl, rfl, rfl⟩

theorem isValidPosition_ok (gs : GameState) (hrows : gs.board.length = 20) :
    ∃ b, isValidPosition gs = .ok b ∧ isGameOver gs = .ok (!b) := by
  refine ⟨_, isValidMove_ok gs _ _ _ hrows, ?_⟩
  simp only [isGameOver, isValidMove_ok gs _ _ _ hrows]
  rfl

theorem afterAction_spec (heap : Heap) (g : Rng) (room : GameRoom) (player : Ref)
    (gs1 : GameState) (hrows : gs1.board.length = 20)
    (hstates : ∀ m ∈ room.players, ((heap m.2).gameState).isSome = true) :
    ∃ heap2 g2 room2 emits gs2,
      afterAction heap g room player gs1 = .ok (heap2, g2, room2, emits) ∧
      (heap2 player).gameState = some gs2 ∧
      gs2.board = (checkLineClears gs1.board).1 ∧
      gs2.lines = gs1.lines + (checkLineClears gs1.board).2 ∧
      gs2.level = gs1.level ∧
      gs2.score = (if (checkLineClears gs1.board).2 > 0 then
          gs1.score.add (calculateScore (checkLineClears gs1.board).2 gs1.level)
        else gs1.score) ∧
      ∀ r, r ≠ player → (heap2 r).gameState =
        ((if (checkLineClears gs1.board).2 > 0 ∧ room.gameMode = "battle" ∧
              (checkLineClears gs1.board).2 > 1 then
            sendGarbageLines heap g room player ((checkLineClears gs1.board).2 - 1)
          else (heap, g)).1 r).gameState := by
  have hcl_len : (checkLineClears gs1.board).1.length = 20 := by
    rw [checkLineClears_length, hrows]
  obtain ⟨c, hc⟩ : ∃ c, c = (checkLineClears gs1.board).2 := ⟨_, rfl⟩
  rw [← hc]
  obtain ⟨gs3, hgs3⟩ : ∃ gs3 : GameState, gs3 =
      if c > 0 then
        { gs1 with
          board := (checkLineClears gs1.board).1
          lines := gs1.lines + c
          score := gs1.score.add (calculateScore c gs1.level) }
      else { gs1 with board := (checkLineClears gs1.board).1 } := ⟨_, rfl⟩
  obtain ⟨hg, hhg⟩ : ∃ hg : Heap × Rng, hg =
      if c > 0 ∧ room.gameMode = "battle" ∧ c > 1 then
        sendGarbageLines heap g room player (c - 1)
      else (heap, g) := ⟨_, rfl⟩
  rw [← hhg]
  obtain ⟨ag, hag⟩ : ∃ ag : GameState × Rng, ag =
      if c > 0 ∧ c ≥ 2 then awardPowerUp gs3 hg.2 else (gs3, hg.2) := ⟨_, rfl⟩
  have hgs3f : gs3.board = (checkLineClears gs1.board).1 ∧ gs3.lines = gs1.lines + c ∧
      gs3.level = gs1.level ∧
      gs3.score = (if c > 0 then gs1.score.add (calculateScore c gs1.level) else gs1.score) := by
    rw [hgs3]
    by_cases h0 : c > 0
    · simp [h0]
    · have : c = 0 := by omega
      simp [this]
  have hagf : ag.1.board = gs3.board ∧ ag.1.lines = gs3.lines ∧ ag.1.level = gs3.level ∧
      ag.1.score = gs3.score := by
    rw [hag]
    obtain ⟨a1, a2, a3, a4, _, _⟩ := awardPowerUp_fields gs3 hg.2
    split
    · exact ⟨a1, a2, a4, a3⟩
    · exact ⟨rfl, rfl, rfl, rfl⟩
  obtain ⟨needed, hneeded⟩ : ∃ needed,
      (if ag.1.currentPiece.y ≥ 20 then (Except.ok true : Except Fault Bool)
        else (isValidPosition ag.1).map (fun b => !b)) = .ok needed := by
    split
    · exact ⟨_, rfl⟩
    · obtain ⟨b, hb, _⟩ := isValidPosition_ok ag.1 (by rw [hagf.1, hgs3f.1, hcl_len])
      rw [hb]
      exact ⟨_, rfl⟩
  obtain ⟨sp, hsp⟩ : ∃ sp : GameState × Rng, sp =
      if needed = true then spawnNewPiece ag.1 ag.2 else ag := ⟨_, rfl⟩
  have hspf : sp.1.board = ag.1.board ∧ sp.1.lines = ag.1.lines ∧ sp.1.level = ag.1.level ∧
      sp.1.score = ag.1.score := by
    rw [hsp]
    split
    · exact ⟨rfl, rfl, rfl, rfl⟩
    · exact ⟨rfl, rfl, rfl, rfl⟩
  obtain ⟨valid, _, hover⟩ := isValidPosition_ok sp.1
    (by rw [hspf.1, hagf.1, hgs3f.1, hcl_len])
  have hrun : afterAction heap g room player gs1 =
      match (Except.ok (!valid) : Except Fault Bool) with
      | .error e => .error e
      | .ok false =>
        .ok (setObj hg.1 player { hg.1 player with gameState := some sp.1 }, sp.2, room,
          [Emit.gameUpdate room.id (heap player).id])
      | .ok true =>
        match handleGameOver
            (setObj hg.1 player { hg.1 player with
              gameState := some { sp.1 with gameOver := true, isAlive := false } })
            room player with
        | .error e => .error e
        | .ok r => .ok (r.1, sp.2, r.2.1, r.2.2 ++ [Emit.gameUpdate room.id (heap player).id]) := by
    rw [← hover]
    subst hsp
    unfold afterAction
    simp only []
    rw [← hc, ← hgs3, ← hhg, ← hag, hneeded]
  have hfields : sp.1.board = (checkLineClears gs1.board).1 ∧ sp.1.lines = gs1.lines + c ∧
      sp.1.level = gs1.level ∧
      sp.1.score = (if c > 0 then gs1.score.add (calculateScore c gs1.level) else gs1.score) :=
    ⟨by rw [hspf.1, hagf.1, hgs3f.1], by rw [hspf.2.1, hagf.2.1, hgs3f.2.1],
      by rw [hspf.2.2.1, hagf.2.2.1, hgs3f.2.2.1], by rw [hspf.2.2.2, hagf.2.2.2, hgs3f.2.2.2]⟩
  cases valid with
  | true =>
    simp only [Bool.not_true] at hrun
    refine ⟨_, _, _, _, sp.1, hrun, by simp [setObj], hfields.1, hfields.2.1, hfields.2.2.1,
      hfields.2.2.2, ?_⟩
    intro r hr
    simp [setObj, hr]
  | false =>
    simp only [Bool.not_false] at hrun
    have hst : ∀ m ∈ room.players,
        ((setObj hg.1 player { hg.1 player with
          gameState := some { sp.1 with gameOver := true, isAlive := false } } m.2).gameState).isSome
          = true := by
      intro m hm
      by_cases hr : m.2 = player
      · simp [setObj, hr]
      · simp only [setObj, hr, if_false]
        rw [hhg]
        split
        · rw [sendGarbageLines_eq, garbage_fold_isSome]
          exact hstates m hm
        · exact hstates m hm
    obtain ⟨heap2, room2, emits, hover2, hsame⟩ := handleGameOver_states
      (setObj hg.1 player { hg.1 player with
        gameState := some { sp.1 with gameOver := true, isAlive := false } })
      room player { sp.1 with gameOver := true, isAlive := false } (by simp [setObj]) hst
    rw [hover2] at hrun
    simp only at hrun
    refine ⟨_, _, _, _,
      { ({ sp.1 with gameOver := true, isAlive := false } : GameState) with
        isAlive := false, gameOver := true }, hrun, ?_, ?_⟩
    · rw [hsame player]
      simp [setObj]
    · refine ⟨hfields.1, hfields.2.1, hfields.2.2.1, hfields.2.2.2, ?_⟩
      intro r hr
      rw [hsame r]
      simp [setObj, hr]

/-! ## Locking a piece -/

theorem list_set_same {α : Type} (l : List α) (i : Nat) (h : i < l.length) :
    l.set i l[i] = l := by
  apply List.ext_getElem?
  intro j
  rw [List.getElem?_set]
  by_cases hij : i = j
  · subst hij
    simp [h]
  · simp [hij]

theorem rowSet_getElem? (row : List Val) (c : Int) (v : Val) (hc : 0 ≤ c) (j : Nat) :
    ((rowSet row c v)[j]?).getD Val.undef =
      if j = c.toNat then v else (row[j]?).getD Val.undef := by
  have hneg : ¬ c < 0 := by omega
  unfold rowSet
  rw [if_neg hneg]
  by_cases hlt : c.toNat < row.length
  · rw [if_pos hlt, List.getElem?_set]
    by_cases hj : c.toNat = j
    · subst hj
      simp [hlt]
    · have hj' : ¬ j = c.toNat := fun h => hj h.symm
      simp [hj, hj']
  · rw [if_neg hlt]
    by_cases hj : j = c.toNat
    · subst hj
      have e : row.length + (c.toNat - row.length) = c.toNat := by omega
      rw [if_pos rfl, List.getElem?_append]
      simp [e]
    · rw [if_neg hj, List.append_assoc, List.getElem?_append]
      by_cases hjl : j < row.length
      · rw [if_pos hjl]
      · rw [if_neg hjl]
        have hnone : row[j]? = none := List.getElem?_eq_none (by omega)
        rw [hnone, List.getElem?_append]
        by_cases hjk : j - row.length < (List.replicate (c.toNat - row.length) Val.undef).length
        · rw [if_pos hjk, List.getElem?_replicate]
          simp only [List.length_replicate] at hjk
          simp [hjk]
        · rw [if_neg hjk]
          simp only [List.length_replicate] at hjk ⊢
          have : j - row.length - (c.toNat - row.length) ≠ 0 := by omega
          cases hk : j - row.length - (c.toNat - row.length) with
          | zero => exact absurd hk this
          | succ k => simp

theorem rowSet_length (row : List Val) (c : Int) (v : Val) (hc : c < 10)
    (hlen : row.length = 10) : (rowSet row c v).length = 10 := by
  unfold rowSet
  split
  · exact hlen
  · have hlt : c.toNat < row.length := by omega
    rw [if_pos hlt, List.length_set, hlen]

theorem boardWrite_spec (board : Board) (r c : Int) (v : Val) (hr0 : 0 ≤ r)
    (hr : r < board.length) :
    ∃ b, boardWrite board r c v = .ok b ∧ b.length = board.length ∧
      (0 ≤ c → ∀ R C : Int, 0 ≤ R → 0 ≤ C →
        boardAt b R C = if R = r ∧ C = c then v else boardAt board R C) ∧
      (c < 0 → b = board) ∧
      (c < 10 → (∀ row ∈ board, row.length = 10) → ∀ row ∈ b, row.length = 10) := by
  have hneg : ¬ r < 0 := by omega
  have hlt : r.toNat < board.length := by omega
  have hrow : board[r.toNat]? = some (board[r.toNat]) := List.getElem?_eq_getElem hlt
  refine ⟨board.set r.toNat (rowSet board[r.toNat] c v), ?_, by simp, ?_, ?_, ?_⟩
  · simp only [boardWrite, hneg, if_false, hrow]
  · intro hc R C hR hC
    have h1 : ¬ (R < 0 ∨ C < 0) := by omega
    simp only [boardAt, h1, if_false, List.getD_eq_getElem?_getD, List.getElem?_set]
    by_cases hRr : R = r
    · subst hRr
      simp only [hlt, if_true, true_and, Option.getD_some, hrow]
      rw [rowSet_getElem? _ _ _ hc]
      by_cases hCc : C = c
      · subst hCc
        simp
      · have : ¬ C.toNat = c.toNat := by omega
        simp [this, hCc]
    · have : ¬ r.toNat = R.toNat := by omega
      simp [this, hRr]
  · intro hc
    have : rowSet board[r.toNat] c v = board[r.toNat] := by
      unfold rowSet
      rw [if_pos hc]
    rw [this]
    exact list_set_same board r.toNat hlt
  · intro hc hrows row hmem
    rcases List.mem_or_eq_of_mem_set hmem with h | h
    · exact hrows row h
    · rw [h]
      by_cases hc0 : c < 0
      · unfold rowSet
        rw [if_pos hc0]
        exact hrows _ (List.getElem_mem hlt)
      · exact rowSet_length _ _ _ hc (hrows _ (List.getElem_mem hlt))

theorem lockCells_spec (piece : Piece) :
    ∀ (cells : List (Nat × Nat × Val)) (board : Board),
      (∀ c ∈ cells, c.2.2.truthy = true → piece.y + (c.1 : Int) < board.length) →
      ∃ b, lockCells piece cells board = .ok b ∧ b.length = board.length ∧
        (∀ R C : Int, 0 ≤ R → 0 ≤ C →
          ((∃ c ∈ cells, c.2.2.truthy = true ∧ R = piece.y + (c.1 : Int) ∧
              C = piece.x + (c.2.1 : Int)) → boardAt b R C = Val.str piece.color) ∧
          ((¬ ∃ c ∈ cells, c.2.2.truthy = true ∧ R = piece.y + (c.1 : Int) ∧
              C = piece.x + (c.2.1 : Int)) → boardAt b R C = boardAt board R C)) ∧
        ((∀ c ∈ cells, c.2.2.truthy = true → piece.x + (c.2.1 : Int) < 10) →
          (∀ row ∈ board, row.length = 10) → ∀ row ∈ b, row.length = 10) := by
  intro cells
  induction cells with
  | nil =>
    intro board _
    refine ⟨board, rfl, rfl, ?_, fun _ h => h⟩
    intro R C _ _
    simp
  | cons c rest ih =>
    intro board hrows
    obtain ⟨y0, x0, v⟩ := c
    have hrest : ∀ c ∈ rest, c.2.2.truthy = true → piece.y + (c.1 : Int) < board.length :=
      fun c hc => hrows c (List.mem_cons_of_mem _ hc)
    by_cases hv : v.truthy = true
    · by_cases hy : piece.y + (y0 : Int) ≥ 0
      · have hlt := hrows (y0, x0, v) (List.mem_cons_self _ _) hv
        obtain ⟨b1, hw, hlen1, hat1, hneg1, hdim1⟩ := boardWrite_spec board
          (piece.y + (y0 : Int)) (piece.x + (x0 : Int)) (Val.str piece.color) hy hlt
        obtain ⟨b, hb, hlen, hat, hdim⟩ := ih b1 (by rw [hlen1]; exact hrest)
        refine ⟨b, ?_, by rw [hlen, hlen1], ?_, ?_⟩
        · simp only [lockCells, hv, hy, if_true, hw]
          exact hb
        · intro R C hR hC
          obtain ⟨hcov, hnot⟩ := hat R C hR hC
          constructor
          · rintro ⟨c, hc, ht, hcR, hcC⟩
            by_cases hcr : ∃ c ∈ rest, c.2.2.truthy = true ∧ R = piece.y + (c.1 : Int) ∧
                C = piece.x + (c.2.1 : Int)
            · exact hcov hcr
            · rw [hnot hcr]
              simp only [List.mem_cons] at hc
              rcases hc with hc | hc
              · subst hc
                simp only at hcR hcC
                rw [hat1 (by omega) R C hR hC, if_pos ⟨hcR, hcC⟩]
              · exact absurd ⟨c, hc, ht, hcR, hcC⟩ hcr
          · intro hno
            have hcr : ¬ ∃ c ∈ rest, c.2.2.truthy = true ∧ R = piece.y + (c.1 : Int) ∧
                C = piece.x + (c.2.1 : Int) := by
              rintro ⟨c, hc, h⟩
              exact hno ⟨c, List.mem_cons_of_mem _ hc, h⟩
            rw [hnot hcr]
            by_cases hx : piece.x + (x0 : Int) < 0
            · rw [hneg1 hx]
            · rw [hat1 (by omega) R C hR hC, if_neg]
              rintro ⟨h1, h2⟩
              exact hno ⟨(y0, x0, v), List.mem_cons_self _ _, hv, h1, h2⟩
        · intro hcols hten
          exact hdim (fun c hc => hcols c (List.mem_cons_of_mem _ hc))
            (hdim1 (hcols (y0, x0, v) (List.mem_cons_self _ _) hv) hten)
      · obtain ⟨b, hb, hlen, hat, hdim⟩ := ih board hrest
        refine ⟨b, ?_, hlen, ?_, ?_⟩
        · simp only [lockCells, hv, hy, if_true, if_false]
          exact hb
        · intro R C hR hC
          obtain ⟨hcov, hnot⟩ := hat R C hR hC
          constructor
          · rintro ⟨c, hc, ht, hcR, hcC⟩
            simp only [List.mem_cons] at hc
            rcases hc with hc | hc
            · subst hc
              simp only at hcR
              omega
            · exact hcov ⟨c, hc, ht, hcR, hcC⟩
          · intro hno
            apply hnot
            rintro ⟨c, hc, h⟩
            exact hno ⟨c, List.mem_cons_of_mem _ hc, h⟩
        · intro hcols hten
          exact hdim (fun c hc => hcols c (List.mem_cons_of_mem _ hc)) hten
    · obtain ⟨b, hb, hlen, hat, hdim⟩ := ih board hrest
      refine ⟨b, ?_, hlen, ?_, ?_⟩
      · simp only [lockCells, hv, if_false]
        exact hb
      · intro R C hR hC
        obtain ⟨hcov, hnot⟩ := hat R C hR hC
        constructor
        · rintro ⟨c, hc, ht, hcR, hcC⟩
          simp only [List.mem_cons] at hc
          rcases hc with hc | hc
          · subst hc
            exact absurd ht hv
          · exact hcov ⟨c, hc, ht, hcR, hcC⟩
        · intro hno
          apply hnot
          rintro ⟨c, hc, h⟩
          exact hno ⟨c, List.mem_cons_of_mem _ hc, h⟩
      · intro hcols hten
        exact hdim (fun c hc => hcols c (List.mem_cons_of_mem _ hc)) hten

theorem valid_cells_in_grid (gs : GameState) (shape : Shape) (x y : Int)
    (hrows : gs.board.length = 20) (hvalid : isValidMove gs shape x y = .ok true) :
    ∀ c ∈ shapeCells shape, c.2.2.truthy = true →
      0 ≤ x + (c.2.1 : Int) ∧ x + (c.2.1 : Int) < 10 ∧ y + (c.1 : Int) < 20 ∧
      (0 ≤ y + (c.1 : Int) →
        boardAt gs.board (y + (c.1 : Int)) (x + (c.2.1 : Int)) = Val.num 0) := by
  intro c hc ht
  rw [isValidMove_ok gs shape x y hrows] at hvalid
  have hany : (shapeCells shape).any (cellBlocked gs.board x y) = false := by
    cases h : (shapeCells shape).any (cellBlocked gs.board x y) with
    | false => rfl
    | true => simp [h] at hvalid
  rw [List.any_eq_false] at hany
  have hb := hany c hc
  obtain ⟨py, px, v⟩ := c
  rw [cellBlocked_iff] at hb
  simp only at ht ⊢
  refine ⟨?_, ?_, ?_, ?_⟩
  · by_contra h
    exact hb ⟨ht, Or.inl (by omega)⟩
  · by_contra h
    exact hb ⟨ht, Or.inr (Or.inl (by omega))⟩
  · by_contra h
    exact hb ⟨ht, Or.inr (Or.inr (Or.inl (by omega)))⟩
  · intro h0
    by_contra h
    apply hb
    refine ⟨ht, Or.inr (Or.inr (Or.inr ⟨h0, ?_⟩))⟩
    simpa [Val.nonZero] using h

/-- C15 (as stated): the O piece at row 19 of the empty board has occupied cells in
row 20; `lockPiece` writes the two cells of row 19 and then throws a `TypeError` on
`board[20][4]`, so it does not set the cells of the piece's lower row. -/
theorem lockPiece_below_board_throws :
    belowBoardState.board.length = 20 ∧ belowBoardState.currentPiece.y = 19 ∧
    belowBoardState.currentPiece.shape = [[.num 1, .num 1], [.num 1, .num 1]] ∧
    lockPiece belowBoardState = .error .typeError := by
  decide

/-- C15 (amended): for every game state in which no occupied cell of the current
piece lies below the last board row, `lockPiece` returns and changes nothing but the
board, which keeps its number of rows: at every position with row and column `>= 0`
the new board holds the piece's colour if the position is `(piece.y + r, piece.x + c)`
for an occupied shape cell `(r, c)`, and the old cell otherwise; nothing is written
for occupied cells with `piece.y + r < 0`, which lie at no such position.  When the
piece's position is legal on a board of 20 rows, no occupied cell lies below the
board, every occupied cell with `piece.y + r >= 0` lies inside the 20x10 grid, and a
20x10 board stays 20x10. -/
theorem lockPiece_writes_occupied_cells (gameState : GameState) :
    ((∀ (r c : Nat) (row : List Val) (v : Val),
        gameState.currentPiece.shape[r]? = some row → row[c]? = some v → v.truthy = true →
        gameState.currentPiece.y + (r : Int) < gameState.board.length) →
      ∃ gs, lockPiece gameState = .ok gs ∧ gs = { gameState with board := gs.board } ∧
        gs.board.length = gameState.board.length ∧
        ∀ R C : Int, 0 ≤ R → 0 ≤ C →
          ((∃ (r c : Nat) (row : List Val) (v : Val),
              gameState.currentPiece.shape[r]? = some row ∧ row[c]? = some v ∧
              v.truthy = true ∧ R = gameState.currentPiece.y + (r : Int) ∧
              C = gameState.currentPiece.x + (c : Int)) →
            boardAt gs.board R C = Val.str gameState.currentPiece.color) ∧
          ((¬ ∃ (r c : Nat) (row : List Val) (v : Val),
              gameState.currentPiece.shape[r]? = some row ∧ row[c]? = some v ∧
              v.truthy = true ∧ R = gameState.currentPiece.y + (r : Int) ∧
              C = gameState.currentPiece.x + (c : Int)) →
            boardAt gs.board R C = boardAt gameState.board R C)) ∧
    (isValidPosition gameState = .ok true → gameState.board.length = 20 →
      (∀ (r c : Nat) (row : List Val) (v : Val),
        gameState.currentPiece.shape[r]? = some row → row[c]? = some v → v.truthy = true →
        gameState.currentPiece.y + (r : Int) < 20 ∧
        0 ≤ gameState.currentPiece.x + (c : Int) ∧
        gameState.currentPiece.x + (c : Int) < 10) ∧
      ((∀ row ∈ gameState.board, row.length = 10) →
        ∃ gs, lockPiece gameState = .ok gs ∧ gs.board.length = 20 ∧
          ∀ row ∈ gs.board, row.length = 10)) := by
  constructor
  · intro hbelow
    obtain ⟨b, hb, hlen, hat, _⟩ := lockCells_spec gameState.currentPiece
      (shapeCells gameState.currentPiece.shape) gameState.board
      (by
        rintro ⟨r, c, v⟩ hc ht
        rw [mem_shapeCells] at hc
        obtain ⟨row, hrow, hv⟩ := hc
        exact hbelow r c row v hrow hv ht)
    refine ⟨{ gameState with board := b }, ?_, rfl, hlen, ?_⟩
    · simp only [lockPiece, hb]
    · intro R C hR hC
      obtain ⟨hcov, hnot⟩ := hat R C hR hC
      constructor
      · rintro ⟨r, c, row, v, hrow, hv, ht, h1, h2⟩
        exact hcov ⟨(r, c, v), (mem_shapeCells _ r c v).2 ⟨row, hrow, hv⟩, ht, h1, h2⟩
      · intro hno
        apply hnot
        rintro ⟨⟨r, c, v⟩, hc, ht, h1, h2⟩
        rw [mem_shapeCells] at hc
        obtain ⟨row, hrow, hv⟩ := hc
        exact hno ⟨r, c, row, v, hrow, hv, ht, h1, h2⟩
  · intro hvalid hrows
    have hgrid := valid_cells_in_grid gameState gameState.currentPiece.shape
      gameState.currentPiece.x gameState.currentPiece.y hrows hvalid
    constructor
    · intro r c row v hrow hv ht
      obtain ⟨h1, h2, h3, _⟩ := hgrid (r, c, v) ((mem_shapeCells _ r c v).2 ⟨row, hrow, hv⟩) ht
      exact ⟨h3, h1, h2⟩
    · intro hten
      obtain ⟨b, hb, hlen, _, hdim⟩ := lockCells_spec gameState.currentPiece
        (shapeCells gameState.currentPiece.shape) gameState.board
        (by
          intro c hc ht
          rw [hrows]
          exact (hgrid c hc ht).2.2.1)
      refine ⟨{ gameState with board := b }, ?_, by rw [← hrows]; exact hlen, ?_⟩
      · simp only [lockPiece, hb]
      · exact hdim (fun c hc ht => (hgrid c hc ht).2.1) hten

/-- Witness for C15 (amended): the I piece at the top of the board with the gapped
bottom row is at a legal position, so both parts apply. -/
theorem lockPiece_writes_occupied_cells_witness :
    (isValidPosition nineLinesState = .ok true ∧ nineLinesState.board.length = 20 ∧
      ∀ row ∈ nineLinesState.board, row.length = 10) ∧
    (∃ gs, lockPiece nineLinesState = .ok gs ∧ gs = { nineLinesState with board := gs.board } ∧
        gs.board.length = nineLinesState.board.length ∧
        ∀ R C : Int, 0 ≤ R → 0 ≤ C →
          ((∃ (r c : Nat) (row : List Val) (v : Val),
              nineLinesState.currentPiece.shape[r]? = some row ∧ row[c]? = some v ∧
              v.truthy = true ∧ R = nineLinesState.currentPiece.y + (r : Int) ∧
              C = nineLinesState.currentPiece.x + (c : Int)) →
            boardAt gs.board R C = Val.str nineLinesState.currentPiece.color) ∧
          ((¬ ∃ (r c : Nat) (row : List Val) (v : Val),
              nineLinesState.currentPiece.shape[r]? = some row ∧ row[c]? = some v ∧
              v.truthy = true ∧ R = nineLinesState.currentPiece.y + (r : Int) ∧
              C = nineLinesState.currentPiece.x + (c : Int)) →
            boardAt gs.board R C = boardAt nineLinesState.board R C)) ∧
    (∃ gs, lockPiece nineLinesState = .ok gs ∧ gs.board.length = 20 ∧
      ∀ row ∈ gs.board, row.length = 10) :=
  ⟨⟨by decide, by decide, by decide⟩,
    (lockPiece_writes_occupied_cells nineLinesState).1 (fun r c row v h1 h2 h3 =>
      (((lockPiece_writes_occupied_cells nineLinesState).2 (by decide) (by decide)).1
        r c row v h1 h2 h3).1),
    ((lockPiece_writes_occupied_cells nineLinesState).2 (by decide) (by decide)).2
      (by decide)⟩

/-! ## Hard drop -/

theorem hardDropLoop_spec (gs : GameState) :
    ∀ (n d fuel : Nat),
      (∀ k : Nat, d < k → k ≤ d + n →
        isValidMove gs gs.currentPiece.shape gs.currentPiece.x
          (gs.currentPiece.y + (k : Int)) = .ok true) →
      isValidMove gs gs.currentPiece.shape gs.currentPiece.x
        (gs.currentPiece.y + ((d + n : Nat) : Int) + 1) = .ok false →
      n < fuel → hardDropLoop gs fuel d = .ok (d + n) := by
  intro n
  induction n with
  | zero =>
    intro d fuel _ hblocked hfuel
    cases fuel with
    | zero => omega
    | succ f =>
      simp only [Nat.add_zero] at hblocked
      simp only [hardDropLoop, hblocked, Nat.add_zero]
  | succ n ih =>
    intro d fuel hvalid hblocked hfuel
    cases fuel with
    | zero => omega
    | succ f =>
      have h1 := hvalid (d + 1) (by omega) (by omega)
      have h1' : isValidMove gs gs.currentPiece.shape gs.currentPiece.x
          (gs.currentPiece.y + (d : Int) + 1) = .ok true := by
        rw [← h1]
        congr 1
        push_cast
        ring
      simp only [hardDropLoop, h1']
      have := ih (d + 1) f (fun k hk1 hk2 => hvalid k (by omega) (by omega))
        (by
          have e : d + 1 + n = d + (n + 1) := by omega
          rw [e]
          exact hblocked) (by omega)
      rw [this]
      congr 1
      omega

theorem blocked_far_below (gs : GameState) (hrows : gs.board.length = 20)
    (hcell : ∃ c ∈ shapeCells gs.currentPiece.shape, c.2.2.truthy = true) :
    ∃ n : Nat, isValidMove gs gs.currentPiece.shape gs.currentPiece.x
      (gs.currentPiece.y + (n : Int) + 1) = .ok false := by
  obtain ⟨⟨py, px, v⟩, hc, ht⟩ := hcell
  refine ⟨(20 - gs.currentPiece.y).toNat, ?_⟩
  rw [isValidMove_ok gs _ _ _ hrows]
  have hany : (shapeCells gs.currentPiece.shape).any
      (cellBlocked gs.board gs.currentPiece.x
        (gs.currentPiece.y + ((20 - gs.currentPiece.y).toNat : Int) + 1)) = true := by
    rw [List.any_eq_true]
    refine ⟨(py, px, v), hc, ?_⟩
    rw [cellBlocked_iff]
    refine ⟨ht, Or.inr (Or.inr (Or.inl ?_))⟩
    omega
  rw [hany]
  rfl

/-- C14: on a board of 20 rows, for a current piece at a legal position with at
least one occupied cell, there is a distance d such that `hardDrop` returns d
(whenever the loop is given more than d iterations): every offset 1..d below the
start position is legal and offset d + 1 is not, so d is the largest such distance;
the new game state has the piece at y + d with x, shape, type and colour unchanged
and the score increased by `d * 2` (a numeric score s becomes s + 2 * d); it is the
result of `lockPiece` on that state, which returns: the board keeps its 20 rows and
holds the piece's colour exactly at the positions of its occupied cells with row
`>= 0`, all other cells being unchanged. -/
theorem hardDrop_spec (gameState : GameState) (hrows : gameState.board.length = 20)
    (hvalid : isValidPosition gameState = .ok true)
    (hcell : ∃ (r c : Nat) (row : List Val) (v : Val),
      gameState.currentPiece.shape[r]? = some row ∧ row[c]? = some v ∧ v.truthy = true) :
    ∃ (d : Nat) (gs : GameState),
      (∀ fuel, d < fuel → hardDrop fuel gameState = .ok (gs, d)) ∧
      (∀ k : Nat, 1 ≤ k → k ≤ d →
        isValidMove gameState gameState.currentPiece.shape gameState.currentPiece.x
          (gameState.currentPiece.y + (k : Int)) = .ok true) ∧
      isValidMove gameState gameState.currentPiece.shape gameState.currentPiece.x
        (gameState.currentPiece.y + (d : Int) + 1) = .ok false ∧
      (∀ d1 : Nat, (∀ k : Nat, 1 ≤ k → k ≤ d1 →
          isValidMove gameState gameState.currentPiece.shape gameState.currentPiece.x
            (gameState.currentPiece.y + (k : Int)) = .ok true) → d1 ≤ d) ∧
      gs.currentPiece =
        { gameState.currentPiece with y := gameState.currentPiece.y + (d : Int) } ∧
      gs.score = gameState.score.add (.val (d * 2)) ∧
      (∀ s, gameState.score = .val s → gs.score = .val (s + 2 * d)) ∧
      lockPiece { gameState with
          currentPiece :=
            { gameState.currentPiece with y := gameState.currentPiece.y + (d : Int) }
          score := gameState.score.add (.val (d * 2)) } = .ok gs ∧
      gs.board.length = 20 ∧
      ∀ R C : Int, 0 ≤ R → 0 ≤ C →
        ((∃ (r c : Nat) (row : List Val) (v : Val),
            gameState.currentPiece.shape[r]? = some row ∧ row[c]? = some v ∧
            v.truthy = true ∧ R = gameState.currentPiece.y + (d : Int) + (r : Int) ∧
            C = gameState.currentPiece.x + (c : Int)) →
          boardAt gs.board R C = Val.str gameState.currentPiece.color) ∧
        ((¬ ∃ (r c : Nat) (row : List Val) (v : Val),
            gameState.currentPiece.shape[r]? = some row ∧ row[c]? = some v ∧
            v.truthy = true ∧ R = gameState.currentPiece.y + (d : Int) + (r : Int) ∧
            C = gameState.currentPiece.x + (c : Int)) →
          boardAt gs.board R C = boardAt gameState.board R C) := by
  have hcell1 : ∃ c ∈ shapeCells gameState.currentPiece.shape, c.2.2.truthy = true := by
    obtain ⟨r, c, row, v, hrow, hv, ht⟩ := hcell
    exact ⟨(r, c, v), (mem_shapeCells _ r c v).2 ⟨row, hrow, hv⟩, ht⟩
  have hex := blocked_far_below gameState hrows hcell1
  have hcases : ∀ y : Int,
      isValidMove gameState gameState.currentPiece.shape gameState.currentPiece.x y = .ok true ∨
      isValidMove gameState gameState.currentPiece.shape gameState.currentPiece.x y =
        .ok false := by
    intro y
    rw [isValidMove_ok gameState _ _ _ hrows]
    cases (shapeCells gameState.currentPiece.shape).any
      (cellBlocked gameState.board gameState.currentPiece.x y) <;> simp
  have hd := Nat.find_spec hex
  have hmin : ∀ m, m < Nat.find hex →
      isValidMove gameState gameState.currentPiece.shape gameState.currentPiece.x
        (gameState.currentPiece.y + (m : Int) + 1) = .ok true := by
    intro m hm
    rcases hcases (gameState.currentPiece.y + (m : Int) + 1) with h | h
    · exact h
    · exact absurd h (Nat.find_min hex hm)
  obtain ⟨d, hdef⟩ : ∃ d, d = Nat.find hex := ⟨_, rfl⟩
  rw [← hdef] at hd hmin
  have hvalidk : ∀ k : Nat, 1 ≤ k → k ≤ d →
      isValidMove gameState gameState.currentPiece.shape gameState.currentPiece.x
        (gameState.currentPiece.y + (k : Int)) = .ok true := by
    intro k hk1 hk2
    have := hmin (k - 1) (by omega)
    rw [← this]
    congr 1
    omega
  have hloop : ∀ fuel, d < fuel → hardDropLoop gameState fuel 0 = .ok d := by
    intro fuel hfuel
    have := hardDropLoop_spec gameState d 0 fuel
      (fun k hk1 hk2 => hvalidk k (by omega) (by omega))
      (by simpa using hd) hfuel
    simpa using this
  have hfinal : isValidMove gameState gameState.currentPiece.shape gameState.currentPiece.x
      (gameState.currentPiece.y + (d : Int)) = .ok true := by
    by_cases h0 : d = 0
    · subst h0
      simpa [isValidPosition] using hvalid
    · exact hvalidk d (by omega) (le_refl d)
  have hgrid := valid_cells_in_grid gameState gameState.currentPiece.shape
    gameState.currentPiece.x (gameState.currentPiece.y + (d : Int)) hrows hfinal
  obtain ⟨b, hb, hlen, hat, _⟩ := lockCells_spec
    { gameState.currentPiece with y := gameState.currentPiece.y + (d : Int) }
    (shapeCells gameState.currentPiece.shape) gameState.board
    (by
      intro c hc ht
      rw [hrows]
      exact (hgrid c hc ht).2.2.1)
  have hlock : lockPiece { gameState with
      currentPiece :=
        { gameState.currentPiece with y := gameState.currentPiece.y + (d : Int) }
      score := gameState.score.add (.val (d * 2)) } =
      .ok { gameState with
        currentPiece :=
          { gameState.currentPiece with y := gameState.currentPiece.y + (d : Int) }
        score := gameState.score.add (.val (d * 2))
        board := b } := by
    simp only [lockPiece, hb]
  refine ⟨d, _, ?_, hvalidk, hd, ?_, rfl, rfl, ?_, hlock, by rw [← hrows]; exact hlen, ?_⟩
  · intro fuel hfuel
    simp only [hardDrop, hloop fuel hfuel, hlock]
  · intro d1 hd1
    by_contra hgt
    have := hd1 (d + 1) (by omega) (by omega)
    have e : gameState.currentPiece.y + ((d + 1 : Nat) : Int) =
        gameState.currentPiece.y + (d : Int) + 1 := by
      push_cast
      ring
    rw [e, hd] at this
    cases this
  · intro s hs
    simp [hs, Num.add, Nat.mul_comm]
  · intro R C hR hC
    obtain ⟨hcov, hnot⟩ := hat R C hR hC
    constructor
    · rintro ⟨r, c, row, v, hrow, hv, ht, h1, h2⟩
      exact hcov ⟨(r, c, v), (mem_shapeCells _ r c v).2 ⟨row, hrow, hv⟩, ht, h1, h2⟩
    · intro hno
      apply hnot
      rintro ⟨⟨r, c, v⟩, hc, ht, h1, h2⟩
      rw [mem_shapeCells] at hc
      obtain ⟨row, hrow, hv⟩ := hc
      exact hno ⟨r, c, row, v, hrow, hv, ht, h1, h2⟩

/-- Witness for C14: the I piece at the top of the board with the gapped bottom row
drops 19 rows into the gap. -/
theorem hardDrop_spec_witness :
    (nineLinesState.board.length = 20 ∧ isValidPosition nineLinesState = .ok true ∧
      (∃ (r c : Nat) (row : List Val) (v : Val),
        nineLinesState.currentPiece.shape[r]? = some row ∧ row[c]? = some v ∧
        v.truthy = true) ∧
      (hardDrop 30 nineLinesState).map Prod.snd = .ok 19) ∧
    ∃ (d : Nat) (gs : GameState),
      (∀ fuel, d < fuel → hardDrop fuel nineLinesState = .ok (gs, d)) ∧
      (∀ k : Nat, 1 ≤ k → k ≤ d →
        isValidMove nineLinesState nineLinesState.currentPiece.shape nineLinesState.currentPiece.x
          (nineLinesState.currentPiece.y + (k : Int)) = .ok true) ∧
      isValidMove nineLinesState nineLinesState.currentPiece.shape nineLinesState.currentPiece.x
        (nineLinesState.currentPiece.y + (d : Int) + 1) = .ok false ∧
      (∀ d1 : Nat, (∀ k : Nat, 1 ≤ k → k ≤ d1 →
          isValidMove nineLinesState nineLinesState.currentPiece.shape nineLinesState.currentPiece.x
            (nineLinesState.currentPiece.y + (k : Int)) = .ok true) → d1 ≤ d) ∧
      gs.currentPiece =
        { nineLinesState.currentPiece with y := nineLinesState.currentPiece.y + (d : Int) } ∧
      gs.score = nineLinesState.score.add (.val (d * 2)) ∧
      (∀ s, nineLinesState.score = .val s → gs.score = .val (s + 2 * d)) ∧
      lockPiece { nineLinesState with
          currentPiece :=
            { nineLinesState.currentPiece with y := nineLinesState.currentPiece.y + (d : Int) }
          score := nineLinesState.score.add (.val (d * 2)) } = .ok gs ∧
      gs.board.length = 20 ∧
      ∀ R C : Int, 0 ≤ R → 0 ≤ C →
        ((∃ (r c : Nat) (row : List Val) (v : Val),
            nineLinesState.currentPiece.shape[r]? = some row ∧ row[c]? = some v ∧
            v.truthy = true ∧ R = nineLinesState.currentPiece.y + (d : Int) + (r : Int) ∧
            C = nineLinesState.currentPiece.x + (c : Int)) →
          boardAt gs.board R C = Val.str nineLinesState.currentPiece.color) ∧
        ((¬ ∃ (r c : Nat) (row : List Val) (v : Val),
            nineLinesState.currentPiece.shape[r]? = some row ∧ row[c]? = some v ∧
            v.truthy = true ∧ R = nineLinesState.currentPiece.y + (d : Int) + (r : Int) ∧
            C = nineLinesState.currentPiece.x + (c : Int)) →
          boardAt gs.board R C = boardAt nineLinesState.board R C) :=
  ⟨⟨by decide, by decide,
      ⟨0, 0, [.num 1, .num 1, .num 1, .num 1], .num 1, by decide, by decide, by decide⟩,
      by decide⟩,
    hardDrop_spec nineLinesState (by decide) (by decide)
      ⟨0, 0, [.num 1, .num 1, .num 1, .num 1], .num 1, by decide, by decide, by decide⟩⟩

/-! ## Effects of one action -/

theorem lockCells_length (piece : Piece) :
    ∀ (cells : List (Nat × Nat × Val)) (board b : Board),
      lockCells piece cells board = .ok b → b.length = board.length := by
  intro cells
  induction cells with
  | nil =>
    intro board b h
    simp only [lockCells, Except.ok.injEq] at h
    rw [h]
  | cons c rest ih =>
    intro board b h
    obtain ⟨y0, x0, v⟩ := c
    simp only [lockCells] at h
    split at h
    · split at h
      · split at h
        · cases h
        · next b1 hw =>
          rw [ih b1 b h]
          unfold boardWrite at hw
          split at hw
          · cases hw
          · split at hw
            · cases hw
            · simp only [Except.ok.injEq] at hw
              rw [← hw, List.length_set]
      · exact ih board b h
    · exact ih board b h

theorem try_result_board (gs0 gs1 : GameState) (piece : Piece) (score : Num)
    (r : Except Fault Bool)
    (h : (match r with
      | .error e => (Except.error e : Except Fault (GameState × Bool))
      | .ok true => .ok ({ gs0 with currentPiece := piece, score := score }, true)
      | .ok false => .ok (gs0, false)).map Prod.fst = .ok gs1) :
    gs1.board = gs0.board ∧ gs1.lines = gs0.lines ∧ gs1.level = gs0.level := by
  cases r with
  | error e => cases h
  | ok b =>
    cases b with
    | true =>
      simp only [Except.map, Except.ok.injEq] at h
      rw [← h]
      exact ⟨rfl, rfl, rfl⟩
    | false =>
      simp only [Except.map, Except.ok.injEq] at h
      rw [← h]
      exact ⟨rfl, rfl, rfl⟩

theorem applyAction_frame (fuel : Nat) (gs0 gs1 : GameState) (move : Move)
    (h : applyAction fuel gs0 move = .ok gs1) :
    gs1.board.length = gs0.board.length ∧ gs1.lines = gs0.lines ∧ gs1.level = gs0.level := by
  unfold applyAction at h
  split at h
  · obtain ⟨h1, h2, h3⟩ := try_result_board gs0 gs1
      { gs0.currentPiece with
        x := if move.direction = "left" then gs0.currentPiece.x - 1
          else gs0.currentPiece.x + 1 }
      gs0.score _ h
    exact ⟨by rw [h1], h2, h3⟩
  · split at h
    · obtain ⟨h1, h2, h3⟩ := try_result_board gs0 gs1
        { gs0.currentPiece with shape := rotateMatrix gs0.currentPiece.shape }
        gs0.score _ h
      exact ⟨by rw [h1], h2, h3⟩
    · split at h
      · obtain ⟨h1, h2, h3⟩ := try_result_board gs0 gs1
          { gs0.currentPiece with y := gs0.currentPiece.y + 1 }
          (gs0.score.add (.val 1)) _ h
        exact ⟨by rw [h1], h2, h3⟩
      · split at h
        · unfold hardDrop at h
          cases hl : hardDropLoop gs0 fuel 0 with
          | error e =>
            rw [hl] at h
            cases h
          | ok d =>
            rw [hl] at h
            simp only at h
            unfold lockPiece at h
            cases hc : lockCells
                { gs0.currentPiece with y := gs0.currentPiece.y + (d : Int) }
                (shapeCells gs0.currentPiece.shape) gs0.board with
            | error e =>
              simp only [hc] at h
              cases h
            | ok b =>
              simp only [hc, Except.map, Except.ok.injEq] at h
              rw [← h]
              exact ⟨lockCells_length _ _ _ _ hc, rfl, rfl⟩
        · simp only [Except.ok.injEq] at h
          rw [← h]
          exact ⟨rfl, rfl, rfl⟩

theorem handleGameMove_spec (fuel : Nat) (heap : Heap) (g : Rng) (room : GameRoom)
    (player : Ref) (move : Move) (gs0 gs1 : GameState)
    (hgs : (heap player).gameState = some gs0)
    (hact : applyAction fuel gs0 move = .ok gs1)
    (hrows : gs0.board.length = 20)
    (hstates : ∀ m ∈ room.players, ((heap m.2).gameState).isSome = true) :
    ∃ heap2 g2 room2 emits gs2,
      handleGameMove fuel heap g room player move = .ok (heap2, g2, room2, emits) ∧
      (heap2 player).gameState = some gs2 ∧
      gs2.board = (checkLineClears gs1.board).1 ∧
      gs2.lines = gs1.lines + (checkLineClears gs1.board).2 ∧
      gs2.level = gs1.level ∧
      gs2.score = (if (checkLineClears gs1.board).2 > 0 then
          gs1.score.add (calculateScore (checkLineClears gs1.board).2 gs1.level)
        else gs1.score) ∧
      ∀ r, r ≠ player → (heap2 r).gameState =
        ((if (checkLineClears gs1.board).2 > 0 ∧ room.gameMode = "battle" ∧
              (checkLineClears gs1.board).2 > 1 then
            sendGarbageLines heap g room player ((checkLineClears gs1.board).2 - 1)
          else (heap, g)).1 r).gameState := by
  rw [handleGameMove_eq fuel heap g room player move gs0 hgs, hact]
  exact afterAction_spec heap g room player gs1
    (by rw [(applyAction_frame fuel gs0 gs1 move hact).1, hrows]) hstates

/-- C16: `calculateScore(n, level)` is 100, 300, 500 or 800 times the level for n =
1, 2, 3, 4, for every level.  When an action of `handleGameMove` (on a board of 20
rows, in a room whose members have game states) clears n lines, 1 <= n <= 4, the
call returns and the acting player's score is the score after the action itself
plus `calculateScore(n, level)`; in particular clearing 2 lines at level 1 adds
exactly 300 and clearing 4 lines at level 3 adds exactly 2400 to a numeric score,
and clearing no line adds nothing. -/
theorem line_clear_score (fuel : Nat) (heap : Heap) (g : Rng) (room : GameRoom)
    (player : Ref) (move : Move) (gs0 gs1 : GameState)
    (hgs : (heap player).gameState = some gs0)
    (hact : applyAction fuel gs0 move = .ok gs1)
    (hrows : gs0.board.length = 20)
    (hstates : ∀ m ∈ room.players, ((heap m.2).gameState).isSome = true) :
    (∀ level : Nat, calculateScore 1 level = .val (100 * level) ∧
      calculateScore 2 level = .val (300 * level) ∧
      calculateScore 3 level = .val (500 * level) ∧
      calculateScore 4 level = .val (800 * level)) ∧
    ∃ heap2 g2 room2 emits gs2,
      handleGameMove fuel heap g room player move = .ok (heap2, g2, room2, emits) ∧
      (heap2 player).gameState = some gs2 ∧
      ((checkLineClears gs1.board).2 = 0 → gs2.score = gs1.score) ∧
      (1 ≤ (checkLineClears gs1.board).2 → (checkLineClears gs1.board).2 ≤ 4 →
        gs2.score = gs1.score.add (calculateScore (checkLineClears gs1.board).2 gs1.level)) ∧
      ((checkLineClears gs1.board).2 = 2 → gs1.level = 1 →
        ∀ s, gs1.score = .val s → gs2.score = .val (s + 300)) ∧
      ((checkLineClears gs1.board).2 = 4 → gs1.level = 3 →
        ∀ s, gs1.score = .val s → gs2.score = .val (s + 2400)) := by
  refine ⟨fun level => ⟨rfl, rfl, rfl, rfl⟩, ?_⟩
  obtain ⟨heap2, g2, room2, emits, gs2, hrun, hp, _, _, _, hscore, _⟩ :=
    handleGameMove_spec fuel heap g room player move gs0 gs1 hgs hact hrows hstates
  refine ⟨heap2, g2, room2, emits, gs2, hrun, hp, ?_, ?_, ?_, ?_⟩
  · intro h0
    rw [hscore, h0]
    simp
  · intro h1 _
    rw [hscore, if_pos (by omega)]
  · intro h2 hl s hs
    rw [hscore, h2, hl, hs]
    simp [calculateScore, Num.add]
  · intro h4 hl s hs
    rw [hscore, h4, hl, hs]
    simp [calculateScore, Num.add]

/-- Witness for C16: the O piece hard-dropped into the gap of the two bottom rows
at level 1: the drop itself scores 36, and the two cleared lines add 300. -/
theorem line_clear_score_witness :
    ((duelHeap 0).gameState = some twoRowGapState ∧
      applyAction 30 twoRowGapState ⟨"hard_drop", ""⟩ =
        .ok (actionResult 30 twoRowGapState ⟨"hard_drop", ""⟩) ∧
      twoRowGapState.board.length = 20 ∧
      (∀ m ∈ duelRoom.players, ((duelHeap m.2).gameState).isSome = true) ∧
      (actionResult 30 twoRowGapState ⟨"hard_drop", ""⟩).score = .val 36 ∧
      scoreAfter 30 duelHeap ⟨fun _ => 0, 0⟩ duelRoom 0 ⟨"hard_drop", ""⟩ = some (.val 336)) ∧
    ((∀ level : Nat, calculateScore 1 level = .val (100 * level) ∧
      calculateScore 2 level = .val (300 * level) ∧
      calculateScore 3 level = .val (500 * level) ∧
      calculateScore 4 level = .val (800 * level)) ∧
    ∃ heap2 g2 room2 emits gs2,
      handleGameMove 30 duelHeap ⟨fun _ => 0, 0⟩ duelRoom 0 ⟨"hard_drop", ""⟩ =
        .ok (heap2, g2, room2, emits) ∧
      (heap2 0).gameState = some gs2 ∧
      ((checkLineClears (actionResult 30 twoRowGapState ⟨"hard_drop", ""⟩).board).2 = 0 →
        gs2.score = (actionResult 30 twoRowGapState ⟨"hard_drop", ""⟩).score) ∧
      (1 ≤ (checkLineClears (actionResult 30 twoRowGapState ⟨"hard_drop", ""⟩).board).2 →
        (checkLineClears (actionResult 30 twoRowGapState ⟨"hard_drop", ""⟩).board).2 ≤ 4 →
        gs2.score = (actionResult 30 twoRowGapState ⟨"hard_drop", ""⟩).score.add
          (calculateScore
            (checkLineClears (actionResult 30 twoRowGapState ⟨"hard_drop", ""⟩).board).2
            (actionResult 30 twoRowGapState ⟨"hard_drop", ""⟩).level)) ∧
      ((checkLineClears (actionResult 30 twoRowGapState ⟨"hard_drop", ""⟩).board).2 = 2 →
        (actionResult 30 twoRowGapState ⟨"hard_drop", ""⟩).level = 1 →
        ∀ s, (actionResult 30 twoRowGapState ⟨"hard_drop", ""⟩).score = .val s →
          gs2.score = .val (s + 300)) ∧
      ((checkLineClears (actionResult 30 twoRowGapState ⟨"hard_drop", ""⟩).board).2 = 4 →
        (actionResult 30 twoRowGapState ⟨"hard_drop", ""⟩).level = 3 →
        ∀ s, (actionResult 30 twoRowGapState ⟨"hard_drop", ""⟩).score = .val s →
          gs2.score = .val (s + 2400))) :=
  ⟨⟨by decide, by decide, by decide, by decide, by decide, by decide⟩,
    line_clear_score 30 duelHeap ⟨fun _ => 0, 0⟩ duelRoom 0 ⟨"hard_drop", ""⟩ twoRowGapState
      (actionResult 30 twoRowGapState ⟨"hard_drop", ""⟩) (by decide) (by decide) (by decide)
      (by decide)⟩

/-- C12: let an action of player P clear c lines (`handleGameMove` on a board of 20
rows, in a room whose members have game states and are stored under their own,
distinct ids).  The call returns.  P's own board is the board left by the line
clear, without garbage.  For every member with another id than P: if the mode is
battle, c > 1 and the member's game state is alive, its new game state is the old
one with the board replaced by the result of the garbage loop run c - 1 times on
it; if the member is not alive, or the mode is not battle, or c <= 1, its game
state, the board included, is unchanged. -/
theorem garbage_goes_to_alive_opponents (fuel : Nat) (heap : Heap) (g : Rng) (room : GameRoom)
    (player : Ref) (move : Move) (gs0 gs1 : GameState)
    (hgs : (heap player).gameState = some gs0)
    (hact : applyAction fuel gs0 move = .ok gs1)
    (hrows : gs0.board.length = 20)
    (hstates : ∀ m ∈ room.players, ((heap m.2).gameState).isSome = true)
    (hids : ∀ m ∈ room.players, (heap m.2).id = m.1)
    (hkeys : (room.players.map Prod.fst).Nodup) :
    ∃ heap2 g2 room2 emits gs2,
      handleGameMove fuel heap g room player move = .ok (heap2, g2, room2, emits) ∧
      (heap2 player).gameState = some gs2 ∧
      gs2.board = (checkLineClears gs1.board).1 ∧
      ∀ m ∈ room.players, (heap m.2).id ≠ (heap player).id →
        ∀ gsm, (heap m.2).gameState = some gsm →
          (room.gameMode = "battle" → (checkLineClears gs1.board).2 > 1 →
            gsm.isAlive = true →
            ∃ gr : Rng, (heap2 m.2).gameState = some { gsm with
              board := (addGarbage ((checkLineClears gs1.board).2 - 1) gsm.board gr).1 }) ∧
          (gsm.isAlive = false → (heap2 m.2).gameState = some gsm) ∧
          (room.gameMode ≠ "battle" ∨ (checkLineClears gs1.board).2 ≤ 1 →
            (heap2 m.2).gameState = some gsm) := by
  obtain ⟨heap2, g2, room2, emits, gs2, hrun, hp, hboard, _, _, _, hothers⟩ :=
    handleGameMove_spec fuel heap g room player move gs0 gs1 hgs hact hrows hstates
  refine ⟨heap2, g2, room2, emits, gs2, hrun, hp, hboard, ?_⟩
  intro m hm hne gsm hgsm
  have hrefs := member_refs_nodup heap room.players hids hkeys
  have hmp : m.2 ≠ player := by
    intro h
    rw [h] at hne
    exact hne rfl
  have hsame := hothers m.2 hmp
  obtain ⟨_, _, _, s4, s5⟩ := sendGarbageLines_spec heap g room player
    ((checkLineClears gs1.board).2 - 1) hrefs m.2
  refine ⟨?_, ?_, ?_⟩
  · intro hbattle hc halive
    rw [if_pos ⟨by omega, hbattle, hc⟩] at hsame
    obtain ⟨gr, hgr⟩ := s5 (List.mem_map_of_mem _ hm) hne gsm hgsm halive
    exact ⟨gr, by rw [hsame, hgr]⟩
  · intro hdead
    have hd : (heap m.2).alive = false := by
      simp [Player.alive, hgsm, hdead]
    rw [hsame]
    split
    · rw [s4 hd, hgsm]
    · exact hgsm
  · intro hno
    rw [hsame, if_neg, hgsm]
    rintro ⟨_, hb, hc⟩
    rcases hno with h | h
    · exact h hb
    · omega

/-- Witness for C12: in the two-player battle room, a clears two lines with a hard
drop; b's board loses its top row and gains one garbage row at the bottom, a's board
gains none. -/
theorem garbage_goes_to_alive_opponents_witness :
    ((duelHeap 0).gameState = some twoRowGapState ∧
      applyAction 30 twoRowGapState ⟨"hard_drop", ""⟩ =
        .ok (actionResult 30 twoRowGapState ⟨"hard_drop", ""⟩) ∧
      twoRowGapState.board.length = 20 ∧
      (∀ m ∈ duelRoom.players, ((duelHeap m.2).gameState).isSome = true) ∧
      (∀ m ∈ duelRoom.players, (duelHeap m.2).id = m.1) ∧
      (duelRoom.players.map Prod.fst).Nodup ∧
      (checkLineClears (actionResult 30 twoRowGapState ⟨"hard_drop", ""⟩).board).2 = 2 ∧
      boardAfter 30 duelHeap ⟨fun _ => 7, 0⟩ duelRoom 0 ⟨"hard_drop", ""⟩ 1 =
        some (List.replicate 19 emptyRow ++ [garbageLine 7])) ∧
    ∃ heap2 g2 room2 emits gs2,
      handleGameMove 30 duelHeap ⟨fun _ => 7, 0⟩ duelRoom 0 ⟨"hard_drop", ""⟩ =
        .ok (heap2, g2, room2, emits) ∧
      (heap2 0).gameState = some gs2 ∧
      gs2.board = (checkLineClears (actionResult 30 twoRowGapState ⟨"hard_drop", ""⟩).board).1 ∧
      ∀ m ∈ duelRoom.players, (duelHeap m.2).id ≠ (duelHeap 0).id →
        ∀ gsm, (duelHeap m.2).gameState = some gsm →
          (duelRoom.gameMode = "battle" →
            (checkLineClears (actionResult 30 twoRowGapState ⟨"hard_drop", ""⟩).board).2 > 1 →
            gsm.isAlive = true →
            ∃ gr : Rng, (heap2 m.2).gameState = some { gsm with
              board := (addGarbage
                ((checkLineClears (actionResult 30 twoRowGapState ⟨"hard_drop", ""⟩).board).2 - 1)
                gsm.board gr).1 }) ∧
          (gsm.isAlive = false → (heap2 m.2).gameState = some gsm) ∧
          (duelRoom.gameMode ≠ "battle" ∨
              (checkLineClears (actionResult 30 twoRowGapState ⟨"hard_drop", ""⟩).board).2 ≤ 1 →
            (heap2 m.2).gameState = some gsm) :=
  ⟨⟨by decide, by decide, by decide, by decide, by decide, by decide, by decide, by decide⟩,
    garbage_goes_to_alive_opponents 30 duelHeap ⟨fun _ => 7, 0⟩ duelRoom 0 ⟨"hard_drop", ""⟩
      twoRowGapState (actionResult 30 twoRowGapState ⟨"hard_drop", ""⟩) (by decide) (by decide)
      (by decide) (by decide) (by decide) (by decide)⟩

/-! ## Rejected actions -/

theorem checkLineClears_no_full_row (board : Board)
    (hnofull : ∀ row ∈ board, row.all Val.nonZero = false) :
    checkLineClears board = (board, 0) := by
  have hnil : linesToClear board = [] := by
    simp only [linesToClear, List.map_eq_nil_iff, List.filter_eq_nil_iff, List.mem_reverse]
    intro r hr
    have hmem : r.2 ∈ board := by
      have := List.mem_map_of_mem Prod.snd hr
      rwa [List.enum_map_snd] at this
    simp [hnofull r.2 hmem]
  simp [checkLineClears, hnil]

theorem setObj_same_gameState (heap : Heap) (player : Ref) (gs : GameState)
    (hgs : (heap player).gameState = some gs) :
    setObj heap player { heap player with gameState := some gs } = heap := by
  funext r
  by_cases hr : r = player
  · subst hr
    simp only [setObj, if_true]
    rw [← hgs]
  · simp [setObj, hr]

theorem afterAction_noop (heap : Heap) (g : Rng) (room : GameRoom) (player : Ref)
    (gs : GameState) (hgs : (heap player).gameState = some gs)
    (hnofull : ∀ row ∈ gs.board, row.all Val.nonZero = false)
    (hvalid : isValidPosition gs = .ok true) (hy : gs.currentPiece.y < 20) :
    afterAction heap g room player gs =
      .ok (heap, g, room, [Emit.gameUpdate room.id (heap player).id]) := by
  have hcl := checkLineClears_no_full_row gs.board hnofull
  have hover : isGameOver gs = .ok false := by
    unfold isValidPosition at hvalid
    simp only [isGameOver, hvalid]
    rfl
  have hny : ¬ gs.currentPiece.y ≥ 20 := by omega
  have heta : ({ gs with board := gs.board } : GameState) = gs := rfl
  unfold afterAction
  simp only [hcl, heta, gt_iff_lt, Nat.lt_irrefl, false_and, if_false, hny, hvalid, Except.map,
    Bool.not_true, Bool.false_eq_true, hover]
  rw [setObj_same_gameState heap player gs hgs]

/-- C11 (as stated): the T piece of `pushedUpState` overlaps the garbage that was
pushed under it; the move to the left is rejected by `isValidMove` (`movePiece`
returns false and changes nothing), yet `handleGameMove` goes on to its spawn test,
finds the current position invalid and replaces the current piece by the next one:
afterwards the current piece is the I piece and the next piece is a new O piece. -/
theorem rejected_move_replaces_overlapping_piece :
    pushedUpState.board.length = 20 ∧
    isValidMove pushedUpState pushedUpState.currentPiece.shape
      (pushedUpState.currentPiece.x - 1) pushedUpState.currentPiece.y = .ok false ∧
    movePiece pushedUpState "left" = .ok (pushedUpState, false) ∧
    pieceSummary pushedUpState = ("T", 3, 0, "I", 0) ∧
    summaryAfter 30 (soloHeap pushedUpState) ⟨fun _ => 1, 0⟩ soloRoom 0 ⟨"move", "left"⟩ =
      some ("I", 3, 0, "O", 0) := by
  decide

/-- C11 (amended): on a board of 20 rows none of which is full, with a current
piece that has an occupied cell and stands at a legal position, every move, rotate
or drop action whose candidate is rejected by `isValidMove` makes `handleGameMove`
return with the object store, the random source and the room unchanged: the acting
player's game state (board, pieces, score, lines, level, alive flag) and every other
player's game state are the old ones; only `game:update` is broadcast. -/
theorem rejected_action_is_noop (fuel : Nat) (heap : Heap) (g : Rng) (room : GameRoom)
    (player : Ref) (move : Move) (gameState : GameState)
    (hgs : (heap player).gameState = some gameState)
    (hrows : gameState.board.length = 20)
    (hnofull : ∀ row ∈ gameState.board, row.all Val.nonZero = false)
    (hvalid : isValidPosition gameState = .ok true)
    (hcell : ∃ (r c : Nat) (row : List Val) (v : Val),
      gameState.currentPiece.shape[r]? = some row ∧ row[c]? = some v ∧ v.truthy = true)
    (hrejected :
      (move.type = "move" ∧
        isValidMove gameState gameState.currentPiece.shape
          (if move.direction = "left" then gameState.currentPiece.x - 1
            else gameState.currentPiece.x + 1) gameState.currentPiece.y = .ok false) ∨
      (move.type = "rotate" ∧
        isValidMove gameState (rotateMatrix gameState.currentPiece.shape)
          gameState.currentPiece.x gameState.currentPiece.y = .ok false) ∨
      (move.type = "drop" ∧
        isValidMove gameState gameState.currentPiece.shape gameState.currentPiece.x
          (gameState.currentPiece.y + 1) = .ok false)) :
    handleGameMove fuel heap g room player move =
      .ok (heap, g, room, [Emit.gameUpdate room.id (heap player).id]) := by
  have hy : gameState.currentPiece.y < 20 := by
    obtain ⟨r, c, row, v, hrow, hv, ht⟩ := hcell
    have := valid_cells_in_grid gameState gameState.currentPiece.shape
      gameState.currentPiece.x gameState.currentPiece.y hrows hvalid (r, c, v)
      ((mem_shapeCells _ r c v).2 ⟨row, hrow, hv⟩) ht
    simp only at this
    omega
  have hact : applyAction fuel gameState move = .ok gameState := by
    rcases hrejected with ⟨ht, h⟩ | ⟨ht, h⟩ | ⟨ht, h⟩
    · simp only [applyAction, ht, if_true, movePiece, h]
      rfl
    · have h1 : ¬ move.type = "move" := by rw [ht]; decide
      simp only [applyAction, h1, if_false, ht, if_true, rotatePiece, h]
      rfl
    · have h1 : ¬ move.type = "move" := by rw [ht]; decide
      have h2 : ¬ move.type = "rotate" := by rw [ht]; decide
      simp only [applyAction, h1, h2, if_false, ht, if_true, dropPiece, h]
      rfl
  rw [handleGameMove_eq fuel heap g room player move gameState hgs, hact]
  exact afterAction_noop heap g room player gameState hgs hnofull hvalid hy

/-- Witness for C11 (amended): the I piece at the left wall of the board with the
gapped bottom row is asked to move left. -/
theorem rejected_action_is_noop_witness :
    ((soloHeap wallState 0).gameState = some wallState ∧
      wallState.board.length = 20 ∧
      (∀ row ∈ wallState.board, row.all Val.nonZero = false) ∧
      isValidPosition wallState = .ok true ∧
      isValidMove wallState wallState.currentPiece.shape (wallState.currentPiece.x - 1)
        wallState.currentPiece.y = .ok false) ∧
    handleGameMove 30 (soloHeap wallState) ⟨fun _ => 0, 0⟩ soloRoom 0 ⟨"move", "left"⟩ =
      .ok (soloHeap wallState, ⟨fun _ => 0, 0⟩, soloRoom,
        [Emit.gameUpdate soloRoom.id (soloHeap wallState 0).id]) :=
  ⟨⟨by decide, by decide, by decide, by decide, by decide⟩,
    rejected_action_is_noop 30 (soloHeap wallState) ⟨fun _ => 0, 0⟩ soloRoom 0
      ⟨"move", "left"⟩ wallState (by decide) (by decide) (by decide) (by decide)
      ⟨0, 0, [.num 1, .num 1, .num 1, .num 1], .num 1, by decide, by decide, by decide⟩
      (Or.inl ⟨by decide, by decide⟩)⟩

/-! ## Shape of injected garbage -/

theorem handlePowerUp_add_garbage (heap : Heap) (g : Rng) (room : GameRoom) (player : Ref)
    (target : SocketId) (tref : Ref) (pgs tgs : GameState)
    (hp : (heap player).gameState = some pgs)
    (hheld : pgs.powerUps.contains "add_garbage" = true)
    (ht : strTruthy target = true) (hlook : room.players.lookup target = some tref)
    (htgs : (heap tref).gameState = some tgs) :
    ∃ heap2 g2 emits gs2,
      handlePowerUp heap g room player "add_garbage" (some target) = .ok (heap2, g2, emits) ∧
      (heap2 tref).gameState = some gs2 ∧ gs2.board = (addGarbage 3 tgs.board g).1 := by
  have h1 : ¬ ("add_garbage" : String) = "clear_lines" := by decide
  have h2 : ¬ ("add_garbage" : String) = "slow_opponent" := by decide
  by_cases hsame : tref = player
  · subst hsame
    have hrun : handlePowerUp heap g room tref "add_garbage" (some target) =
        .ok (setObj
          (setObj heap tref { heap tref with
            gameState := some { tgs with board := (addGarbage 3 tgs.board g).1 } })
          tref
          { setObj heap tref { heap tref with
              gameState := some { tgs with board := (addGarbage 3 tgs.board g).1 } } tref with
            gameState := some
              { ({ tgs with board := (addGarbage 3 tgs.board g).1 } : GameState) with
                powerUps := tgs.powerUps.filter (fun p => decide (p ≠ "add_garbage")) } },
          (addGarbage 3 tgs.board g).2,
          [Emit.powerupUsed room.id (heap tref).id "add_garbage" (some target)]) := by
      have hpg : pgs = tgs := by
        rw [hp] at htgs
        exact Option.some.inj htgs
      subst hpg
      simp only [handlePowerUp, hp, hheld, Bool.not_true, Bool.false_eq_true, if_false, ht,
        if_true, hlook, h1, h2, modifyGameState, setObj]
    exact ⟨_, _, _,
      { ({ tgs with board := (addGarbage 3 tgs.board g).1 } : GameState) with
        powerUps := tgs.powerUps.filter (fun p => decide (p ≠ "add_garbage")) },
      hrun, by simp [setObj], rfl⟩
  · have hne : ¬ player = tref := fun h => hsame h.symm
    have hrun : handlePowerUp heap g room player "add_garbage" (some target) =
        .ok (setObj
          (setObj heap tref { heap tref with
            gameState := some { tgs with board := (addGarbage 3 tgs.board g).1 } })
          player
          { setObj heap tref { heap tref with
              gameState := some { tgs with board := (addGarbage 3 tgs.board g).1 } } player with
            gameState := some
              { pgs with
                powerUps := pgs.powerUps.filter (fun p => decide (p ≠ "add_garbage")) } },
          (addGarbage 3 tgs.board g).2,
          [Emit.powerupUsed room.id (heap player).id "add_garbage" (some target)]) := by
      simp only [handlePowerUp, hp, hheld, Bool.not_true, Bool.false_eq_true, if_false, ht,
        if_true, hlook, h1, h2, htgs, modifyGameState, setObj, hne]
    exact ⟨_, _, _, { tgs with board := (addGarbage 3 tgs.board g).1 },
      hrun, by simp [setObj, hsame], rfl⟩

/-- C13: for every board of 20 rows, every row count n from 0 to 20 and every
sequence of random draws, the garbage loop run n times (`sendGarbageLines` runs it
with n = lines on the board of each alive opponent, the `add_garbage` power-up with
n = 3 on the target's board) yields a board of 20 rows whose first 20 - n rows are
the input rows n..19 in their order and whose last n rows are garbage rows: each
has 10 cells, exactly one of them empty (the hole, at a column below 10) and the
other 9 holding the tag 'gray'.  `sendGarbageLines` replaces the board of an alive
opponent by the result of that loop run `lines` times, and the `add_garbage`
power-up replaces the board of its target by the result of the loop run 3 times. -/
theorem garbage_injection_shape (board : Board) (n : Nat) (g : Rng)
    (hrows : board.length = 20) (hn : n ≤ 20) :
    (addGarbage n board g).1.length = 20 ∧
    (addGarbage n board g).1.take (20 - n) = board.drop n ∧
    ((addGarbage n board g).1.drop (20 - n)).length = n ∧
    (∀ row ∈ (addGarbage n board g).1.drop (20 - n),
      row.length = 10 ∧ row.count (Val.num 0) = 1 ∧ row.count (Val.str "gray") = 9 ∧
      ∃ h, h < 10 ∧ row = garbageLine h) ∧
    (∀ (heap : Heap) (room : GameRoom) (sender : Ref) (m : SocketId × Ref) (gs : GameState),
      (room.players.map Prod.snd).Nodup → m ∈ room.players →
      (heap m.2).id ≠ (heap sender).id → (heap m.2).gameState = some gs →
      gs.isAlive = true → gs.board = board →
      ∃ gr : Rng, ((sendGarbageLines heap g room sender n).1 m.2).gameState =
        some { gs with board := (addGarbage n board gr).1 }) ∧
    (∀ (heap : Heap) (room : GameRoom) (player : Ref) (target : SocketId) (tref : Ref)
        (pgs tgs : GameState),
      (heap player).gameState = some pgs → pgs.powerUps.contains "add_garbage" = true →
      strTruthy target = true → room.players.lookup target = some tref →
      (heap tref).gameState = some tgs → tgs.board = board →
      ∃ heap2 g2 emits gs2,
        handlePowerUp heap g room player "add_garbage" (some target) = .ok (heap2, g2, emits) ∧
        (heap2 tref).gameState = some gs2 ∧ gs2.board = (addGarbage 3 board g).1) := by
  refine ⟨?_, ?_, ?_, ?_, ?_, ?_⟩
  case refine_5 =>
    intro heap room sender m gs hrefs hm hne hgs halive hboard
    obtain ⟨gr, hgr⟩ := (sendGarbageLines_spec heap g room sender n hrefs m.2).2.2.2.2
      (List.mem_map_of_mem _ hm) hne gs hgs halive
    exact ⟨gr, by rw [hgr, hboard]⟩
  case refine_6 =>
    intro heap room player target tref pgs tgs hp hheld ht hlook htgs hboard
    rw [← hboard]
    exact handlePowerUp_add_garbage heap g room player target tref pgs tgs hp hheld ht hlook htgs
  all_goals obtain ⟨holes, hlen, hlt, hres⟩ := addGarbage_spec n board g (by omega)
  all_goals have hdrop : (board.drop n).length = 20 - n := by simp [hrows]
  all_goals rw [hres]
  · simp [hlen, hrows]
    omega
  · rw [← hdrop, List.take_left']
    rfl
  · rw [← hdrop, List.drop_left']
    · simp [hlen]
    · rfl
  · intro row hrow
    rw [← hdrop, List.drop_left' rfl, List.mem_map] at hrow
    obtain ⟨h, hh, rfl⟩ := hrow
    obtain ⟨h1, h2, h3, _⟩ := garbageLine_shape h (hlt h hh)
    exact ⟨h1, h2, h3, h, hlt h hh, rfl⟩

/-- Witness for C13: three garbage rows pushed under the board with the gapped
bottom row. -/
theorem garbage_injection_shape_witness :
    (nineLinesState.board.length = 20 ∧ 3 ≤ 20) ∧
    ((addGarbage 3 nineLinesState.board ⟨fun k => 4 * k + 1, 0⟩).1.length = 20 ∧
    (addGarbage 3 nineLinesState.board ⟨fun k => 4 * k + 1, 0⟩).1.take (20 - 3) =
      nineLinesState.board.drop 3 ∧
    ((addGarbage 3 nineLinesState.board ⟨fun k => 4 * k + 1, 0⟩).1.drop (20 - 3)).length = 3 ∧
    (∀ row ∈ (addGarbage 3 nineLinesState.board ⟨fun k => 4 * k + 1, 0⟩).1.drop (20 - 3),
      row.length = 10 ∧ row.count (Val.num 0) = 1 ∧ row.count (Val.str "gray") = 9 ∧
      ∃ h, h < 10 ∧ row = garbageLine h) ∧
    (∀ (heap : Heap) (room : GameRoom) (sender : Ref) (m : SocketId × Ref) (gs : GameState),
      (room.players.map Prod.snd).Nodup → m ∈ room.players →
      (heap m.2).id ≠ (heap sender).id → (heap m.2).gameState = some gs →
      gs.isAlive = true → gs.board = nineLinesState.board →
      ∃ gr : Rng,
        ((sendGarbageLines heap ⟨fun k => 4 * k + 1, 0⟩ room sender 3).1 m.2).gameState =
        some { gs with board := (addGarbage 3 nineLinesState.board gr).1 }) ∧
    (∀ (heap : Heap) (room : GameRoom) (player : Ref) (target : SocketId) (tref : Ref)
        (pgs tgs : GameState),
      (heap player).gameState = some pgs → pgs.powerUps.contains "add_garbage" = true →
      strTruthy target = true → room.players.lookup target = some tref →
      (heap tref).gameState = some tgs → tgs.board = nineLinesState.board →
      ∃ heap2 g2 emits gs2,
        handlePowerUp heap ⟨fun k => 4 * k + 1, 0⟩ room player "add_garbage" (some target) =
          .ok (heap2, g2, emits) ∧
        (heap2 tref).gameState = some gs2 ∧
        gs2.board = (addGarbage 3 nineLinesState.board ⟨fun k => 4 * k + 1, 0⟩).1)) :=
  ⟨⟨by decide, by decide⟩,
    garbage_injection_shape nineLinesState.board 3 ⟨fun k => 4 * k + 1, 0⟩ (by decide)
      (by decide)⟩

/-! ## Power-ups -/

theorem handlePowerUp_eq (heap : Heap) (g : Rng) (room : GameRoom) (player : Ref)
    (powerUp : String) (targetPlayerId : Option SocketId) :
    handlePowerUp heap g room player powerUp targetPlayerId =
      match (heap player).gameState with
      | none => .error .typeError
      | some gs =>
        if !gs.powerUps.contains powerUp then .ok (heap, g, [])
        else
          match powerUpEffect heap g player powerUp (powerUpTarget room targetPlayerId) with
          | .error e => .error e
          | .ok hr =>
            match modifyGameState hr.1 player (fun s =>
                { s with powerUps := s.powerUps.filter (fun p => decide (p ≠ powerUp)) }) with
            | .error e => .error e
            | .ok h =>
              .ok (h, hr.2, [Emit.powerupUsed room.id (heap player).id powerUp targetPlayerId]) := by
  rfl

theorem modifyGameState_ok (heap : Heap) (r : Ref) (f : GameState → GameState) (h : Heap)
    (hm : modifyGameState heap r f = .ok h) :
    ∃ gs, (heap r).gameState = some gs ∧
      h = setObj heap r { heap r with gameState := some (f gs) } := by
  unfold modifyGameState at hm
  cases hgs : (heap r).gameState with
  | none =>
    rw [hgs] at hm
    cases hm
  | some gs =>
    rw [hgs] at hm
    simp only [Except.ok.injEq] at hm
    exact ⟨gs, rfl, hm.symm⟩

theorem addGarbage_length (n : Nat) :
    ∀ (board : Board) (g : Rng), 0 < board.length →
      (addGarbage n board g).1.length = board.length := by
  induction n with
  | zero =>
    intro board g _
    rfl
  | succ n ih =>
    intro board g hpos
    have hlen : (board.tail ++ [garbageLine (g.next 10).1]).length = board.length := by
      simp only [List.length_append, List.length_tail, List.length_singleton]
      omega
    show (addGarbage n (board.tail ++ [garbageLine (g.next 10).1]) (g.next 10).2).1.length = _
    rw [ih _ _ (by rw [hlen]; exact hpos), hlen]

theorem powerUpEffect_shape (heap : Heap) (g : Rng) (player : Ref) (powerUp : String)
    (target : Option Ref) (hr : Heap × Rng)
    (h : powerUpEffect heap g player powerUp target = .ok hr) :
    hr.1 = heap ∨ ∃ r gs0 gs1, (heap r).gameState = some gs0 ∧
      hr.1 = setObj heap r { heap r with gameState := some gs1 } ∧
      gs1.powerUps = gs0.powerUps ∧ gs1.currentPiece = gs0.currentPiece ∧
      gs1.nextPiece = gs0.nextPiece ∧ gs1.score = gs0.score ∧ gs1.lines = gs0.lines ∧
      gs1.isAlive = gs0.isAlive ∧ gs1.gameOver = gs0.gameOver ∧
      (gs0.board.length = 20 → gs1.board.length = 20) := by
  unfold powerUpEffect at h
  split at h
  · cases hm : modifyGameState heap player (fun s =>
        { s with board := emptyRow :: emptyRow :: s.board.take (s.board.length - 2) }) with
    | error e =>
      rw [hm] at h
      cases h
    | ok h1 =>
      rw [hm] at h
      simp only [Except.map, Except.ok.injEq] at h
      obtain ⟨gs, hgs, hh⟩ := modifyGameState_ok _ _ _ _ hm
      refine Or.inr ⟨player, gs,
        { gs with board := emptyRow :: emptyRow :: gs.board.take (gs.board.length - 2) },
        hgs, by rw [← h]; exact hh, rfl, rfl, rfl, rfl, rfl, rfl, rfl, ?_⟩
      intro hlen
      simp only [List.length_cons, List.length_take, hlen]
      omega
  · split at h
    · cases target with
      | none =>
        simp only [Except.ok.injEq] at h
        exact Or.inl (by rw [← h])
      | some t =>
        simp only at h
        cases hm : modifyGameState heap t (fun s => { s with slowed := true }) with
        | error e =>
          rw [hm] at h
          cases h
        | ok h1 =>
          rw [hm] at h
          simp only [Except.map, Except.ok.injEq] at h
          obtain ⟨gs, hgs, hh⟩ := modifyGameState_ok _ _ _ _ hm
          exact Or.inr ⟨t, gs, { gs with slowed := true }, hgs, by rw [← h]; exact hh,
            rfl, rfl, rfl, rfl, rfl, rfl, rfl, fun hlen => hlen⟩
    · split at h
      · cases target with
        | none =>
          simp only [Except.ok.injEq] at h
          exact Or.inl (by rw [← h])
        | some t =>
          simp only at h
          cases hgs : (heap t).gameState with
          | none =>
            rw [hgs] at h
            cases h
          | some s =>
            rw [hgs] at h
            simp only [Except.ok.injEq] at h
            refine Or.inr ⟨t, s, { s with board := (addGarbage 3 s.board g).1 }, hgs,
              by rw [← h], rfl, rfl, rfl, rfl, rfl, rfl, rfl, ?_⟩
            intro hlen
            show (addGarbage 3 s.board g).1.length = 20
            rw [addGarbage_length 3 s.board g (by omega), hlen]
      · split at h
        · cases hm : modifyGameState heap player
              (fun s => { s with shields := s.shields + 1 }) with
          | error e =>
            rw [hm] at h
            cases h
          | ok h1 =>
            rw [hm] at h
            simp only [Except.map, Except.ok.injEq] at h
            obtain ⟨gs, hgs, hh⟩ := modifyGameState_ok _ _ _ _ hm
            exact Or.inr ⟨player, gs, { gs with shields := gs.shields + 1 }, hgs,
              by rw [← h]; exact hh, rfl, rfl, rfl, rfl, rfl, rfl, rfl, fun hlen => hlen⟩
        · simp only [Except.ok.injEq] at h
          exact Or.inl (by rw [← h])

theorem powerUpEffect_returns (heap : Heap) (g : Rng) (player : Ref) (powerUp : String)
    (target : Option Ref) (gs : GameState) (hgs : (heap player).gameState = some gs)
    (htarget : ∀ t, target = some t → ((heap t).gameState).isSome = true) :
    ∃ hr, powerUpEffect heap g player powerUp target = .ok hr := by
  unfold powerUpEffect
  split
  · exact ⟨_, by simp only [modifyGameState, hgs, Except.map]; rfl⟩
  · split
    · cases target with
      | none => exact ⟨_, rfl⟩
      | some t =>
        obtain ⟨s, hs⟩ := Option.isSome_iff_exists.1 (htarget t rfl)
        exact ⟨_, by simp only [modifyGameState, hs, Except.map]; rfl⟩
    · split
      · cases target with
        | none => exact ⟨_, rfl⟩
        | some t =>
          obtain ⟨s, hs⟩ := Option.isSome_iff_exists.1 (htarget t rfl)
          exact ⟨_, by simp only [hs]; rfl⟩
      · split
        · exact ⟨_, by simp only [modifyGameState, hgs, Except.map]; rfl⟩
        · exact ⟨_, rfl⟩

theorem powerUpEffect_no_target (heap : Heap) (g : Rng) (player : Ref) (powerUp : String)
    (hkind : powerUp = "slow_opponent" ∨ powerUp = "add_garbage") :
    powerUpEffect heap g player powerUp none = .ok (heap, g) := by
  rcases hkind with h | h <;> subst h <;> rfl

/-- C22: when the acting player does not hold the power-up kind, `handlePowerUp`
returns at once: the object store (hence the actor's and the target's board,
shields, slowed flag and held power-ups) and the random source are the old ones and
nothing is emitted, so no `powerup:used`; the `powerup:use` handler then leaves the
whole server state unchanged. -/
theorem unheld_powerup_is_noop (heap : Heap) (g : Rng) (room : GameRoom) (player : Ref)
    (powerUp : String) (targetPlayerId : Option SocketId) (gs : GameState)
    (hgs : (heap player).gameState = some gs)
    (hnot : powerUp ∉ gs.powerUps) :
    handlePowerUp heap g room player powerUp targetPlayerId = .ok (heap, g, []) ∧
    ∀ (srv : Server) (socket : SocketId) (roomId : RoomId),
      srv.heap = heap → srv.rng = g → srv.players.lookup socket = some player →
      srv.gameRooms.lookup roomId = some room →
      onPowerupUse srv socket roomId powerUp targetPlayerId = .ok (srv, []) := by
  have hc : gs.powerUps.contains powerUp = false := by
    simpa using hnot
  have hrun : handlePowerUp heap g room player powerUp targetPlayerId = .ok (heap, g, []) := by
    rw [handlePowerUp_eq]
    simp only [hgs, hc, Bool.not_false, if_true]
  refine ⟨hrun, ?_⟩
  intro srv socket roomId hheap hrng hplayer hroom
  subst hheap
  subst hrng
  unfold onPowerupUse
  simp only [hplayer, hroom, hrun]
  split <;> rfl

/-- Witness for C22: player a of the two-player store holds no power-up and asks
for a shield. -/
theorem unheld_powerup_is_noop_witness :
    ((duelHeap 0).gameState = some twoRowGapState ∧ "shield" ∉ twoRowGapState.powerUps) ∧
    (handlePowerUp duelHeap ⟨fun _ => 0, 0⟩ duelRoom 0 "shield" (some "b") =
        .ok (duelHeap, ⟨fun _ => 0, 0⟩, []) ∧
      ∀ (srv : Server) (socket : SocketId) (roomId : RoomId),
        srv.heap = duelHeap → srv.rng = ⟨fun _ => 0, 0⟩ → srv.players.lookup socket = some 0 →
        srv.gameRooms.lookup roomId = some duelRoom →
        onPowerupUse srv socket roomId "shield" (some "b") = .ok (srv, [])) :=
  ⟨⟨by decide, by decide⟩,
    unheld_powerup_is_noop duelHeap ⟨fun _ => 0, 0⟩ duelRoom 0 "shield" (some "b")
      twoRowGapState (by decide) (by decide)⟩

/-- C23: when the acting player holds the power-up kind (and the target, if it is a
member of the room, has a game state), `handlePowerUp` returns, emits
`powerup:used`, and the actor's held list afterwards is the old list without that
kind: the kind is no longer in it, every other kind is in it exactly when it was
before, and the kinds that remain keep their order (for a list without repeats this
is the old list with the kind erased).  This is also so when no target id was
given or the target is not a member of the room; for slow_opponent and
add_garbage the effect then does nothing, and only the actor's held list changes. -/
theorem used_powerup_is_removed (heap : Heap) (g : Rng) (room : GameRoom) (player : Ref)
    (powerUp : String) (targetPlayerId : Option SocketId) (gs : GameState)
    (hgs : (heap player).gameState = some gs)
    (hheld : powerUp ∈ gs.powerUps)
    (htarget : ∀ t, powerUpTarget room targetPlayerId = some t →
      ((heap t).gameState).isSome = true) :
    ∃ heap2 g2 gs2,
      handlePowerUp heap g room player powerUp targetPlayerId =
        .ok (heap2, g2, [Emit.powerupUsed room.id (heap player).id powerUp targetPlayerId]) ∧
      (heap2 player).gameState = some gs2 ∧
      gs2.powerUps = gs.powerUps.filter (fun p => decide (p ≠ powerUp)) ∧
      powerUp ∉ gs2.powerUps ∧
      (∀ k, k ≠ powerUp → (k ∈ gs2.powerUps ↔ k ∈ gs.powerUps)) ∧
      gs2.powerUps.Sublist gs.powerUps ∧
      (gs.powerUps.Nodup → gs2.powerUps = gs.powerUps.erase powerUp) ∧
      (targetPlayerId = none → powerUpTarget room targetPlayerId = none) ∧
      (∀ t, targetPlayerId = some t → room.players.lookup t = none →
        powerUpTarget room targetPlayerId = none) ∧
      (powerUpTarget room targetPlayerId = none →
        powerUp = "slow_opponent" ∨ powerUp = "add_garbage" →
        g2 = g ∧ (∀ r, r ≠ player → heap2 r = heap r) ∧
        gs2 = { gs with powerUps := gs.powerUps.filter (fun p => decide (p ≠ powerUp)) }) := by
  have hc : gs.powerUps.contains powerUp = true := by
    simpa using hheld
  obtain ⟨hr, heff⟩ := powerUpEffect_returns heap g player powerUp
    (powerUpTarget room targetPlayerId) gs hgs htarget
  have hstate : ∃ gs1, (hr.1 player).gameState = some gs1 ∧ gs1.powerUps = gs.powerUps := by
    rcases powerUpEffect_shape heap g player powerUp _ hr heff with h | h
    · exact ⟨gs, by rw [h]; exact hgs, rfl⟩
    · obtain ⟨r, gs0, gs1, h0, hh, hpu, _⟩ := h
      by_cases hrp : player = r
      · subst hrp
        rw [hgs] at h0
        cases h0
        exact ⟨gs1, by rw [hh]; simp [setObj], hpu⟩
      · exact ⟨gs, by rw [hh]; simp [setObj, hrp, hgs], rfl⟩
  obtain ⟨gs1, hgs1, hpu1⟩ := hstate
  have hrun : handlePowerUp heap g room player powerUp targetPlayerId =
      .ok (setObj hr.1 player { hr.1 player with
            gameState := some { gs1 with
              powerUps := gs1.powerUps.filter (fun p => decide (p ≠ powerUp)) } },
        hr.2, [Emit.powerupUsed room.id (heap player).id powerUp targetPlayerId]) := by
    rw [handlePowerUp_eq]
    simp only [hgs, hc, Bool.not_true, Bool.false_eq_true, if_false, heff, modifyGameState,
      hgs1]
  refine ⟨_, _, { gs1 with powerUps := gs1.powerUps.filter (fun p => decide (p ≠ powerUp)) },
    hrun, by simp [setObj], by rw [hpu1], ?_, ?_, ?_, ?_, ?_, ?_, ?_⟩
  · simp
  · intro k hk
    simp [hpu1, hk]
  · show (gs1.powerUps.filter (fun p => decide (p ≠ powerUp))).Sublist gs.powerUps
    rw [hpu1]
    exact List.filter_sublist _
  · intro hnd
    show gs1.powerUps.filter (fun p => decide (p ≠ powerUp)) = gs.powerUps.erase powerUp
    rw [hpu1, hnd.erase_eq_filter]
    congr 1
    funext p
    by_cases h : p = powerUp <;> simp [h]
  · intro h
    rw [h]
    rfl
  · intro t h hlook
    rw [h]
    unfold powerUpTarget
    simp only [hlook, ite_self]
  · intro hnone hkind
    rw [hnone, powerUpEffect_no_target heap g player powerUp hkind] at heff
    simp only [Except.ok.injEq] at heff
    have hgs1' : gs1 = gs := by
      have := hgs1
      rw [← heff] at this
      simp only at this
      rw [hgs] at this
      exact (Option.some.inj this).symm
    refine ⟨by rw [← heff], ?_, by rw [hgs1']⟩
    intro r hr'
    rw [← heff]
    simp [setObj, hr']

/-- Witness for C23: player a holds a shield and an add_garbage power-up and uses
add_garbage on a target that is not in the room: the shield alone remains. -/
theorem used_powerup_is_removed_witness :
    ((holderHeap 0).gameState = some holderState ∧ "add_garbage" ∈ holderState.powerUps ∧
      powerUpTarget duelRoom (some "z") = none ∧
      (handlePowerUp holderHeap ⟨fun _ => 0, 0⟩ duelRoom 0 "add_garbage" (some "z")).map
          (fun r => (((r.1 0).gameState).map (fun s => s.powerUps), r.2.2)) =
        .ok (some ["shield"], [Emit.powerupUsed "r" "a" "add_garbage" (some "z")])) ∧
    (∃ heap2 g2 gs2,
      handlePowerUp holderHeap ⟨fun _ => 0, 0⟩ duelRoom 0 "add_garbage" (some "z") =
        .ok (heap2, g2, [Emit.powerupUsed duelRoom.id (holderHeap 0).id "add_garbage" (some "z")]) ∧
      (heap2 0).gameState = some gs2 ∧
      gs2.powerUps = holderState.powerUps.filter (fun p => decide (p ≠ "add_garbage")) ∧
      "add_garbage" ∉ gs2.powerUps ∧
      (∀ k, k ≠ "add_garbage" → (k ∈ gs2.powerUps ↔ k ∈ holderState.powerUps)) ∧
      gs2.powerUps.Sublist holderState.powerUps ∧
      (holderState.powerUps.Nodup → gs2.powerUps = holderState.powerUps.erase "add_garbage") ∧
      ((some "z") = none → powerUpTarget duelRoom (some "z") = none) ∧
      (∀ t, (some "z") = some t → duelRoom.players.lookup t = none →
        powerUpTarget duelRoom (some "z") = none) ∧
      (powerUpTarget duelRoom (some "z") = none →
        "add_garbage" = "slow_opponent" ∨ "add_garbage" = "add_garbage" →
        g2 = ⟨fun _ => 0, 0⟩ ∧ (∀ r, r ≠ 0 → heap2 r = holderHeap r) ∧
        gs2 = { holderState with powerUps := holderState.powerUps.filter (fun p => decide (p ≠ "add_garbage")) })) :=
  ⟨⟨by decide, by decide, by decide, by decide⟩,
    used_powerup_is_removed holderHeap ⟨fun _ => 0, 0⟩ duelRoom 0 "add_garbage" (some "z")
      holderState (by decide) (by decide)
      (fun t h => by
        rw [show powerUpTarget duelRoom (some "z") = none from by decide] at h
        cases h)⟩

/-! ## What the server maintains of every game state -/

theorem tetromino_rotationShapes (s : Shape) (h : s ∈ tetrominoShapes) : s ∈ rotationShapes :=
  List.mem_append_left _ h

theorem rotateMatrix_rotationShapes :
    ∀ s ∈ rotationShapes, rotateMatrix s ∈ rotationShapes := by
  decide

theorem rotationShapes_occupied :
    ∀ s ∈ rotationShapes, (shapeCells s).any (fun c => c.2.2.truthy) = true := by
  decide

theorem shapeReachable_rotationShapes (s : Shape) (h : ShapeReachable s) :
    s ∈ rotationShapes := by
  induction h with
  | tetromino t ht =>
    exact tetromino_rotationShapes _ (List.mem_map_of_mem _ ht)
  | rotate s _ ih => exact rotateMatrix_rotationShapes s ih

theorem getRandomPiece_shape (g : Rng) : (getRandomPiece g).1.shape ∈ tetrominoShapes := by
  have h := getRandomPiece_mem g
  rw [List.mem_map] at h
  obtain ⟨t, ht, hp⟩ := h
  rw [← hp]
  exact List.mem_map_of_mem _ ht

theorem createInitialGameState_wellFormed (g : Rng) :
    ({ (createInitialGameState g).1 with isAlive := true } : GameState).wellFormed := by
  refine ⟨?_, List.nodup_nil, ?_, ?_, ?_⟩
  · show emptyBoard.length = 20
    decide
  · intro p hp
    cases hp
  · exact tetromino_rotationShapes _ (getRandomPiece_shape g)
  · exact getRandomPiece_shape _

theorem heapWellFormed_setObj (heap : Heap) (r : Ref) (p : Player)
    (hheap : heapWellFormed heap) (hp : ∀ gs, p.gameState = some gs → gs.wellFormed) :
    heapWellFormed (setObj heap r p) := by
  intro r1 gs h
  unfold setObj at h
  split at h
  · exact hp gs h
  · exact hheap r1 gs h

theorem wellFormed_of_same (gs0 gs1 : GameState) (h0 : gs0.wellFormed)
    (hboard : gs1.board.length = gs0.board.length) (hpu : gs1.powerUps = gs0.powerUps)
    (hcur : gs1.currentPiece.shape = gs0.currentPiece.shape ∨
      gs1.currentPiece.shape = rotateMatrix gs0.currentPiece.shape)
    (hnext : gs1.nextPiece = gs0.nextPiece) : gs1.wellFormed := by
  obtain ⟨a, b, c, d, e⟩ := h0
  refine ⟨by rw [hboard, a], by rw [hpu]; exact b, by rw [hpu]; exact c, ?_, by rw [hnext]; exact e⟩
  rcases hcur with h | h
  · rw [h]
    exact d
  · rw [h]
    exact rotateMatrix_rotationShapes _ d

theorem startGame_fold_wellFormed (members : List (SocketId × Ref)) :
    ∀ (acc : Heap × Rng), heapWellFormed acc.1 →
      heapWellFormed (members.foldl (fun (acc : Heap × Rng) m =>
        (setObj acc.1 m.2 { acc.1 m.2 with
          gameState := some { (createInitialGameState acc.2).1 with isAlive := true } },
         (createInitialGameState acc.2).2)) acc).1 := by
  induction members with
  | nil =>
    intro acc h
    exact h
  | cons m rest ih =>
    intro acc h
    rw [List.foldl_cons]
    apply ih
    apply heapWellFormed_setObj _ _ _ h
    intro gs hgs
    simp only [Option.some.injEq] at hgs
    rw [← hgs]
    exact createInitialGameState_wellFormed acc.2

theorem startGame_wellFormed (room : GameRoom) (heap : Heap) (g : Rng)
    (h : heapWellFormed heap) : heapWellFormed (room.startGame heap g).2.1 :=
  startGame_fold_wellFormed room.players (heap, g) h

theorem applyAction_keeps (fuel : Nat) (gs0 gs1 : GameState) (move : Move)
    (h : applyAction fuel gs0 move = .ok gs1) :
    gs1.board.length = gs0.board.length ∧ gs1.powerUps = gs0.powerUps ∧
    gs1.nextPiece = gs0.nextPiece ∧
    (gs1.currentPiece.shape = gs0.currentPiece.shape ∨
      gs1.currentPiece.shape = rotateMatrix gs0.currentPiece.shape) ∧
    gs1.isAlive = gs0.isAlive ∧ gs1.gameOver = gs0.gameOver := by
  unfold applyAction at h
  split at h
  · unfold movePiece at h
    simp only at h
    split at h
    · cases h
    · simp only [Except.map, Except.ok.injEq] at h
      rw [← h]
      exact ⟨rfl, rfl, rfl, Or.inl rfl, rfl, rfl⟩
    · simp only [Except.map, Except.ok.injEq] at h
      rw [← h]
      exact ⟨rfl, rfl, rfl, Or.inl rfl, rfl, rfl⟩
  · split at h
    · unfold rotatePiece at h
      simp only at h
      split at h
      · cases h
      · simp only [Except.map, Except.ok.injEq] at h
        rw [← h]
        exact ⟨rfl, rfl, rfl, Or.inr rfl, rfl, rfl⟩
      · simp only [Except.map, Except.ok.injEq] at h
        rw [← h]
        exact ⟨rfl, rfl, rfl, Or.inl rfl, rfl, rfl⟩
    · split at h
      · unfold dropPiece at h
        simp only at h
        split at h
        · cases h
        · simp only [Except.map, Except.ok.injEq] at h
          rw [← h]
          exact ⟨rfl, rfl, rfl, Or.inl rfl, rfl, rfl⟩
        · simp only [Except.map, Except.ok.injEq] at h
          rw [← h]
          exact ⟨rfl, rfl, rfl, Or.inl rfl, rfl, rfl⟩
      · split at h
        · unfold hardDrop at h
          cases hl : hardDropLoop gs0 fuel 0 with
          | error e =>
            rw [hl] at h
            cases h
          | ok d =>
            rw [hl] at h
            simp only at h
            unfold lockPiece at h
            simp only at h
            cases hc : lockCells
                { gs0.currentPiece with y := gs0.currentPiece.y + (d : Int) }
                (shapeCells gs0.currentPiece.shape) gs0.board with
            | error e =>
              rw [hc] at h
              cases h
            | ok b =>
              rw [hc] at h
              simp only [Except.map, Except.ok.injEq] at h
              rw [← h]
              exact ⟨lockCells_length _ _ _ _ hc, rfl, rfl, Or.inl rfl, rfl, rfl⟩
        · simp only [Except.ok.injEq] at h
          rw [← h]
          exact ⟨rfl, rfl, rfl, Or.inl rfl, rfl, rfl⟩

theorem applyAction_wellFormed (fuel : Nat) (gs0 gs1 : GameState) (move : Move)
    (h : applyAction fuel gs0 move = .ok gs1) (h0 : gs0.wellFormed) : gs1.wellFormed := by
  obtain ⟨a, b, c, d, _⟩ := applyAction_keeps fuel gs0 gs1 move h
  exact wellFormed_of_same gs0 gs1 h0 a b d c

theorem garbageStep_wellFormed (lines : Nat) (acc : Heap × Rng) (m : SocketId × Ref)
    (h : heapWellFormed acc.1) : heapWellFormed (garbageStep lines acc m).1 := by
  unfold garbageStep
  cases hgs : (acc.1 m.2).gameState with
  | none => exact h
  | some gs =>
    simp only
    split
    · apply heapWellFormed_setObj _ _ _ h
      intro gs2 h2
      simp only [Option.some.injEq] at h2
      rw [← h2]
      have hwf := h m.2 gs hgs
      exact wellFormed_of_same gs _ hwf
        (by
          show (addGarbage lines gs.board acc.2).1.length = gs.board.length
          exact addGarbage_length lines gs.board acc.2 (by rw [hwf.1]; decide))
        rfl (Or.inl rfl) rfl
    · exact h

theorem garbage_fold_wellFormed (lines : Nat) (l : List (SocketId × Ref)) :
    ∀ (acc : Heap × Rng), heapWellFormed acc.1 →
      heapWellFormed (l.foldl (garbageStep lines) acc).1 := by
  induction l with
  | nil =>
    intro acc h
    exact h
  | cons m rest ih =>
    intro acc h
    rw [List.foldl_cons]
    exact ih _ (garbageStep_wellFormed lines acc m h)

theorem sendGarbageLines_wellFormed (heap : Heap) (g : Rng) (room : GameRoom) (sender : Ref)
    (lines : Nat) (h : heapWellFormed heap) :
    heapWellFormed (sendGarbageLines heap g room sender lines).1 := by
  rw [sendGarbageLines_eq]
  exact garbage_fold_wellFormed lines _ (heap, g) h

theorem heapWellFormed_of_gameState (heap heap2 : Heap) (h : heapWellFormed heap)
    (hsame : ∀ r, (heap2 r).gameState = (heap r).gameState) : heapWellFormed heap2 := by
  intro r gs hgs
  rw [hsame r] at hgs
  exact h r gs hgs

theorem handleGameOver_ok_states (heap : Heap) (room : GameRoom) (player : Ref)
    (heap2 : Heap) (room2 : GameRoom) (emits : List Emit)
    (h : handleGameOver heap room player = .ok (heap2, room2, emits)) :
    ∃ gs, (heap player).gameState = some gs ∧
      ∀ r, (heap2 r).gameState =
        (setObj heap player { heap player with
          gameState := some { gs with isAlive := false, gameOver := true } } r).gameState := by
  unfold handleGameOver at h
  cases hgs : (heap player).gameState with
  | none =>
    rw [hgs] at h
    cases h
  | some gs =>
    rw [hgs] at h
    simp only at h
    refine ⟨gs, rfl, ?_⟩
    split at h
    · cases h
    · split at h
      · simp only [Except.ok.injEq, Prod.mk.injEq] at h
        intro r
        rw [← h.1]
        exact updateStats_gameState _ _ _ r
      · simp only [Except.ok.injEq, Prod.mk.injEq] at h
        intro r
        rw [← h.1]

theorem handleGameOver_wellFormed (heap : Heap) (room : GameRoom) (player : Ref)
    (heap2 : Heap) (room2 : GameRoom) (emits : List Emit)
    (hheap : heapWellFormed heap)
    (h : handleGameOver heap room player = .ok (heap2, room2, emits)) :
    heapWellFormed heap2 := by
  obtain ⟨gs, hgs, hsame⟩ := handleGameOver_ok_states heap room player heap2 room2 emits h
  apply heapWellFormed_of_gameState _ _ _ hsame
  apply heapWellFormed_setObj _ _ _ hheap
  intro gs2 h2
  simp only [Option.some.injEq] at h2
  rw [← h2]
  exact wellFormed_of_same gs _ (hheap player gs hgs) rfl rfl (Or.inl rfl) rfl

theorem awardPowerUp_powerUps (gs : GameState) (g : Rng) :
    (awardPowerUp gs g).1.powerUps = gs.powerUps ∨
    ∃ k, k ∈ availablePowerUps ∧ k ∉ gs.powerUps ∧
      (awardPowerUp gs g).1.powerUps = gs.powerUps ++ [k] := by
  have hlt : g.draws g.pos % 4 < 4 := Nat.mod_lt _ (by decide)
  have hmem : availablePowerUps.getD (g.next 4).1 "" ∈ availablePowerUps := by
    simp only [Rng.next]
    generalize g.draws g.pos % 4 = i at hlt
    interval_cases i <;> decide
  simp only [awardPowerUp]
  split
  · exact Or.inl rfl
  · rename_i hnot
    refine Or.inr ⟨_, hmem, ?_, rfl⟩
    simpa using hnot

theorem awardPowerUp_wellFormed (gs : GameState) (g : Rng) (h : gs.wellFormed) :
    (awardPowerUp gs g).1.wellFormed := by
  obtain ⟨a1, _, _, _, a5, a6⟩ := awardPowerUp_fields gs g
  obtain ⟨b1, b2, b3, b4, b5⟩ := h
  refine ⟨by rw [a1]; exact b1, ?_, ?_, by rw [a5]; exact b4, by rw [a6]; exact b5⟩
  · rcases awardPowerUp_powerUps gs g with hp | ⟨k, _, hk2, hp⟩
    · rw [hp]
      exact b2
    · rw [hp]
      exact List.Nodup.append b2 (List.nodup_singleton k) (by simpa using hk2)
  · rcases awardPowerUp_powerUps gs g with hp | ⟨k, hk1, _, hp⟩
    · rw [hp]
      exact b3
    · rw [hp]
      intro p hpm
      rcases List.mem_append.1 hpm with hq | hq
      · exact b3 p hq
      · rw [List.mem_singleton.1 hq]
        exact hk1

theorem spawnNewPiece_wellFormed (gs : GameState) (g : Rng) (h : gs.wellFormed) :
    (spawnNewPiece gs g).1.wellFormed := by
  obtain ⟨b1, b2, b3, _, b5⟩ := h
  exact ⟨b1, b2, b3, tetromino_rotationShapes _ b5, getRandomPiece_shape g⟩

theorem afterAction_wellFormed (heap : Heap) (g : Rng) (room : GameRoom) (player : Ref)
    (gs1 : GameState) (res : Heap × Rng × GameRoom × List Emit)
    (hheap : heapWellFormed heap) (h1 : gs1.wellFormed)
    (h : afterAction heap g room player gs1 = .ok res) : heapWellFormed res.1 := by
  obtain ⟨c, hc⟩ : ∃ c, c = (checkLineClears gs1.board).2 := ⟨_, rfl⟩
  obtain ⟨gs3, hgs3⟩ : ∃ gs3 : GameState, gs3 =
      if c > 0 then
        { gs1 with
          board := (checkLineClears gs1.board).1
          lines := gs1.lines + c
          score := gs1.score.add (calculateScore c gs1.level) }
      else { gs1 with board := (checkLineClears gs1.board).1 } := ⟨_, rfl⟩
  obtain ⟨hg, hhg⟩ : ∃ hg : Heap × Rng, hg =
      if c > 0 ∧ room.gameMode = "battle" ∧ c > 1 then
        sendGarbageLines heap g room player (c - 1)
      else (heap, g) := ⟨_, rfl⟩
  obtain ⟨ag, hag⟩ : ∃ ag : GameState × Rng, ag =
      if c > 0 ∧ c ≥ 2 then awardPowerUp gs3 hg.2 else (gs3, hg.2) := ⟨_, rfl⟩
  have wf3 : gs3.wellFormed := by
    rw [hgs3]
    split
    · exact wellFormed_of_same gs1 _ h1 (checkLineClears_length gs1.board) rfl (Or.inl rfl) rfl
    · exact wellFormed_of_same gs1 _ h1 (checkLineClears_length gs1.board) rfl (Or.inl rfl) rfl
  have wfhg : heapWellFormed hg.1 := by
    rw [hhg]
    split
    · exact sendGarbageLines_wellFormed _ _ _ _ _ hheap
    · exact hheap
  have wfag : ag.1.wellFormed := by
    rw [hag]
    split
    · exact awardPowerUp_wellFormed _ _ wf3
    · exact wf3
  unfold afterAction at h
  simp only [] at h
  rw [← hc, ← hgs3, ← hhg, ← hag] at h
  split at h
  · cases h
  · rename_i needed _
    have wfsp : (if needed = true then spawnNewPiece ag.1 ag.2 else ag).1.wellFormed := by
      split
      · exact spawnNewPiece_wellFormed _ _ wfag
      · exact wfag
    split at h
    · cases h
    · simp only [Except.ok.injEq] at h
      rw [← h]
      apply heapWellFormed_setObj _ _ _ wfhg
      intro gs2 h2
      simp only [Option.some.injEq] at h2
      rw [← h2]
      exact wfsp
    · split at h
      · cases h
      · rename_i r hr
        simp only [Except.ok.injEq] at h
        rw [← h]
        apply handleGameOver_wellFormed _ room player r.1 r.2.1 r.2.2 _ hr
        apply heapWellFormed_setObj _ _ _ wfhg
        intro gs2 h2
        simp only [Option.some.injEq] at h2
        rw [← h2]
        exact wellFormed_of_same _ _ wfsp rfl rfl (Or.inl rfl) rfl

theorem handleGameMove_wellFormed (fuel : Nat) (heap : Heap) (g : Rng) (room : GameRoom)
    (player : Ref) (move : Move) (res : Heap × Rng × GameRoom × List Emit)
    (hheap : heapWellFormed heap)
    (h : handleGameMove fuel heap g room player move = .ok res) : heapWellFormed res.1 := by
  cases hgs : (heap player).gameState with
  | none =>
    simp only [handleGameMove, hgs] at h
    cases h
  | some gs0 =>
    rw [handleGameMove_eq fuel heap g room player move gs0 hgs] at h
    cases hact : applyAction fuel gs0 move with
    | error e =>
      rw [hact] at h
      cases h
    | ok gs1 =>
      rw [hact] at h
      exact afterAction_wellFormed heap g room player gs1 res hheap
        (applyAction_wellFormed fuel gs0 gs1 move hact (hheap player gs0 hgs)) h

theorem handlePowerUp_wellFormed (heap : Heap) (g : Rng) (room : GameRoom) (player : Ref)
    (powerUp : String) (targetPlayerId : Option SocketId) (res : Heap × Rng × List Emit)
    (hheap : heapWellFormed heap)
    (h : handlePowerUp heap g room player powerUp targetPlayerId = .ok res) :
    heapWellFormed res.1 := by
  rw [handlePowerUp_eq] at h
  cases hgs : (heap player).gameState with
  | none =>
    rw [hgs] at h
    cases h
  | some gs =>
    rw [hgs] at h
    simp only at h
    split at h
    · simp only [Except.ok.injEq] at h
      rw [← h]
      exact hheap
    · cases heff : powerUpEffect heap g player powerUp (powerUpTarget room targetPlayerId) with
      | error e =>
        rw [heff] at h
        cases h
      | ok hr =>
        rw [heff] at h
        simp only at h
        have wfhr : heapWellFormed hr.1 := by
          rcases powerUpEffect_shape heap g player powerUp _ hr heff with e | e
          · rw [e]
            exact hheap
          · obtain ⟨r, gs0, gs1, h0, hh, a, b, c, _, _, _, _, d⟩ := e
            rw [hh]
            apply heapWellFormed_setObj _ _ _ hheap
            intro gs2 h2
            simp only [Option.some.injEq] at h2
            rw [← h2]
            have hw := hheap r gs0 h0
            exact wellFormed_of_same gs0 gs1 hw (by rw [d hw.1, hw.1]) a (Or.inl (by rw [b])) c
        cases hm : modifyGameState hr.1 player (fun s =>
            { s with powerUps := s.powerUps.filter (fun p => decide (p ≠ powerUp)) }) with
        | error e =>
          rw [hm] at h
          cases h
        | ok h2 =>
          rw [hm] at h
          simp only [Except.ok.injEq] at h
          rw [← h]
          obtain ⟨gs1, hgs1, hh⟩ := modifyGameState_ok _ _ _ _ hm
          show heapWellFormed h2
          rw [hh]
          apply heapWellFormed_setObj _ _ _ wfhr
          intro gs2 hgs2
          simp only [Option.some.injEq] at hgs2
          rw [← hgs2]
          obtain ⟨b1, b2, b3, b4, b5⟩ := wfhr player gs1 hgs1
          exact ⟨b1, b2.filter _, fun p hp => b3 p (List.mem_filter.1 hp).1, b4, b5⟩

theorem addPlayer_wellFormed (room : GameRoom) (heap : Heap) (player : Ref)
    (h : heapWellFormed heap) : heapWellFormed (room.addPlayer heap player).2.1 := by
  unfold GameRoom.addPlayer
  split
  · apply heapWellFormed_setObj _ _ _ h
    intro gs hgs
    exact h player gs hgs
  · exact h

theorem onRoomJoin_wellFormed (srv : Server) (socket : SocketId) (roomId : RoomId)
    (h : heapWellFormed srv.heap) : heapWellFormed (onRoomJoin srv socket roomId).1.heap := by
  unfold onRoomJoin
  split
  · rename_i room player _ _
    simp only
    split
    · split
      · exact startGame_wellFormed _ _ _ (addPlayer_wellFormed room srv.heap player h)
      · exact addPlayer_wellFormed room srv.heap player h
    · exact h
  · exact h

theorem handleEvent_wellFormed (fuel : Nat) (srv srv1 : Server) (ev : Event)
    (emits : List Emit) (h : heapWellFormed srv.heap)
    (hstep : handleEvent fuel srv ev = .ok (srv1, emits)) : heapWellFormed srv1.heap := by
  cases ev with
  | playerJoin socket username =>
    simp only [handleEvent, Except.ok.injEq] at hstep
    have hheap : srv1.heap = (onPlayerJoin srv socket username).1.heap := by rw [hstep]
    rw [hheap]
    apply heapWellFormed_setObj _ _ _ h
    intro gs hgs
    cases hgs
  | roomCreate socket roomId name maxPlayers isPrivate gameMode =>
    simp only [handleEvent, Except.ok.injEq] at hstep
    have hheap : srv1.heap = (onRoomCreate srv roomId name maxPlayers isPrivate gameMode).1.heap := by
      rw [hstep]
    rw [hheap]
    exact h
  | roomJoin socket roomId =>
    simp only [handleEvent, Except.ok.injEq] at hstep
    have := onRoomJoin_wellFormed srv socket roomId h
    rw [hstep] at this
    exact this
  | gameMove socket roomId move =>
    simp only [handleEvent] at hstep
    unfold onGameMove at hstep
    split at hstep
    · rename_i room player _ _
      split at hstep
      · cases hm : handleGameMove fuel srv.heap srv.rng room player move with
        | error e =>
          rw [hm] at hstep
          cases hstep
        | ok r =>
          rw [hm] at hstep
          simp only [Except.ok.injEq, Prod.mk.injEq] at hstep
          rw [← hstep.1]
          exact handleGameMove_wellFormed fuel srv.heap srv.rng room player move r h hm
      · simp only [Except.ok.injEq, Prod.mk.injEq] at hstep
        rw [← hstep.1]
        exact h
    · simp only [Except.ok.injEq, Prod.mk.injEq] at hstep
      rw [← hstep.1]
      exact h
  | powerupUse socket roomId powerUp targetPlayerId =>
    simp only [handleEvent] at hstep
    unfold onPowerupUse at hstep
    split at hstep
    · rename_i room player _ _
      split at hstep
      · cases hm : handlePowerUp srv.heap srv.rng room player powerUp targetPlayerId with
        | error e =>
          rw [hm] at hstep
          cases hstep
        | ok r =>
          rw [hm] at hstep
          simp only [Except.ok.injEq, Prod.mk.injEq] at hstep
          rw [← hstep.1]
          exact handlePowerUp_wellFormed srv.heap srv.rng room player powerUp targetPlayerId r
            h hm
      · simp only [Except.ok.injEq, Prod.mk.injEq] at hstep
        rw [← hstep.1]
        exact h
    · simp only [Except.ok.injEq, Prod.mk.injEq] at hstep
      rw [← hstep.1]
      exact h
  | disconnect socket =>
    simp only [handleEvent, Except.ok.injEq] at hstep
    have := (onDisconnect_stats srv socket).1
    rw [hstep] at this
    simp only at this
    rw [this]
    exact h

theorem reachable_wellFormed (srv : Server) (h : Reachable srv) : heapWellFormed srv.heap := by
  induction h with
  | init draws =>
    intro r gs hgs
    cases hgs
  | step fuel srv srv1 ev emits _ hstep ih =>
    exact handleEvent_wellFormed fuel srv srv1 ev emits ih hstep

theorem reachable_handleEvents (fuel : Nat) (events : List Event) :
    ∀ (srv srv1 : Server) (emits : List Emit), Reachable srv →
      handleEvents fuel srv events = .ok (srv1, emits) → Reachable srv1 := by
  induction events with
  | nil =>
    intro srv srv1 emits h hrun
    simp only [handleEvents, Except.ok.injEq, Prod.mk.injEq] at hrun
    rw [← hrun.1]
    exact h
  | cons ev rest ih =>
    intro srv srv1 emits h hrun
    simp only [handleEvents] at hrun
    cases hev : handleEvent fuel srv ev with
    | error e =>
      rw [hev] at hrun
      cases hrun
    | ok r =>
      rw [hev] at hrun
      simp only at hrun
      cases hrest : handleEvents fuel r.1 rest with
      | error e =>
        rw [hrest] at hrun
        cases hrun
      | ok r1 =>
        rw [hrest] at hrun
        simp only [Except.ok.injEq, Prod.mk.injEq] at hrun
        rw [← hrun.1]
        exact ih r.1 r1.1 r1.2 (Reachable.step fuel srv r.1 ev r.2 h hev) hrest

/-! ## Held power-ups -/

theorem handlePowerUp_nodup (heap : Heap) (g : Rng) (room : GameRoom) (player : Ref)
    (powerUp : String) (targetPlayerId : Option SocketId) (res : Heap × Rng × List Emit)
    (hnd : ∀ r gs, (heap r).gameState = some gs → gs.powerUps.Nodup)
    (h : handlePowerUp heap g room player powerUp targetPlayerId = .ok res) :
    ∀ r gs2, (res.1 r).gameState = some gs2 → gs2.powerUps.Nodup := by
  rw [handlePowerUp_eq] at h
  cases hgs : (heap player).gameState with
  | none =>
    rw [hgs] at h
    cases h
  | some gs =>
    rw [hgs] at h
    simp only at h
    split at h
    · simp only [Except.ok.injEq] at h
      rw [← h]
      exact hnd
    · cases heff : powerUpEffect heap g player powerUp (powerUpTarget room targetPlayerId) with
      | error e =>
        rw [heff] at h
        cases h
      | ok hr =>
        rw [heff] at h
        simp only at h
        have hnd1 : ∀ r gs, (hr.1 r).gameState = some gs → gs.powerUps.Nodup := by
          rcases powerUpEffect_shape heap g player powerUp _ hr heff with e | e
          · rw [e]
            exact hnd
          · obtain ⟨r0, gs0, gs1, h0, hh, a, _⟩ := e
            intro r gs2 h2
            rw [hh] at h2
            unfold setObj at h2
            split at h2
            · simp only [Option.some.injEq] at h2
              rw [← h2, a]
              exact hnd r0 gs0 h0
            · exact hnd r gs2 h2
        cases hm : modifyGameState hr.1 player (fun s =>
            { s with powerUps := s.powerUps.filter (fun p => decide (p ≠ powerUp)) }) with
        | error e =>
          rw [hm] at h
          cases h
        | ok h2 =>
          rw [hm] at h
          simp only [Except.ok.injEq] at h
          rw [← h]
          obtain ⟨gs1, hgs1, hh⟩ := modifyGameState_ok _ _ _ _ hm
          intro r gs2 hr2
          simp only at hr2
          rw [hh] at hr2
          unfold setObj at hr2
          split at hr2
          · simp only [Option.some.injEq] at hr2
            rw [← hr2]
            exact (hnd1 player gs1 hgs1).filter _
          · exact hnd1 r gs2 hr2

theorem wellFormed_length_le (gs : GameState) (h : gs.wellFormed) : gs.powerUps.length ≤ 4 := by
  obtain ⟨_, b2, b3, _, _⟩ := h
  have hsub : gs.powerUps ⊆ availablePowerUps := fun p hp => b3 p hp
  exact (List.subperm_of_subset b2 hsub).length_le

/-- C21: for a held list without repeated kind, `awardPowerUp` (for every random
source) leaves a list without repeated kind that is either the old list or the old
list with one kind of `availablePowerUps`, not yet held, appended; `handlePowerUp`,
when it returns, leaves every player's held list without repeats if they all were
so before.  Hence in every server state reachable from start-up (all game states
come from `createInitialGameState`) every player's held list has no repeated kind,
holds each of its kinds once, and has at most 4 entries. -/
theorem powerups_never_repeat :
    (∀ (gs : GameState) (g : Rng), gs.powerUps.Nodup →
      (awardPowerUp gs g).1.powerUps.Nodup ∧
      ((awardPowerUp gs g).1.powerUps = gs.powerUps ∨
        ∃ k, k ∈ availablePowerUps ∧ k ∉ gs.powerUps ∧
          (awardPowerUp gs g).1.powerUps = gs.powerUps ++ [k])) ∧
    (∀ (heap : Heap) (g : Rng) (room : GameRoom) (player : Ref) (powerUp : String)
        (targetPlayerId : Option SocketId) (heap2 : Heap) (g2 : Rng) (emits : List Emit),
      (∀ r gs, (heap r).gameState = some gs → gs.powerUps.Nodup) →
      handlePowerUp heap g room player powerUp targetPlayerId = .ok (heap2, g2, emits) →
      ∀ r gs2, (heap2 r).gameState = some gs2 → gs2.powerUps.Nodup) ∧
    (∀ srv : Server, Reachable srv → ∀ r gs, (srv.heap r).gameState = some gs →
      gs.powerUps.Nodup ∧ (∀ k ∈ gs.powerUps, gs.powerUps.count k = 1) ∧
      gs.powerUps.length ≤ 4) := by
  refine ⟨?_, ?_, ?_⟩
  · intro gs g hnd
    have hcases := awardPowerUp_powerUps gs g
    refine ⟨?_, hcases⟩
    rcases hcases with hp | ⟨k, _, hk2, hp⟩
    · rw [hp]
      exact hnd
    · rw [hp]
      exact List.Nodup.append hnd (List.nodup_singleton k) (by simpa using hk2)
  · intro heap g room player powerUp targetPlayerId heap2 g2 emits hnd h
    exact handlePowerUp_nodup heap g room player powerUp targetPlayerId (heap2, g2, emits) hnd h
  · intro srv hreach r gs hgs
    have hwf := reachable_wellFormed srv hreach r gs hgs
    exact ⟨hwf.2.1, fun k hk => List.count_eq_one_of_mem hwf.2.1 hk, wellFormed_length_le gs hwf⟩

/-- Witness for C21: after the two players have joined and player a has cleared two
lines with five O pieces, the server state is reachable and player a holds the one
power-up that was awarded. -/
theorem powerups_never_repeat_witness :
    holdingsAfter 30 (Server.init (fun _ => 1)) (twoPlayerSetup ++ fiveSquares) "a" =
      some (["slow_opponent"], 2) ∧
    ∀ (srv : Server) (emits : List Emit),
      handleEvents 30 (Server.init (fun _ => 1)) (twoPlayerSetup ++ fiveSquares) =
        .ok (srv, emits) →
      ∀ r gs, (srv.heap r).gameState = some gs →
        gs.powerUps.Nodup ∧ (∀ k ∈ gs.powerUps, gs.powerUps.count k = 1) ∧
        gs.powerUps.length ≤ 4 :=
  ⟨by decide, fun srv emits hrun =>
    powerups_never_repeat.2.2 srv
      (reachable_handleEvents 30 _ _ srv emits (Reachable.init _) hrun)⟩

/-! ## Termination of the hard drop -/

theorem hardDropLoop_returns (gs : GameState) (hrows : gs.board.length = 20)
    (hcell : ∃ c ∈ shapeCells gs.currentPiece.shape, c.2.2.truthy = true) :
    ∃ d : Nat, (∀ fuel, d < fuel → hardDropLoop gs fuel 0 = .ok d) ∧
      (∀ k : Nat, 1 ≤ k → k ≤ d →
        isValidMove gs gs.currentPiece.shape gs.currentPiece.x
          (gs.currentPiece.y + (k : Int)) = .ok true) ∧
      isValidMove gs gs.currentPiece.shape gs.currentPiece.x
        (gs.currentPiece.y + (d : Int) + 1) = .ok false := by
  have hex := blocked_far_below gs hrows hcell
  have hcases : ∀ y : Int,
      isValidMove gs gs.currentPiece.shape gs.currentPiece.x y = .ok true ∨
      isValidMove gs gs.currentPiece.shape gs.currentPiece.x y = .ok false := by
    intro y
    rw [isValidMove_ok gs _ _ _ hrows]
    cases (shapeCells gs.currentPiece.shape).any
      (cellBlocked gs.board gs.currentPiece.x y) <;> simp
  have hd := Nat.find_spec hex
  have hmin : ∀ m, m < Nat.find hex →
      isValidMove gs gs.currentPiece.shape gs.currentPiece.x
        (gs.currentPiece.y + (m : Int) + 1) = .ok true := by
    intro m hm
    rcases hcases (gs.currentPiece.y + (m : Int) + 1) with h | h
    · exact h
    · exact absurd h (Nat.find_min hex hm)
  obtain ⟨d, hdef⟩ : ∃ d, d = Nat.find hex := ⟨_, rfl⟩
  rw [← hdef] at hd hmin
  have hvalidk : ∀ k : Nat, 1 ≤ k → k ≤ d →
      isValidMove gs gs.currentPiece.shape gs.currentPiece.x
        (gs.currentPiece.y + (k : Int)) = .ok true := by
    intro k hk1 hk2
    have := hmin (k - 1) (by omega)
    rw [← this]
    congr 1
    omega
  refine ⟨d, ?_, hvalidk, hd⟩
  intro fuel hfuel
  have := hardDropLoop_spec gs d 0 fuel
    (fun k hk1 hk2 => hvalidk k (by omega) (by omega))
    (by simpa using hd) hfuel
  simpa using this

theorem lockCells_fault (piece : Piece) :
    ∀ (cells : List (Nat × Nat × Val)) (board : Board),
      lockCells piece cells board ≠ .error .outOfFuel := by
  intro cells
  induction cells with
  | nil =>
    intro board h
    cases h
  | cons c rest ih =>
    intro board
    obtain ⟨y, x, v⟩ := c
    unfold lockCells
    split
    · simp only
      split
      · cases hw : boardWrite board (piece.y + (y : Int)) (piece.x + (x : Int))
            (Val.str piece.color) with
        | error e =>
          simp only
          unfold boardWrite at hw
          split at hw
          · cases hw
            intro h
            cases h
          · split at hw
            · cases hw
              intro h
              cases h
            · cases hw
        | ok b =>
          simp only
          exact ih b
      · exact ih board
    · exact ih board

theorem hardDrop_fault (fuel : Nat) (gs : GameState) (d : Nat)
    (h : hardDropLoop gs fuel 0 = .ok d) : hardDrop fuel gs ≠ .error .outOfFuel := by
  unfold hardDrop
  rw [h]
  simp only
  unfold lockPiece
  simp only
  cases hc : lockCells { gs.currentPiece with y := gs.currentPiece.y + (d : Int) }
      (shapeCells gs.currentPiece.shape) gs.board with
  | error e =>
    simp only
    intro h2
    simp only [Except.error.injEq] at h2
    rw [h2] at hc
    exact lockCells_fault _ _ _ hc
  | ok b =>
    simp only
    intro h2
    cases h2

theorem lowestOccupiedRow_occupied (shape : Shape) (low : Nat)
    (h : lowestOccupiedRow shape = some low) :
    ∃ (c : Nat) (row : List Val) (v : Val),
      shape[low]? = some row ∧ row[c]? = some v ∧ v.truthy = true := by
  unfold lowestOccupiedRow at h
  have hmem := List.mem_of_getLast?_eq_some h
  rw [List.mem_map] at hmem
  obtain ⟨p, hp, hlow⟩ := hmem
  rw [List.mem_filter] at hp
  obtain ⟨hp1, hp2⟩ := hp
  obtain ⟨i, row⟩ := p
  simp only at hlow hp2
  subst hlow
  rw [List.mk_mem_enum_iff_getElem?] at hp1
  rw [List.any_eq_true] at hp2
  obtain ⟨v, hv, ht⟩ := hp2
  obtain ⟨c, hc⟩ := List.mem_iff_getElem?.1 hv
  exact ⟨c, row, v, hp1, hc, ht⟩

/-- C28: on every board of 20 rows (hence on every 20x10 board), for every current
piece whose shape has an occupied cell, the descent loop of `hardDrop` terminates:
there is a distance d that the loop returns for every fuel above d, and `hardDrop`
then never runs out of fuel.  For every shape row r with an occupied cell, in
particular the lowest one, d is at most 19 - (piece.y + r) when that quantity is
non-negative and d is 0 otherwise.  Every shape reachable from the 7 tetrominoes by
the server's `rotateMatrix` has an occupied cell, and in every reachable server
state the descent loop of every game state terminates. -/
theorem hardDrop_loop_terminates :
    (∀ gs : GameState, gs.board.length = 20 →
      (∃ (r c : Nat) (row : List Val) (v : Val),
        gs.currentPiece.shape[r]? = some row ∧ row[c]? = some v ∧ v.truthy = true) →
      ∃ d : Nat,
        (∀ fuel, d < fuel →
          hardDropLoop gs fuel 0 = .ok d ∧ hardDrop fuel gs ≠ .error .outOfFuel) ∧
        (∀ (r c : Nat) (row : List Val) (v : Val),
          gs.currentPiece.shape[r]? = some row → row[c]? = some v → v.truthy = true →
          (0 ≤ 19 - (gs.currentPiece.y + (r : Int)) →
            (d : Int) ≤ 19 - (gs.currentPiece.y + (r : Int))) ∧
          (19 - (gs.currentPiece.y + (r : Int)) < 0 → d = 0)) ∧
        (∀ low, lowestOccupiedRow gs.currentPiece.shape = some low →
          (0 ≤ 19 - (gs.currentPiece.y + (low : Int)) →
            (d : Int) ≤ 19 - (gs.currentPiece.y + (low : Int))) ∧
          (19 - (gs.currentPiece.y + (low : Int)) < 0 → d = 0))) ∧
    (∀ s : Shape, ShapeReachable s →
      ∃ (r c : Nat) (row : List Val) (v : Val),
        s[r]? = some row ∧ row[c]? = some v ∧ v.truthy = true) ∧
    (∀ srv : Server, Reachable srv → ∀ ref gs, (srv.heap ref).gameState = some gs →
      ∃ d : Nat, ∀ fuel, d < fuel →
        hardDropLoop gs fuel 0 = .ok d ∧ hardDrop fuel gs ≠ .error .outOfFuel) := by
  have hocc : ∀ s ∈ rotationShapes, ∃ c ∈ shapeCells s, c.2.2.truthy = true := by
    intro s hs
    have := rotationShapes_occupied s hs
    rw [List.any_eq_true] at this
    exact this
  have hmain : ∀ gs : GameState, gs.board.length = 20 →
      (∃ c ∈ shapeCells gs.currentPiece.shape, c.2.2.truthy = true) →
      ∃ d : Nat,
        (∀ fuel, d < fuel →
          hardDropLoop gs fuel 0 = .ok d ∧ hardDrop fuel gs ≠ .error .outOfFuel) ∧
        (∀ (r c : Nat) (row : List Val) (v : Val),
          gs.currentPiece.shape[r]? = some row → row[c]? = some v → v.truthy = true →
          (0 ≤ 19 - (gs.currentPiece.y + (r : Int)) →
            (d : Int) ≤ 19 - (gs.currentPiece.y + (r : Int))) ∧
          (19 - (gs.currentPiece.y + (r : Int)) < 0 → d = 0)) := by
    intro gs hrows hcell
    obtain ⟨d, hloop, hvalid, _⟩ := hardDropLoop_returns gs hrows hcell
    refine ⟨d, fun fuel hf => ⟨hloop fuel hf, hardDrop_fault fuel gs d (hloop fuel hf)⟩, ?_⟩
    intro r c row v hrow hv ht
    have hbound : 1 ≤ d → gs.currentPiece.y + (d : Int) + (r : Int) < 20 := by
      intro hd
      have hg := valid_cells_in_grid gs gs.currentPiece.shape gs.currentPiece.x
        (gs.currentPiece.y + (d : Int)) hrows (hvalid d hd (le_refl d)) (r, c, v)
        ((mem_shapeCells _ r c v).2 ⟨row, hrow, hv⟩) ht
      exact hg.2.2.1
    constructor
    · intro _
      by_cases hd : 1 ≤ d
      · have := hbound hd
        omega
      · omega
    · intro hneg
      by_cases hd : 1 ≤ d
      · have := hbound hd
        omega
      · omega
  refine ⟨?_, ?_, ?_⟩
  · intro gs hrows hcell
    obtain ⟨r, c, row, v, hrow, hv, ht⟩ := hcell
    obtain ⟨d, h1, h2⟩ := hmain gs hrows
      ⟨(r, c, v), (mem_shapeCells _ r c v).2 ⟨row, hrow, hv⟩, ht⟩
    refine ⟨d, h1, h2, ?_⟩
    intro low hlow
    obtain ⟨c1, row1, v1, a, b, e⟩ := lowestOccupiedRow_occupied _ low hlow
    exact h2 low c1 row1 v1 a b e
  · intro s hs
    obtain ⟨⟨r, c, v⟩, hc, ht⟩ := hocc s (shapeReachable_rotationShapes s hs)
    obtain ⟨row, hrow, hv⟩ := (mem_shapeCells _ r c v).1 hc
    exact ⟨r, c, row, v, hrow, hv, ht⟩
  · intro srv hreach ref gs hgs
    have hwf := reachable_wellFormed srv hreach ref gs hgs
    obtain ⟨d, h1, _⟩ := hmain gs hwf.1 (hocc _ hwf.2.2.2.1)
    exact ⟨d, h1⟩

/-- Witness for C28: the I piece at the top of the board with the gapped bottom row
drops 19 rows, the bound 19 - (0 + 0); after the two players have joined, the
server state is reachable and hard drops return. -/
theorem hardDrop_loop_terminates_witness :
    hardDropLoop nineLinesState 30 0 = .ok 19 ∧
    lowestOccupiedRow nineLinesState.currentPiece.shape = some 0 ∧
    lowestOccupiedRow [[.num 0, .num 1, .num 0], [.num 1, .num 1, .num 1]] = some 1 ∧
    (∀ (srv : Server) (emits : List Emit),
      handleEvents 30 (Server.init (fun _ => 1)) twoPlayerSetup = .ok (srv, emits) →
      ∀ ref gs, (srv.heap ref).gameState = some gs →
        ∃ d : Nat, ∀ fuel, d < fuel →
          hardDropLoop gs fuel 0 = .ok d ∧ hardDrop fuel gs ≠ .error .outOfFuel) :=
  ⟨by decide, by decide, by decide, fun srv emits hrun =>
    hardDrop_loop_terminates.2.2 srv
      (reachable_handleEvents 30 _ _ srv emits (Reachable.init _) hrun)⟩

/-! ## The client's rotation -/

theorem cellAt_range_map (r c : Nat) (f : Nat → Nat → Val) (i j : Nat) (hi : i < r)
    (hj : j < c) :
    cellAt ((List.range r).map (fun i => (List.range c).map (fun j => f i j))) i j = f i j := by
  simp [cellAt, List.getD_eq_getElem?_getD, List.getElem?_range, hi, hj]

theorem rect_eq_range_map (m : Shape) (r c : Nat) (hr : m.length = r)
    (hc : ∀ row ∈ m, row.length = c) :
    m = (List.range r).map (fun i => (List.range c).map (fun j => cellAt m i j)) := by
  apply List.ext_getElem?
  intro i
  by_cases hi : i < r
  · have hi2 : i < m.length := by rw [hr]; exact hi
    have hrow : (m[i]).length = c := hc _ (List.getElem_mem _)
    rw [List.getElem?_eq_getElem hi2]
    simp only [List.getElem?_map, List.getElem?_range hi, Option.map_some']
    congr 1
    apply List.ext_getElem?
    intro j
    by_cases hj : j < c
    · have hj2 : j < (m[i]).length := by rw [hrow]; exact hj
      simp [cellAt, List.getD_eq_getElem?_getD, List.getElem?_range hj,
        List.getElem?_eq_getElem hi2, List.getElem?_eq_getElem hj2]
    · have h1 : (m[i])[j]? = none := by
        rw [List.getElem?_eq_none_iff]
        omega
      rw [h1]
      have h2 : (List.range c)[j]? = none := by
        rw [List.getElem?_eq_none_iff, List.length_range]
        omega
      simp [h2]
  · have h1 : m[i]? = none := by
      rw [List.getElem?_eq_none_iff]
      omega
    rw [h1]
    have h2 : (List.range r)[i]? = none := by
      rw [List.getElem?_eq_none_iff, List.length_range]
      omega
    simp [h2]

theorem countP_range_map (c : Nat) (g : Nat → Val) :
    ((List.range c).map g).countP Val.truthy =
      ∑ j ∈ Finset.range c, if (g j).truthy then 1 else 0 := by
  induction c with
  | zero => rfl
  | succ n ih =>
    rw [List.range_succ, List.map_append, List.countP_append, ih, Finset.sum_range_succ]
    simp [List.countP_cons]

theorem occupiedCount_eq_sum (s : Shape) :
    occupiedCount s = (s.map (fun row => row.countP Val.truthy)).sum := by
  unfold occupiedCount shapeCells
  rw [List.countP_flatMap]
  have h : (List.countP (fun c : Nat × Nat × Val => c.2.2.truthy) ∘
      fun r : Nat × List Val => List.map (fun c => (r.1, c.1, c.2)) r.2.enum) =
      (fun row : List Val => row.countP Val.truthy) ∘ Prod.snd := by
    funext r
    simp only [Function.comp, List.countP_map]
    have : ((fun c : Nat × Nat × Val => c.2.2.truthy) ∘ fun c : Nat × Val => (r.1, c.1, c.2)) =
        Val.truthy ∘ Prod.snd := by
      funext c
      rfl
    rw [this, ← List.countP_map, List.enum_map_snd]
  rw [h, ← List.map_map, List.enum_map_snd]

theorem occupiedCount_range_map (r c : Nat) (f : Nat → Nat → Val) :
    occupiedCount ((List.range r).map (fun i => (List.range c).map (fun j => f i j))) =
      ∑ i ∈ Finset.range r, ∑ j ∈ Finset.range c, if (f i j).truthy then 1 else 0 := by
  rw [occupiedCount_eq_sum, List.map_map]
  induction r with
  | zero => rfl
  | succ n ih =>
    rw [List.range_succ, List.map_append, List.sum_append, ih, Finset.sum_range_succ]
    simp only [List.map_cons, List.map_nil, List.sum_cons, List.sum_nil, add_zero,
      Function.comp]
    rw [countP_range_map]

theorem cellAt_rotatedCells (rows cols : Nat) (m : Shape) (j k : Nat) (hj : j < cols)
    (hk : k < rows) : cellAt (rotatedCells rows cols m) j k = cellAt m (rows - 1 - k) j :=
  cellAt_range_map cols rows (fun j k => cellAt m (rows - 1 - k) j) j k hj hk

theorem rotatedCells_length (rows cols : Nat) (m : Shape) :
    (rotatedCells rows cols m).length = cols ∧
    ∀ row ∈ rotatedCells rows cols m, row.length = rows := by
  unfold rotatedCells
  constructor
  · simp
  · intro row hrow
    rw [List.mem_map] at hrow
    obtain ⟨j, _, hj⟩ := hrow
    rw [← hj]
    simp

theorem rotatedCells_occupiedCount (m : Shape) (r c : Nat) (hr : m.length = r)
    (hc : ∀ row ∈ m, row.length = c) :
    occupiedCount (rotatedCells r c m) = occupiedCount m := by
  have hm : occupiedCount m =
      ∑ i ∈ Finset.range r, ∑ j ∈ Finset.range c, if (cellAt m i j).truthy then 1 else 0 := by
    conv_lhs => rw [rect_eq_range_map m r c hr hc]
    exact occupiedCount_range_map r c (fun i j => cellAt m i j)
  rw [hm]
  unfold rotatedCells
  rw [occupiedCount_range_map c r (fun j k => cellAt m (r - 1 - k) j)]
  have h1 : ∀ j ∈ Finset.range c,
      (∑ k ∈ Finset.range r, if (cellAt m (r - 1 - k) j).truthy then 1 else 0) =
        ∑ i ∈ Finset.range r, if (cellAt m i j).truthy then 1 else 0 :=
    fun j _ => Finset.sum_range_reflect (fun i => if (cellAt m i j).truthy then 1 else 0) r
  rw [Finset.sum_congr rfl h1]
  exact Finset.sum_comm

theorem rect_ext (m1 m2 : Shape) (r c : Nat) (hr1 : m1.length = r)
    (hc1 : ∀ row ∈ m1, row.length = c) (hr2 : m2.length = r)
    (hc2 : ∀ row ∈ m2, row.length = c)
    (hcells : ∀ i j, i < r → j < c → cellAt m1 i j = cellAt m2 i j) : m1 = m2 := by
  rw [rect_eq_range_map m1 r c hr1 hc1, rect_eq_range_map m2 r c hr2 hc2]
  apply List.map_congr_left
  intro a ha
  apply List.map_congr_left
  intro b hb
  rw [List.mem_range] at ha hb
  exact hcells a b ha hb

theorem rotatedCells_four (m : Shape) (r c : Nat) (hr : m.length = r)
    (hc : ∀ row ∈ m, row.length = c) :
    rotatedCells c r (rotatedCells r c (rotatedCells c r (rotatedCells r c m))) = m := by
  apply rect_ext _ m r c (rotatedCells_length c r _).1 (rotatedCells_length c r _).2 hr hc
  intro a b ha hb
  rw [cellAt_rotatedCells c r _ a b ha hb,
    cellAt_rotatedCells r c _ (c - 1 - b) a (by omega) ha,
    cellAt_rotatedCells c r _ (r - 1 - a) (c - 1 - b) (by omega) (by omega),
    cellAt_rotatedCells r c m (c - 1 - (c - 1 - b)) (r - 1 - a) (by omega) (by omega)]
  congr 1 <;> omega

theorem client_rotateMatrix_rect (m : Shape) (r c : Nat) (hr : m.length = r)
    (hc : ∀ row ∈ m, row.length = c) (hrpos : 0 < r) :
    TetrisGame.rotateMatrix m = .ok (rotatedCells r c m) := by
  cases m with
  | nil =>
    simp only [List.length_nil] at hr
    omega
  | cons row0 rest =>
    have h0 : row0.length = c := hc row0 (List.mem_cons_self _ _)
    simp only [TetrisGame.rotateMatrix, hr, h0]

/-- C29: for every rectangular matrix m with r >= 1 rows and c >= 1 columns, the
client's `rotateMatrix` (the same function in `TetrisGame` and in
`SinglePlayerGame`) returns a matrix with c rows of r cells each, whose cell (j, k)
is `m[r - 1 - k][j]` and which has as many occupied cells as m; applying the
function four times returns m. -/
theorem client_rotateMatrix_spec (m : Shape) (r c : Nat) (hr : m.length = r)
    (hc : ∀ row ∈ m, row.length = c) (hrpos : 0 < r) (hcpos : 0 < c) :
    SinglePlayerGame.rotateMatrix m = TetrisGame.rotateMatrix m ∧
    ∃ m1, TetrisGame.rotateMatrix m = .ok m1 ∧
      m1.length = c ∧ (∀ row ∈ m1, row.length = r) ∧
      (∀ j k, j < c → k < r → cellAt m1 j k = cellAt m (r - 1 - k) j) ∧
      occupiedCount m1 = occupiedCount m ∧
      (TetrisGame.rotateMatrix m).bind (fun a =>
        (TetrisGame.rotateMatrix a).bind (fun b =>
          (TetrisGame.rotateMatrix b).bind TetrisGame.rotateMatrix)) = .ok m ∧
      (SinglePlayerGame.rotateMatrix m).bind (fun a =>
        (SinglePlayerGame.rotateMatrix a).bind (fun b =>
          (SinglePlayerGame.rotateMatrix b).bind SinglePlayerGame.rotateMatrix)) = .ok m := by
  have hsame : ∀ x : Shape, SinglePlayerGame.rotateMatrix x = TetrisGame.rotateMatrix x :=
    fun _ => rfl
  have h1 := client_rotateMatrix_rect m r c hr hc hrpos
  have h2 := client_rotateMatrix_rect (rotatedCells r c m) c r (rotatedCells_length r c m).1
    (rotatedCells_length r c m).2 hcpos
  have h3 := client_rotateMatrix_rect (rotatedCells c r (rotatedCells r c m)) r c
    (rotatedCells_length c r _).1 (rotatedCells_length c r _).2 hrpos
  have h4 := client_rotateMatrix_rect
    (rotatedCells r c (rotatedCells c r (rotatedCells r c m))) c r
    (rotatedCells_length r c _).1 (rotatedCells_length r c _).2 hcpos
  have hfour : (TetrisGame.rotateMatrix m).bind (fun a =>
      (TetrisGame.rotateMatrix a).bind (fun b =>
        (TetrisGame.rotateMatrix b).bind TetrisGame.rotateMatrix)) = .ok m := by
    rw [h1]
    simp only [Except.bind]
    rw [h2]
    simp only []
    rw [h3]
    simp only []
    rw [h4, rotatedCells_four m r c hr hc]
  refine ⟨hsame m, rotatedCells r c m, h1, (rotatedCells_length r c m).1,
    (rotatedCells_length r c m).2, fun j k hj hk => cellAt_rotatedCells r c m j k hj hk,
    rotatedCells_occupiedCount m r c hr hc, hfour, ?_⟩
  simp only [hsame]
  exact hfour

/-- Witness for C29: the T shape, with 2 rows and 3 columns, becomes a matrix with 3
rows and 2 columns. -/
theorem client_rotateMatrix_spec_witness :
    (TetrisGame.rotateMatrix [[.num 0, .num 1, .num 0], [.num 1, .num 1, .num 1]] =
        .ok [[.num 1, .num 0], [.num 1, .num 1], [.num 1, .num 0]]) ∧
    (SinglePlayerGame.rotateMatrix [[.num 0, .num 1, .num 0], [.num 1, .num 1, .num 1]] =
        TetrisGame.rotateMatrix [[.num 0, .num 1, .num 0], [.num 1, .num 1, .num 1]] ∧
      ∃ m1, TetrisGame.rotateMatrix [[.num 0, .num 1, .num 0], [.num 1, .num 1, .num 1]] =
          .ok m1 ∧
        m1.length = 3 ∧ (∀ row ∈ m1, row.length = 2) ∧
        (∀ j k, j < 3 → k < 2 →
          cellAt m1 j k =
            cellAt [[.num 0, .num 1, .num 0], [.num 1, .num 1, .num 1]] (2 - 1 - k) j) ∧
        occupiedCount m1 =
          occupiedCount [[.num 0, .num 1, .num 0], [.num 1, .num 1, .num 1]] ∧
        (TetrisGame.rotateMatrix [[.num 0, .num 1, .num 0], [.num 1, .num 1, .num 1]]).bind
          (fun a => (TetrisGame.rotateMatrix a).bind (fun b =>
            (TetrisGame.rotateMatrix b).bind TetrisGame.rotateMatrix)) =
          .ok [[.num 0, .num 1, .num 0], [.num 1, .num 1, .num 1]] ∧
        (SinglePlayerGame.rotateMatrix
            [[.num 0, .num 1, .num 0], [.num 1, .num 1, .num 1]]).bind
          (fun a => (SinglePlayerGame.rotateMatrix a).bind (fun b =>
            (SinglePlayerGame.rotateMatrix b).bind SinglePlayerGame.rotateMatrix)) =
          .ok [[.num 0, .num 1, .num 0], [.num 1, .num 1, .num 1]]) :=
  ⟨by decide,
    client_rotateMatrix_spec [[.num 0, .num 1, .num 0], [.num 1, .num 1, .num 1]] 2 3
      (by decide) (by decide) (by decide) (by decide)⟩

/-! ## The win check and the room's mode -/

/-- C24 (as stated): two players join a classic room of capacity 2 and the game
starts; player a stacks ten O pieces and tops out.  The room, still in classic
mode, moves to finished, a gets a loss and b a win. -/
theorem classic_room_finishes_on_top_out :
    outcomeAfter 30 (Server.init (fun _ => 1)) (classicSetup ++ hardDrops 9) "r" =
      some (.playing, [("a", true, 0, 0), ("b", true, 0, 0)]) ∧
    modeAfter 30 (Server.init (fun _ => 1)) (classicSetup ++ hardDrops 10) "r" =
      some "classic" ∧
    outcomeAfter 30 (Server.init (fun _ => 1)) (classicSetup ++ hardDrops 10) "r" =
      some (.finished, [("a", false, 0, 1), ("b", true, 1, 0)]) :=
  ⟨by decide, by decide, by decide⟩

theorem handleGameOver_outcome (heap : Heap) (room : GameRoom) (player : Ref) (gs : GameState)
    (hgs : (heap player).gameState = some gs)
    (hstates : ∀ m ∈ room.players, ((heap m.2).gameState).isSome = true)
    (hids : ∀ m ∈ room.players, (heap m.2).id = m.1)
    (hkeys : (room.players.map Prod.fst).Nodup) :
    ∃ heap1 heap2 room2 emits,
      heap1 = setObj heap player
        { heap player with gameState := some { gs with isAlive := false, gameOver := true } } ∧
      handleGameOver heap room player = .ok (heap2, room2, emits) ∧
      (heap2 player).alive = false ∧
      ((room.players.filter (fun m => (heap1 m.2).alive)).length ≤ 1 →
        room2.gameState = RoomStatus.finished ∧
        emits = [Emit.gameOver room.id
          ((room.players.filter (fun m => (heap1 m.2).alive)).head?.map Prod.fst)] ∧
        ∀ m ∈ room.players,
          ((heap1 m.2).alive = true →
            (heap2 m.2).wins = (heap m.2).wins + 1 ∧ (heap2 m.2).losses = (heap m.2).losses) ∧
          ((heap1 m.2).alive = false →
            (heap2 m.2).losses = (heap m.2).losses + 1 ∧ (heap2 m.2).wins = (heap m.2).wins)) ∧
      (2 ≤ (room.players.filter (fun m => (heap1 m.2).alive)).length →
        room2 = room ∧ emits = [] ∧
        ∀ r, (heap2 r).wins = (heap r).wins ∧ (heap2 r).losses = (heap r).losses) := by
  have hrefs : (room.players.map Prod.snd).Nodup := by
    refine List.Nodup.map_on ?_ (List.Nodup.of_map _ hkeys)
    intro a ha b hb hab
    have h1 : a.1 = b.1 := by rw [← hids a ha, ← hids b hb, hab]
    exact Prod.ext h1 hab
  have hinj : ∀ a ∈ room.players, ∀ b ∈ room.players, a.1 = b.1 → a = b :=
    List.inj_on_of_nodup_map hkeys
  obtain ⟨heap1, hheap1⟩ : ∃ heap1 : Heap, heap1 = setObj heap player
      { heap player with gameState := some { gs with isAlive := false, gameOver := true } } :=
    ⟨_, rfl⟩
  have hid1 : ∀ r, (heap1 r).id = (heap r).id := by
    intro r
    rw [hheap1]
    by_cases hr : r = player <;> simp [setObj, hr]
  have hwl1 : ∀ r, (heap1 r).wins = (heap r).wins ∧ (heap1 r).losses = (heap r).losses := by
    intro r
    rw [hheap1]
    by_cases hr : r = player <;> simp [setObj, hr]
  have hdead : (heap1 player).alive = false := by
    rw [hheap1]
    simp [setObj, Player.alive]
  have hsome1 : ∀ m ∈ room.players, ((heap1 m.2).gameState).isNone = false := by
    intro m hm
    rw [hheap1]
    by_cases hr : m.2 = player
    · simp [setObj, hr]
    · have := hstates m hm
      simp only [setObj, hr, if_false]
      cases hg : (heap m.2).gameState with
      | none => simp [hg] at this
      | some s => rfl
  have hany : room.players.any (fun m => ((heap1 m.2).gameState).isNone) = false := by
    rw [List.any_eq_false]
    intro m hm
    simp [hsome1 m hm]
  have hrun : handleGameOver heap room player =
      if (room.players.filter (fun m => (heap1 m.2).alive)).length ≤ 1 then
        .ok (updateStats
            ((if (room.players.filter (fun m => (heap1 m.2).alive)).length = 1 then
                (room.players.filter (fun m => (heap1 m.2).alive)).head?.map Prod.snd
              else none).map (fun w => (heap1 w).id))
            room.players heap1,
          { room with gameState := RoomStatus.finished },
          [Emit.gameOver room.id
            ((if (room.players.filter (fun m => (heap1 m.2).alive)).length = 1 then
                (room.players.filter (fun m => (heap1 m.2).alive)).head?.map Prod.snd
              else none).map (fun w => (heap1 w).id))])
      else .ok (heap1, room, []) := by
    simp only [handleGameOver, hgs]
    rw [← hheap1, hany]
    simp
  obtain ⟨alive, halive⟩ : ∃ alive, alive = room.players.filter (fun m => (heap1 m.2).alive) :=
    ⟨_, rfl⟩
  rw [← halive] at hrun
  have hmemAlive : ∀ m, m ∈ alive ↔ m ∈ room.players ∧ (heap1 m.2).alive = true := by
    intro m
    rw [halive, List.mem_filter]
  by_cases hle : alive.length ≤ 1
  · rw [if_pos hle] at hrun
    have hcases : alive = [] ∨ ∃ w, alive = [w] := by
      match alive, hle with
      | [], _ => exact Or.inl rfl
      | [w], _ => exact Or.inr ⟨w, rfl⟩
      | _ :: _ :: _, h => simp at h
    have hwinner : (if alive.length = 1 then alive.head?.map Prod.snd else none).map
        (fun w => (heap1 w).id) = alive.head?.map Prod.fst := by
      rcases hcases with h0 | ⟨w, hw1⟩
      · rw [h0]
        simp
      · have hw : w ∈ room.players := ((hmemAlive w).1 (by rw [hw1]; simp)).1
        rw [hw1]
        simp [hid1, hids w hw]
    rw [hwinner] at hrun
    refine ⟨heap1, _, _, _, hheap1, hrun, ?_, ?_, ?_⟩
    · have := (updateStats_spec (alive.head?.map Prod.fst) room.players heap1 hrefs player).2.1
      simp only [Player.alive] at hdead ⊢
      rw [this]
      exact hdead
    · rw [← halive]
      intro _
      refine ⟨rfl, rfl, ?_⟩
      intro m hm
      obtain ⟨_, _, u3, _⟩ :=
        updateStats_spec (alive.head?.map Prod.fst) room.players heap1 hrefs m.2
      obtain ⟨uw, ul⟩ := u3 (List.mem_map_of_mem _ hm)
      rw [hid1, hids m hm] at uw ul
      rw [(hwl1 m.2).1, (hwl1 m.2).2] at uw ul
      constructor
      · intro hal
        have hin : m ∈ alive := (hmemAlive m).2 ⟨hm, hal⟩
        apply uw
        rcases hcases with h0 | ⟨w, hw1⟩
        · rw [h0] at hin
          simp at hin
        · rw [hw1] at hin ⊢
          simp only [List.mem_singleton] at hin
          simp [hin]
      · intro hal
        apply ul
        intro heq
        rcases hcases with h0 | ⟨w, hw1⟩
        · rw [h0] at heq
          simp at heq
        · have hw := (hmemAlive w).1 (by rw [hw1]; simp)
          rw [hw1] at heq
          simp only [List.head?_cons, Option.map_some', Option.some.injEq] at heq
          have : m = w := hinj m hm w hw.1 heq
          rw [this, hw.2] at hal
          cases hal
    · rw [← halive]
      intro h2
      omega
  · rw [if_neg hle] at hrun
    refine ⟨heap1, _, _, _, hheap1, hrun, hdead, ?_, ?_⟩
    · rw [← halive]
      intro h
      exact absurd h hle
    · intro _
      exact ⟨rfl, rfl, hwl1⟩

theorem handleGameOver_mode (heap : Heap) (room : GameRoom) (player : Ref) (mode : String) :
    handleGameOver heap { room with gameMode := mode } player =
      (handleGameOver heap room player).map
        (fun r => (r.1, { r.2.1 with gameMode := mode }, r.2.2)) := by
  unfold handleGameOver
  cases (heap player).gameState with
  | none => rfl
  | some gs =>
    simp only
    split
    · rfl
    · split <;> rfl

/-- C24 (amended): the win check does not read the room's mode: in a room of any
mode (classic and tournament included) whose members all have a game state and
are stored under their own ids, `handleGameOver` for a member that tops out
returns the same store and the same messages as in the room with any other mode,
and the same room up to the mode.  When two or more members are still alive
afterwards, the room and every win and loss counter are unchanged and nothing is
emitted; when at most one member is still alive, the room becomes finished,
`game:over` names the sole alive member (or nobody), that member gains one win and
every other member one loss. -/
theorem top_out_outcome_ignores_mode (heap : Heap) (room : GameRoom) (player : Ref)
    (gs : GameState)
    (hgs : (heap player).gameState = some gs)
    (hstates : ∀ m ∈ room.players, ((heap m.2).gameState).isSome = true)
    (hids : ∀ m ∈ room.players, (heap m.2).id = m.1)
    (hkeys : (room.players.map Prod.fst).Nodup) :
    (∀ mode : String,
      handleGameOver heap { room with gameMode := mode } player =
        (handleGameOver heap room player).map
          (fun r => (r.1, { r.2.1 with gameMode := mode }, r.2.2))) ∧
    ∃ heap1 heap2 room2 emits,
      heap1 = setObj heap player
        { heap player with gameState := some { gs with isAlive := false, gameOver := true } } ∧
      handleGameOver heap room player = .ok (heap2, room2, emits) ∧
      (heap2 player).alive = false ∧
      ((room.players.filter (fun m => (heap1 m.2).alive)).length ≤ 1 →
        room2.gameState = RoomStatus.finished ∧
        emits = [Emit.gameOver room.id
          ((room.players.filter (fun m => (heap1 m.2).alive)).head?.map Prod.fst)] ∧
        ∀ m ∈ room.players,
          ((heap1 m.2).alive = true →
            (heap2 m.2).wins = (heap m.2).wins + 1 ∧ (heap2 m.2).losses = (heap m.2).losses) ∧
          ((heap1 m.2).alive = false →
            (heap2 m.2).losses = (heap m.2).losses + 1 ∧ (heap2 m.2).wins = (heap m.2).wins)) ∧
      (2 ≤ (room.players.filter (fun m => (heap1 m.2).alive)).length →
        room2 = room ∧ emits = [] ∧
        ∀ r, (heap2 r).wins = (heap r).wins ∧ (heap2 r).losses = (heap r).losses) :=
  ⟨fun mode => handleGameOver_mode heap room player mode,
    handleGameOver_outcome heap room player gs hgs hstates hids hkeys⟩

/-- Witness for C24 (amended): in the classic two-player room, a (reference 0) tops
out while b is alive: the room becomes finished and b is named the winner. -/
theorem top_out_outcome_ignores_mode_witness :
    (classicRoom.gameMode = "classic" ∧ classicRoom.gameState = RoomStatus.playing ∧
      (duelHeap 0).gameState = some twoRowGapState ∧
      (∀ m ∈ classicRoom.players, ((duelHeap m.2).gameState).isSome = true) ∧
      (∀ m ∈ classicRoom.players, (duelHeap m.2).id = m.1) ∧
      (classicRoom.players.map Prod.fst).Nodup ∧
      (handleGameOver duelHeap classicRoom 0).map
          (fun r => (r.2.1.gameState, r.2.1.gameMode, r.2.2)) =
        .ok (RoomStatus.finished, "classic", [Emit.gameOver "r" (some "b")])) ∧
    ((∀ mode : String,
      handleGameOver duelHeap { classicRoom with gameMode := mode } 0 =
        (handleGameOver duelHeap classicRoom 0).map
          (fun r => (r.1, { r.2.1 with gameMode := mode }, r.2.2))) ∧
    ∃ heap1 heap2 room2 emits,
      heap1 = setObj duelHeap 0
        { duelHeap 0 with gameState := some { twoRowGapState with isAlive := false, gameOver := true } } ∧
      handleGameOver duelHeap classicRoom 0 = .ok (heap2, room2, emits) ∧
      (heap2 0).alive = false ∧
      ((classicRoom.players.filter (fun m => (heap1 m.2).alive)).length ≤ 1 →
        room2.gameState = RoomStatus.finished ∧
        emits = [Emit.gameOver classicRoom.id
          ((classicRoom.players.filter (fun m => (heap1 m.2).alive)).head?.map Prod.fst)] ∧
        ∀ m ∈ classicRoom.players,
          ((heap1 m.2).alive = true →
            (heap2 m.2).wins = (duelHeap m.2).wins + 1 ∧ (heap2 m.2).losses = (duelHeap m.2).losses) ∧
          ((heap1 m.2).alive = false →
            (heap2 m.2).losses = (duelHeap m.2).losses + 1 ∧ (heap2 m.2).wins = (duelHeap m.2).wins)) ∧
      (2 ≤ (classicRoom.players.filter (fun m => (heap1 m.2).alive)).length →
        room2 = classicRoom ∧ emits = [] ∧
        ∀ r, (heap2 r).wins = (duelHeap r).wins ∧ (heap2 r).losses = (duelHeap r).losses)) :=
  ⟨⟨by decide, by decide, by decide, by decide, by decide, by decide, by decide⟩,
    top_out_outcome_ignores_mode duelHeap classicRoom 0 twoRowGapState (by decide) (by decide)
      (by decide) (by decide)⟩

/-! ## Disconnection -/

theorem lookup_mapDelete_self {α : Type} (k : String) :
    ∀ (m : List (String × α)), (mapDelete m k).lookup k = none
  | [] => rfl
  | (k1, v1) :: rest => by
    unfold mapDelete
    rw [List.filter_cons]
    by_cases hk : k1 = k
    · simp only [hk, ne_eq, not_true_eq_false, decide_False, Bool.false_eq_true, if_false]
      exact lookup_mapDelete_self k rest
    · simp only [ne_eq, hk, not_false_eq_true, decide_True, if_true]
      rw [lookup_cons_other k1 k v1 _ (fun h => hk h.symm)]
      exact lookup_mapDelete_self k rest

theorem lookup_mapDelete_other {α : Type} (k k2 : String) (hne : k2 ≠ k) :
    ∀ (m : List (String × α)), (mapDelete m k).lookup k2 = m.lookup k2
  | [] => rfl
  | (k1, v1) :: rest => by
    unfold mapDelete
    rw [List.filter_cons]
    by_cases hk : k1 = k
    · simp only [hk, ne_eq, not_true_eq_false, decide_False, Bool.false_eq_true, if_false]
      rw [lookup_cons_other k k2 v1 rest hne]
      exact lookup_mapDelete_other k k2 hne rest
    · simp only [ne_eq, hk, not_false_eq_true, decide_True, if_true]
      by_cases h2 : k2 = k1
      · rw [h2, lookup_cons_self, lookup_cons_self]
      · rw [lookup_cons_other k1 k2 v1 _ h2, lookup_cons_other k1 k2 v1 _ h2]
        exact lookup_mapDelete_other k k2 hne rest

theorem lookup_mapReplace_other {α : Type} (m : List (String × α)) (k k2 : String) (v : α)
    (hne : k2 ≠ k) : (mapReplace m k v).lookup k2 = m.lookup k2 :=
  lookup_map_replace_other (fun _ => v) k k2 hne m

theorem lookup_mapReplace_absent {α : Type} (k : String) (v : α) :
    ∀ (m : List (String × α)), m.lookup k = none → (mapReplace m k v).lookup k = none
  | [], _ => rfl
  | (k1, v1) :: rest, h => by
    have hk : k ≠ k1 := by
      intro hk
      rw [hk, lookup_cons_self] at h
      cases h
    rw [lookup_cons_other k1 k v1 rest hk] at h
    unfold mapReplace
    rw [List.map_cons]
    have hk2 : ¬ k1 = k := fun h2 => hk h2.symm
    simp only [hk2, if_false]
    rw [lookup_cons_other k1 k v1 _ hk]
    exact lookup_mapReplace_absent k v rest h

theorem onDisconnect_member (srv : Server) (socket : SocketId) (player : Ref) (rid : RoomId)
    (room : GameRoom)
    (hplayer : srv.players.lookup socket = some player)
    (hrid : (srv.heap player).roomId = some rid) (htruthy : strTruthy rid = true)
    (hroom : srv.gameRooms.lookup rid = some room) (hid : room.id = rid) :
    onDisconnect srv socket =
      ({ srv with
          gameRooms := mapReplace
            (if (mapDelete room.players socket).length = 0 then mapDelete srv.gameRooms rid
              else srv.gameRooms) rid
            { room with players := mapDelete room.players socket }
          players := mapDelete srv.players socket },
        [Emit.playerLeft rid socket]) := by
  unfold onDisconnect
  simp only [hplayer, hrid, htruthy, if_true, hroom, GameRoom.removePlayer, hid]
  by_cases h0 : (mapDelete room.players socket).length = 0
  · simp only [h0, if_true]
  · simp only [h0, if_false]

/-- C25 (as stated): in the started two-player battle room, player b disconnects.
Player a is the only member left, alive, but the room stays playing, a has no win,
and no `game:over` is emitted: the only message is `player:left`. -/
theorem disconnect_leaves_room_playing :
    outcomeAfter 30 (Server.init (fun _ => 0)) twoPlayerSetup "r" =
      some (.playing, [("a", true, 0, 0), ("b", true, 0, 0)]) ∧
    outcomeAfter 30 (Server.init (fun _ => 0)) (twoPlayerSetup ++ [.disconnect "b"]) "r" =
      some (.playing, [("a", true, 0, 0)]) ∧
    (emitsAfter 30 (Server.init (fun _ => 0)) (twoPlayerSetup ++ [.disconnect "b"])).drop
        (emitsAfter 30 (Server.init (fun _ => 0)) twoPlayerSetup).length =
      [Emit.playerLeft "r" "b"] :=
  ⟨by decide, by decide, by decide⟩

/-- C25 (amended): when a member of a room disconnects, the server removes the
member from the room (a room left without member is deleted from the registry),
removes the player from the registry and emits `player:left`, and nothing else: the
win-condition check is not run.  The object store, hence every win and loss counter
and every alive flag, is unchanged, no `game:over` is emitted, and every room that
is still registered has the status it had before, so a playing room stays playing
whatever number of members is still alive. -/
theorem disconnect_removes_member_only (srv : Server) (socket : SocketId) (player : Ref)
    (rid : RoomId) (room : GameRoom)
    (hplayer : srv.players.lookup socket = some player)
    (hrid : (srv.heap player).roomId = some rid) (htruthy : strTruthy rid = true)
    (hroom : srv.gameRooms.lookup rid = some room) (hid : room.id = rid) :
    (onDisconnect srv socket).1.heap = srv.heap ∧
    (onDisconnect srv socket).1.rng = srv.rng ∧
    (onDisconnect srv socket).1.players = mapDelete srv.players socket ∧
    (onDisconnect srv socket).2 = [Emit.playerLeft rid socket] ∧
    ((mapDelete room.players socket).length ≠ 0 →
      (onDisconnect srv socket).1.gameRooms.lookup rid =
        some { room with players := mapDelete room.players socket }) ∧
    ((mapDelete room.players socket).length = 0 →
      (onDisconnect srv socket).1.gameRooms.lookup rid = none) ∧
    (mapDelete room.players socket).lookup socket = none ∧
    (∀ k, k ≠ socket → (mapDelete room.players socket).lookup k = room.players.lookup k) ∧
    (∀ rid2 room2, (onDisconnect srv socket).1.gameRooms.lookup rid2 = some room2 →
      ∃ room0, srv.gameRooms.lookup rid2 = some room0 ∧ room2.gameState = room0.gameState ∧
        room2.gameMode = room0.gameMode) := by
  rw [onDisconnect_member srv socket player rid room hplayer hrid htruthy hroom hid]
  have hkeep : (mapDelete room.players socket).length ≠ 0 →
      (mapReplace
        (if (mapDelete room.players socket).length = 0 then mapDelete srv.gameRooms rid
          else srv.gameRooms) rid
        { room with players := mapDelete room.players socket }).lookup rid =
      some { room with players := mapDelete room.players socket } := by
    intro h0
    rw [if_neg h0]
    exact lookup_mapReplace_self _ _ _ (by rw [hroom]; rfl)
  have hgone : (mapDelete room.players socket).length = 0 →
      (mapReplace
        (if (mapDelete room.players socket).length = 0 then mapDelete srv.gameRooms rid
          else srv.gameRooms) rid
        { room with players := mapDelete room.players socket }).lookup rid = none := by
    intro h0
    rw [if_pos h0]
    exact lookup_mapReplace_absent _ _ _ (lookup_mapDelete_self rid srv.gameRooms)
  refine ⟨rfl, rfl, rfl, rfl, hkeep, hgone, lookup_mapDelete_self socket room.players,
    fun k hk => lookup_mapDelete_other socket k hk room.players, ?_⟩
  intro rid2 room2 h2
  simp only at h2
  by_cases hr : rid2 = rid
  · subst hr
    by_cases h0 : (mapDelete room.players socket).length = 0
    · rw [hgone h0] at h2
      cases h2
    · rw [hkeep h0] at h2
      simp only [Option.some.injEq] at h2
      exact ⟨room, hroom, by rw [← h2], by rw [← h2]⟩
  · rw [lookup_mapReplace_other _ _ _ _ hr] at h2
    split at h2
    · rw [lookup_mapDelete_other rid rid2 hr] at h2
      exact ⟨room2, h2, rfl, rfl⟩
    · exact ⟨room2, h2, rfl, rfl⟩

/-- Witness for C25 (amended): player b leaves the playing two-player room; the room
keeps its status with a as its only member. -/
theorem disconnect_removes_member_only_witness :
    (duelServer.players.lookup "b" = some 1 ∧ (duelServer.heap 1).roomId = some "r" ∧
      strTruthy "r" = true ∧ duelServer.gameRooms.lookup "r" = some duelRoom ∧
      duelRoom.id = "r" ∧ duelRoom.gameState = RoomStatus.playing ∧
      ((onDisconnect duelServer "b").1.gameRooms.lookup "r").map
          (fun room => (room.gameState, room.players)) =
        some (RoomStatus.playing, [("a", 0)])) ∧
    ((onDisconnect duelServer "b").1.heap = duelServer.heap ∧
    (onDisconnect duelServer "b").1.rng = duelServer.rng ∧
    (onDisconnect duelServer "b").1.players = mapDelete duelServer.players "b" ∧
    (onDisconnect duelServer "b").2 = [Emit.playerLeft "r" "b"] ∧
    ((mapDelete duelRoom.players "b").length ≠ 0 →
      (onDisconnect duelServer "b").1.gameRooms.lookup "r" =
        some { duelRoom with players := mapDelete duelRoom.players "b" }) ∧
    ((mapDelete duelRoom.players "b").length = 0 →
      (onDisconnect duelServer "b").1.gameRooms.lookup "r" = none) ∧
    (mapDelete duelRoom.players "b").lookup "b" = none ∧
    (∀ k, k ≠ "b" → (mapDelete duelRoom.players "b").lookup k = duelRoom.players.lookup k) ∧
    (∀ rid2 room2, (onDisconnect duelServer "b").1.gameRooms.lookup rid2 = some room2 →
      ∃ room0, duelServer.gameRooms.lookup rid2 = some room0 ∧ room2.gameState = room0.gameState ∧
        room2.gameMode = room0.gameMode)) :=
  ⟨⟨by decide, by decide, by decide, by decide, by decide, by decide, by decide⟩,
    disconnect_removes_member_only duelServer "b" 1 "r" duelRoom (by decide) (by decide)
      (by decide) (by decide) (by decide)⟩

/-! ## Actions of a member that is not alive -/

/-- C30 (as stated): three players join a room of capacity 3; player a stacks ten O
pieces and tops out, so a is marked not alive while b and c are alive and the room
stays playing.  One more hard drop of a locks the T piece at the top of a's board:
row 1 of the board changes. -/
theorem dead_member_hard_drop_changes_board :
    outcomeAfter 30 (Server.init drawsSquaresThenT) (threePlayerSetup ++ hardDrops 10) "r" =
      some (.playing, [("a", false, 0, 0), ("b", true, 0, 0), ("c", true, 0, 0)]) ∧
    rowOneAfter 30 (Server.init drawsSquaresThenT) (threePlayerSetup ++ hardDrops 10) "a" =
      some (false, .val 180, 0,
        [.num 0, .num 0, .num 0, .num 0, .str "#f0f000", .str "#f0f000", .num 0, .num 0,
          .num 0, .num 0]) ∧
    rowOneAfter 30 (Server.init drawsSquaresThenT) (threePlayerSetup ++ hardDrops 11) "a" =
      some (false, .val 180, 0,
        [.num 0, .num 0, .num 0, .str "#a000f0", .str "#a000f0", .str "#a000f0", .num 0,
          .num 0, .num 0, .num 0]) :=
  ⟨by decide, by decide, by decide⟩

theorem onGameMove_not_playing (fuel : Nat) (srv : Server) (socket : SocketId)
    (roomId : RoomId) (room : GameRoom) (move : Move)
    (hroom : srv.gameRooms.lookup roomId = some room)
    (hstatus : room.gameState ≠ RoomStatus.playing) :
    onGameMove fuel srv socket roomId move = .ok (srv, []) := by
  unfold onGameMove
  rw [hroom]
  cases srv.players.lookup socket with
  | none => rfl
  | some player =>
    simp only [hstatus, if_false]

theorem handleEvents_moves_not_playing (fuel : Nat) (srv : Server) (roomId : RoomId)
    (room : GameRoom) (hroom : srv.gameRooms.lookup roomId = some room)
    (hstatus : room.gameState ≠ RoomStatus.playing) :
    ∀ moves : List (SocketId × Move),
      handleEvents fuel srv (moves.map (fun m => Event.gameMove m.1 roomId m.2)) =
        .ok (srv, []) := by
  intro moves
  induction moves with
  | nil => rfl
  | cons m rest ih =>
    rw [List.map_cons]
    simp only [handleEvents, handleEvent,
      onGameMove_not_playing fuel srv m.1 roomId room m.2 hroom hstatus, ih]
    rfl

theorem handleGameOver_finishes (heap : Heap) (room : GameRoom) (player : Ref)
    (heap2 : Heap) (room2 : GameRoom) (emits : List Emit)
    (h : handleGameOver heap room player = .ok (heap2, room2, emits))
    (halive : (room.players.filter (fun m => (heap2 m.2).alive)).length ≤ 1) :
    room2.gameState = RoomStatus.finished ∧ (heap2 player).alive = false := by
  obtain ⟨gs, hgs, hsame⟩ := handleGameOver_ok_states heap room player heap2 room2 emits h
  have hdead : (heap2 player).alive = false := by
    unfold Player.alive
    rw [hsame player]
    simp [setObj]
  refine ⟨?_, hdead⟩
  unfold handleGameOver at h
  rw [hgs] at h
  simp only at h
  split at h
  · cases h
  · split at h
    · simp only [Except.ok.injEq, Prod.mk.injEq] at h
      rw [← h.2.1]
    · rename_i hnot
      simp only [Except.ok.injEq, Prod.mk.injEq] at h
      rw [← h.1] at halive
      exact absurd halive hnot

/-- C30 (amended): the `game:move` handler tests the status of the room, not the
alive flag of the member.  When `handleGameOver` has marked a member not alive and
at most one member of the room is alive afterwards, the room is finished; and once
the room is finished (or not playing for any other reason), every later sequence
of move, rotate, drop or hard_drop messages for that room, from any member, leaves
the whole server state unchanged, hence every member's board, score and lines, and
emits nothing. -/
theorem moves_ignored_once_room_finished (fuel : Nat) (srv : Server) (roomId : RoomId)
    (room : GameRoom) (moves : List (SocketId × Move))
    (hroom : srv.gameRooms.lookup roomId = some room)
    (hfinished : room.gameState = RoomStatus.finished) :
    handleEvents fuel srv (moves.map (fun m => Event.gameMove m.1 roomId m.2)) =
      .ok (srv, []) ∧
    (∀ socket, gameStateAfter fuel srv (moves.map (fun m => Event.gameMove m.1 roomId m.2))
      socket = gameStateAfter fuel srv [] socket) ∧
    (∀ (heap : Heap) (room0 : GameRoom) (player : Ref) (heap2 : Heap) (room2 : GameRoom)
        (emits : List Emit),
      handleGameOver heap room0 player = .ok (heap2, room2, emits) →
      (room0.players.filter (fun m => (heap2 m.2).alive)).length ≤ 1 →
      room2.gameState = RoomStatus.finished ∧ (heap2 player).alive = false) := by
  have hstatus : room.gameState ≠ RoomStatus.playing := by
    rw [hfinished]
    decide
  have hrun := handleEvents_moves_not_playing fuel srv roomId room hroom hstatus moves
  refine ⟨hrun, ?_, ?_⟩
  · intro socket
    unfold gameStateAfter
    rw [hrun]
    rfl
  · intro heap room0 player heap2 room2 emits h halive
    exact handleGameOver_finishes heap room0 player heap2 room2 emits h halive

/-- Witness for C30 (amended): on the server that holds the finished two-player
room, in which a is not alive, two hard drops of a and a move of b change
nothing. -/
theorem moves_ignored_once_room_finished_witness :
    (finishedServer.gameRooms.lookup "r" = some finishedRoom ∧
      finishedRoom.gameState = RoomStatus.finished ∧
      (finishedServer.heap 0).alive = false) ∧
    (handleEvents 30 finishedServer
        ([("a", ⟨"hard_drop", ""⟩), ("a", ⟨"hard_drop", ""⟩), ("b", ⟨"move", "left"⟩)].map
          (fun m => Event.gameMove m.1 "r" m.2)) =
      .ok (finishedServer, []) ∧
    (∀ socket, gameStateAfter 30 finishedServer
        ([("a", ⟨"hard_drop", ""⟩), ("a", ⟨"hard_drop", ""⟩), ("b", ⟨"move", "left"⟩)].map
          (fun m => Event.gameMove m.1 "r" m.2))
      socket = gameStateAfter 30 finishedServer [] socket) ∧
    (∀ (heap : Heap) (room0 : GameRoom) (player : Ref) (heap2 : Heap) (room2 : GameRoom)
        (emits : List Emit),
      handleGameOver heap room0 player = .ok (heap2, room2, emits) →
      (room0.players.filter (fun m => (heap2 m.2).alive)).length ≤ 1 →
      room2.gameState = RoomStatus.finished ∧ (heap2 player).alive = false)) :=
  ⟨⟨by decide, by decide, by decide⟩,
    moves_ignored_once_room_finished 30 finishedServer "r" finishedRoom
      [("a", ⟨"hard_drop", ""⟩), ("a", ⟨"hard_drop", ""⟩), ("b", ⟨"move", "left"⟩)]
      (by decide) (by decide)⟩

/-! ## Score submission and leaderboard -/

theorem invalidScoreData_iff (body : ScoreBody) :
    invalidScoreData body = false ↔
      (∃ n, body.playerName = some n ∧ n ≠ "") ∧ (∃ s, body.score = some s ∧ 0 < s) := by
  obtain ⟨name, score, lines, level, date⟩ := body
  cases name with
  | none => simp [invalidScoreData]
  | some n =>
    cases score with
    | none => simp [invalidScoreData]
    | some s =>
      simp only [invalidScoreData, Bool.or_eq_false_iff, beq_eq_false_iff_ne, ne_eq,
        decide_eq_false_iff_not, not_lt, Option.some.injEq, exists_eq_left']
      constructor
      · rintro ⟨⟨h1, h2⟩, h3⟩
        exact ⟨h1, by omega⟩
      · rintro ⟨h1, h2⟩
        exact ⟨⟨h1, by omega⟩, by omega⟩

theorem insertByScore_length (a : ScoreEntry) :
    ∀ l : List ScoreEntry, (insertByScore a l).length = l.length + 1
  | [] => rfl
  | b :: l => by
    unfold insertByScore
    split
    · rfl
    · simp [insertByScore_length a l]

theorem sortByScore_length : ∀ l : List ScoreEntry, (sortByScore l).length = l.length
  | [] => rfl
  | a :: l => by
    unfold sortByScore
    rw [insertByScore_length, sortByScore_length l]
    rfl

/-- C26: a submission with the name "Ann" and the score 0 is rejected with status
400 and the store is unchanged, because `!score` holds for 0; the same submission
with the score 1 is accepted with status 201 and appended.  In general a submission
is accepted (status 201) exactly when the name is present and non-empty and the
score is present and greater than 0, and is otherwise rejected with status 400 and
an unchanged store. -/
theorem score_zero_is_rejected :
    postSinglePlayerScore [] 1000 ⟨some "Ann", some 0, some 0, some 1, some 1000⟩ = (400, []) ∧
    invalidScoreData ⟨some "Ann", some 0, some 0, some 1, some 1000⟩ = true ∧
    (postSinglePlayerScore [] 1000 ⟨some "Ann", some 1, some 0, some 1, some 1000⟩).1 = 201 ∧
    (postSinglePlayerScore [] 1000 ⟨some "Ann", some 1, some 0, some 1, some 1000⟩).2.map
        (fun e => (e.id, e.score, e.rank)) = [(1, 1, some 1)] ∧
    ∀ (store : List ScoreEntry) (now : Int) (body : ScoreBody),
      ((postSinglePlayerScore store now body).1 = 201 ↔
        (∃ n, body.playerName = some n ∧ n ≠ "") ∧ (∃ s, body.score = some s ∧ 0 < s)) ∧
      ((postSinglePlayerScore store now body).1 ≠ 201 →
        postSinglePlayerScore store now body = (400, store)) ∧
      ((postSinglePlayerScore store now body).1 = 201 →
        (postSinglePlayerScore store now body).2.length = store.length + 1) := by
  refine ⟨by decide, by decide, by decide, by decide, ?_⟩
  intro store now body
  rw [← invalidScoreData_iff]
  unfold postSinglePlayerScore
  cases h : invalidScoreData body with
  | true => simp
  | false => simp [sortByScore_length]

/-- C27: after the accepted submissions of "Old" (score 500, dated more than a day
ago) and "New" (score 100, dated now), the leaderboard for the period all lists both
with the ranks 1 and 2, and the leaderboard for the period daily lists "New" alone,
at position 0, with the rank 2: the stored rank replaces `index + 1`. -/
theorem daily_leaderboard_keeps_stored_rank :
    (submitAll 100000000 []
        [⟨some "Old", some 500, some 12, some 2, some 0⟩,
          ⟨some "New", some 100, some 3, some 1, some 100000000⟩]).map
        (fun e => (e.score, e.date, e.rank)) =
      [(500, 0, some 1), (100, 100000000, some 2)] ∧
    (getSinglePlayerLeaderboard
        (submitAll 100000000 []
          [⟨some "Old", some 500, some 12, some 2, some 0⟩,
            ⟨some "New", some 100, some 3, some 1, some 100000000⟩])
        100000000 50 "all").1.map (fun e => (e.score, e.rank)) =
      [(500, some 1), (100, some 2)] ∧
    (getSinglePlayerLeaderboard
        (submitAll 100000000 []
          [⟨some "Old", some 500, some 12, some 2, some 0⟩,
            ⟨some "New", some 100, some 3, some 1, some 100000000⟩])
        100000000 50 "daily").1.map (fun e => (e.score, e.rank)) =
      [(100, some 2)] :=
  ⟨by decide, by decide, by decide⟩

end Tetris
